import Mathlib

/-!
# docker-deploy-server: the deploy pipeline

A shallow embedding of `src/db/db_connect.go`, `src/server/util.go` and
`src/server/deploy_service.go`.

Go values of type `error` are embedded as `Option String`: `none` is `nil` and
`some s` is an error whose `Error()` text is `s`.  Every collaborator of the
pipeline (status store, tracker, filesystem, subprocesses, coordination service)
is an oracle of the `World`, and a run of `deploy` is the list of the external
operations it issues, in program order.
-/

namespace DockerDeploy

/-! ## `db/db_connect.go` -/

/-- Status code `Queued`, the first name after the blank `iota` of the const block. -/
def Queued : Nat := 1
/-- Status code `Started`. -/
def Started : Nat := 2
/-- Status code `Success`. -/
def Success : Nat := 3
/-- Status code `Failed`. -/
def Failed : Nat := 4

/-- The columns of `DeployStatus` the pipeline reads or the gateway inserts. -/
structure DeployStatus where
  DeployID : String
  Environment : String
  ImageName : String
  ImageTag : String
  Status : Nat
  Message : String
  Log : String
deriving DecidableEq

/-- Text of `fmt.Sprintln(msg)` for a single string operand. -/
def sprintln (msg : String) : String := msg ++ "\n"

/-- Text of `fmt.Sprintf("ERR: %s\n%s\n", msg, err)`. -/
def errEntry (msg err : String) : String := "ERR: " ++ msg ++ "\n" ++ err ++ "\n"

/-- The row `QueueDeploy` hands to its `INSERT INTO deploys` statement
(the parameters bound to the seven `?` placeholders). -/
def QueueDeploy (deployID environment imageName imageTag : String) : DeployStatus :=
  let msg := "Queued deploy."
  let log := sprintln msg
  { DeployID := deployID, Environment := environment, ImageName := imageName,
    ImageTag := imageTag, Status := Started, Message := msg, Log := log }

/-! ## `server/deploy_request.go`, `server/options.go` -/

/-- The eleven fields of `DeployRequest`. -/
structure DeployRequest where
  DeployID : String
  ImageName : String
  ImageTag : String
  Environment : String
  EnvTag : String
  EtcdEndpoint : String
  Machine : String
  MetaMount : String
  NumCont : Int
  Registry : String
  Swarm : Bool
deriving DecidableEq

/-- The fields of `Options` the deploy service and the deploy handler read.
The map `Environments` is kept as an association list. -/
structure Options where
  RedisKeyLastDeploy : String
  RedisKeyQueue : String
  RedisPollInt : Int
  GitRoot : String
  GitRepo : String
  Project : String
  TempPath : String
  Environments : List (String × List (String × String)) := []
deriving DecidableEq

/-! ## `server/util.go` -/

/-- Constant `maxRandom` of `server/const.go`. -/
def maxRandom : Nat := 16

/-- How `cmd.Run()` ended: the process ran and exited with a status, or it
could not be run at all. -/
inductive RunOutcome where
  | exited (status : Nat)
  | notStarted (reason : String)
deriving DecidableEq

/-- What a subprocess leaves behind: how it ended and the two captured buffers. -/
structure ProcOutcome where
  run : RunOutcome
  stdout : String
  stderr : String
deriving DecidableEq

/-- The error returned by `cmd.Run()`: `nil` exactly for exit status zero. -/
def cmdRun : RunOutcome → Option String
  | .exited 0 => none
  | .exited (n + 1) => some ("exit status " ++ toString (n + 1))
  | .notStarted reason => some reason

/-- The function `execCmd`: result text and error. -/
def execCmd (p : ProcOutcome) : String × Option String :=
  let err := cmdRun p.run
  let result := p.stdout
  if p.stderr ≠ "" then ("", some p.stderr) else (result, err)

/-! ## The collaborators of the pipeline -/

/-- An error of `os.Stat`, with the verdict of `os.IsNotExist` on it. -/
structure FileError where
  text : String
  notExist : Bool
deriving DecidableEq

/-- A configuration file as viper sees it. -/
structure ConfigFile where
  /-- the error of reading or parsing the file, `none` when it loads -/
  parseErr : Option String
  /-- the value `GetInt` returns for a key -/
  getInt : String → Int
  /-- the error `Unmarshal` returns for the target it is given -/
  unmarshalErr : Option String
  /-- the key/value records the file holds, each a map kept as an association list -/
  records : List (List (String × String)) := []

/-- The outcomes of every external operation a run can issue. -/
structure World where
  /-- `db.QueryDeploy(deployID)` -/
  queryDeploy : String → Except String DeployStatus
  /-- `redis.HGet(key, field).Result()`: value and error -/
  hget : String → String → String × Option String
  /-- `redis.HSet(key, field, value).Result()`: error -/
  hset : String → String → String → Option String
  /-- the result of the `i`-th call of `mr.Intn`, before reduction to its bound -/
  rand : Nat → Nat
  /-- `os.MkdirAll(dir, os.ModePerm)` -/
  mkdirAll : String → Option String
  /-- the subprocess started for a script (a run starts each script at most once) -/
  run : String → ProcOutcome
  /-- `os.Stat(path)`: error -/
  stat : String → Option FileError
  /-- the configuration file of a given name in a directory, if there is one -/
  configFile : String → String → Option ConfigFile
  /-- `etcd2.NewEtcd2Connect(endpoint)`: error -/
  etcdConnect : String → Option String
  /-- `conn.Set(keys)`: error -/
  etcdSet : List (String × String) → Option String

/-- The external operations of a run, in the order they are issued. -/
inductive Event where
  | queryDeploy (deployID : String)
  | updateDeploy (deployID : String) (status : Nat) (message log : String)
  | logErrorf (text : String)
  | hget (key field : String)
  | hset (key field value : String)
  | mkdirAll (dir : String)
  | removeAll (dir : String)
  | exec (name : String) (args : List String)
  | stat (path : String)
  | readInConfig (name : String) (paths : List String)
  | etcdConnect (endpoint : String)
  | etcdSet (keys : List (String × String))
deriving DecidableEq

/-! ## `server/deploy_service.go` -/

/-- The text compared against in `executeCommand`. -/
def alreadyAchieved : String := "Desired container number already achieved\n"

/-- Result of `executeCommand`: the returned log and error, and what it issued. -/
structure CmdResult where
  log : String
  err : Option String
  events : List Event
deriving DecidableEq

/-- The function `executeCommand`, for the command `name args`. -/
def executeCommand (w : World) (name : String) (args : List String) (r : DeployRequest)
    (msg log : String) : CmdResult :=
  match (execCmd (w.run name)).2 with
  | some err =>
    if err = alreadyAchieved then
      { log := log, err := none, events := [.exec name args] }
    else
      let log := log ++ errEntry msg err
      { log := log, err := some err,
        events := [.exec name args, .updateDeploy r.DeployID Failed msg log] }
  | none => { log := log, err := none, events := [.exec name args] }

/-- The constant `chars` of `randomString`. -/
def randomChars : String := "abcdefghijklmnopqrstuvwxyz0123456789"

/-- The function `randomString`: `n` characters, the `i`-th being
`chars[mr.Intn(len(chars))]` for the `i`-th call of `mr.Intn`. -/
def World.randomString (w : World) (n : Nat) : String :=
  ⟨(List.range n).map (fun i => randomChars.data.getD (w.rand i % randomChars.length) 'a')⟩

/-- The function `createTempDirectory`: directory, error, and what it issued. -/
def createTempDirectory (w : World) (tempPath environment imageName : String) :
    (String × Option String) × List Event :=
  let tempDirectory :=
    tempPath ++ "/" ++ environment ++ "/" ++ imageName ++ "-" ++ w.randomString maxRandom
  match w.mkdirAll tempDirectory with
  | some err => (("", some err), [.mkdirAll tempDirectory])
  | none => ((tempDirectory, none), [.mkdirAll tempDirectory])

/-- The first directory of viper's config paths that holds a file of the name. -/
def findConfig (w : World) (name : String) : List String → Option ConfigFile
  | [] => none
  | p :: ps =>
    match w.configFile p name with
    | some c => some c
    | none => findConfig w name ps

/-- The call `v.ReadInConfig()` for a viper with the given name and paths. -/
def readInConfig (w : World) (name : String) (paths : List String) : Except String ConfigFile :=
  match findConfig w name paths with
  | none => .error ("Config File \"" ++ name ++ "\" Not Found")
  | some c =>
    match c.parseErr with
    | some e => .error e
    | none => .ok c

/-- The assignment `m[k] = v` on a map kept as an association list. -/
def mapSet (m : List (String × String)) (k v : String) : List (String × String) :=
  (k, v) :: m.filter (fun kv => kv.1 ≠ k)

/-- The index expression `m[k]` on a map kept as an association list: the zero
value for a missing key. -/
def mapGet (m : List (String × String)) (k : String) : String :=
  (m.lookup k).getD ""

/-- The function `readEtcdKeys`: the key map after the call, and what it issued.
The local `k` is declared without a value and handed to `Unmarshal` by value,
so the loop ranges over the empty slice. -/
def readEtcdKeys (w : World) (name : String) (paths : List String)
    (etcd2Keys : List (String × String)) : List (String × String) × List Event :=
  match readInConfig w name paths with
  | .ok c =>
    let k : List (List (String × String)) := []
    match c.unmarshalErr with
    | none =>
      (k.foldl (fun m rec => mapSet m (mapGet rec "key") (mapGet rec "value")) etcd2Keys,
        [.readInConfig name paths])
    | some _ => (etcd2Keys, [.readInConfig name paths])
  | .error _ => (etcd2Keys, [.readInConfig name paths])

/-- The function `updateEtcd`: message, error, and what it issued. -/
def updateEtcd (w : World) (o : Options) (r : DeployRequest) (tempDirectory : String) :
    (String × Option String) × List Event :=
  let etcd2Keys : List (String × String) := []
  let c := readEtcdKeys w (r.Environment ++ ".etcd2")
    [tempDirectory ++ "/" ++ o.GitRepo ++ "/roles/common/meta"] etcd2Keys
  let etcd2Keys := c.1
  let a := readEtcdKeys w (r.Environment ++ ".etcd2")
    [tempDirectory ++ "/" ++ o.GitRepo ++ "/roles/" ++ r.ImageName ++ "/meta"] etcd2Keys
  let etcd2Keys := a.1
  let t := c.2 ++ a.2
  if etcd2Keys.length ≤ 0 then (("", none), t)
  else
    match w.etcdConnect r.EtcdEndpoint with
    | some err => (("Unable to connect to etcd2 server.", some err),
        t ++ [.etcdConnect r.EtcdEndpoint])
    | none =>
      match w.etcdSet etcd2Keys with
      | some err => (("Unable to perform updates to etcd2 server.", some err),
          t ++ [.etcdConnect r.EtcdEndpoint, .etcdSet etcd2Keys])
      | none => (("", none), t ++ [.etcdConnect r.EtcdEndpoint, .etcdSet etcd2Keys])

/-- Text of `strings.Replace(s, old, new, -1)` for one-character `old` and `new`. -/
def replaceChar (s : String) (old new : Char) : String :=
  ⟨s.data.map (fun c => if c = old then new else c)⟩

/-- Text of `strconv.FormatBool`. -/
def formatBool (b : Bool) : String := if b then "true" else "false"

/-- Text of `strconv.FormatInt(n, 10)`. -/
def formatInt (n : Int) : String := toString n

/-- The two config paths added to the viper of source lines 146 to 149: the
metadata directory of the image, then the common one. -/
def numContPaths (o : Options) (r : DeployRequest) (tempDirectory : String) : List String :=
  [tempDirectory ++ "/" ++ o.GitRepo ++ "/roles/" ++ r.ImageName ++ "/meta",
    tempDirectory ++ "/" ++ o.GitRepo ++ "/roles/common/meta"]

/-- The value of the local `numCont` of `deploy` after source lines 145 to 154. -/
def deployNumCont (w : World) (o : Options) (r : DeployRequest) (tempDirectory : String) : Int :=
  let numCont := r.NumCont
  match readInConfig w "main" (numContPaths o r tempDirectory) with
  | .ok v =>
    let kc := v.getInt ("environments." ++ r.Environment ++ ".containers")
    if kc > 0 then kc else numCont
  | .error _ => numCont

/-- The end of `deploy`, from the container launch on (source lines 178 to 208). -/
def deployLaunch (w : World) (o : Options) (r : DeployRequest)
    (lastImageDeployKey lastImageTag tempDirectory : String) (numCont : Int) (log : String) :
    List Event :=
  -- Deploy containers to the machines.
  let service := replaceChar r.ImageName '-' '_'
  let sw := formatBool r.Swarm
  let msg := "Starting up containers."
  let log := log ++ sprintln msg
  Event.updateDeploy r.DeployID Started msg log ::
  let nc := formatInt numCont
  let lastImageTag := if lastImageTag = "" then r.ImageTag else lastImageTag
  let c := executeCommand w "./scripts/deploy-containers.sh"
    [r.ImageName, r.ImageTag, lastImageTag, r.Registry, service, r.Machine, nc, o.Project, sw,
      tempDirectory] r msg log
  let log := c.log
  c.events ++
  match c.err with
  | some _ => []
  | none =>
  -- Update redis with the image tag of the last deploy.
  Event.hset lastImageDeployKey r.ImageName r.ImageTag ::
  match w.hset lastImageDeployKey r.ImageName r.ImageTag with
  | some err =>
    let msg := "Unable to access redis server to set last deploy image tag."
    let log := log ++ errEntry msg err
    [Event.updateDeploy r.DeployID Failed msg log]
  | none =>
  -- Update as success.
  let msg := "Containers deployed successfully."
  let log := log ++ ("SUCCESS: " ++ msg ++ "\n")
  [Event.updateDeploy r.DeployID Success msg log]

/-- The body of `deploy` from the image download to the key publication (source
lines 111 to 176), continued by `deployLaunch`; it runs with the deferred removal
of the workspace pending. -/
def deployWorkspace (w : World) (o : Options) (r : DeployRequest)
    (lastImageDeployKey lastImageTag tempDirectory log : String) : List Event :=
  -- Download the image locally and extract out the docker-compose.yml.
  let msg := "Extracting meta-data from Docker image in registry."
  let log := log ++ sprintln msg
  Event.updateDeploy r.DeployID Started msg log ::
  let c := executeCommand w "./scripts/download-image.sh"
    [r.ImageTag, r.Registry, r.ImageName, tempDirectory] r msg log
  let log := c.log
  c.events ++
  match c.err with
  | some _ => []
  | none =>
  let path := tempDirectory ++ "/docker-compose.yml"
  Event.stat path ::
  match (w.stat path).filter (fun e => e.notExist) with
  | some err =>
    let msg := "docker-compose.yml file doesn't exist for this launch."
    let log := log ++ errEntry msg err.text
    [Event.updateDeploy r.DeployID Failed msg log]
  | none =>
  -- Download the github meta-data locally.
  let msg := "Downloading meta-data from git."
  let log := log ++ sprintln msg
  Event.updateDeploy r.DeployID Started msg log ::
  let c := executeCommand w "./scripts/download-metadata.sh"
    [o.GitRepo, o.GitRoot, tempDirectory] r msg log
  let log := c.log
  c.events ++
  match c.err with
  | some _ => []
  | none =>
  -- Extract out the number of containers.
  let msg := "Extracting number of containers to launch."
  let log := log ++ sprintln msg
  Event.updateDeploy r.DeployID Started msg log ::
  Event.readInConfig "main" (numContPaths o r tempDirectory) ::
  let numCont := deployNumCont w o r tempDirectory
  -- Deploy metadata to all machines in the environment.
  let msg := "Deploying meta-data."
  let log := log ++ sprintln msg
  Event.updateDeploy r.DeployID Started msg log ::
  let c := executeCommand w "./scripts/deploy-metadata.sh"
    [r.EnvTag, o.GitRepo, r.MetaMount, tempDirectory] r msg log
  let log := c.log
  c.events ++
  match c.err with
  | some _ => []
  | none =>
  -- Update the etcd keys in the cluster.
  if r.EtcdEndpoint ≠ "" then
    let msg := "Deploying etcd2 keys."
    let log := log ++ sprintln msg
    Event.updateDeploy r.DeployID Started msg log ::
    let u := updateEtcd w o r tempDirectory
    u.2 ++
    match u.1.2 with
    | some err =>
      let msg := u.1.1
      let log := log ++ errEntry msg err
      [Event.updateDeploy r.DeployID Failed msg log]
    | none => deployLaunch w o r lastImageDeployKey lastImageTag tempDirectory numCont log
  else deployLaunch w o r lastImageDeployKey lastImageTag tempDirectory numCont log

/-- The function `deploy`: the operations one run issues, in order. -/
def deploy (w : World) (o : Options) (r : DeployRequest) : List Event :=
  Event.queryDeploy r.DeployID ::
  match w.queryDeploy r.DeployID with
  | .error err =>
    let msg := "Could not get Deploy from MySQL for ID: "
    [Event.logErrorf ("ERR: " ++ msg ++ " " ++ r.DeployID ++ "\n" ++ err ++ "\n")]
  | .ok row =>
  let log := row.Log
  let msg := "Started Deploy."
  let log := log ++ sprintln msg
  Event.updateDeploy r.DeployID Started msg log ::
  -- Get last deploy image tag for this Docker image in the request.
  let lastImageDeployKey := o.RedisKeyLastDeploy ++ ":" ++ r.Environment
  let res := w.hget lastImageDeployKey r.ImageName
  let lastImageTag := res.1
  Event.hget lastImageDeployKey r.ImageName ::
  match res.2.filter (fun e => e ≠ "redis: nil") with
  | some err =>
    let msg := "Unable to access redis server for last deploy validation."
    let log := log ++ errEntry msg err
    [Event.updateDeploy r.DeployID Failed msg log]
  | none =>
  -- Create working temp directory for this deploy.
  let msg := "Creating working temp directory for this deploy."
  let log := log ++ sprintln msg
  Event.updateDeploy r.DeployID Started msg log ::
  let d := createTempDirectory w o.TempPath r.Environment r.ImageName
  let tempDirectory := d.1.1
  d.2 ++
  match d.1.2 with
  | some err =>
    let msg := "Unable to create temporary work directory on server."
    let log := log ++ errEntry msg err
    [Event.updateDeploy r.DeployID Failed msg log]
  | none =>
  -- the deferred os.RemoveAll(tempDirectory) runs when the rest of the body returns
  deployWorkspace w o r lastImageDeployKey lastImageTag tempDirectory log
    ++ [Event.removeAll tempDirectory]

/-! ## `server/util.go`: `createV4UUID` -/

/-- The upper-case hexadecimal digit of a value below sixteen. -/
def hexDigitUpper (n : Nat) : Char :=
  if n < 10 then Char.ofNat (48 + n) else Char.ofNat (55 + n)

/-- Text of the verb `%X` for one byte: two upper-case hexadecimal digits. -/
def hexByte (b : Nat) : List Char := [hexDigitUpper (b / 16 % 16), hexDigitUpper (b % 16)]

/-- Text of the verb `%X` for a byte slice. -/
def sprintX (bs : List Nat) : String := ⟨(bs.map hexByte).flatten⟩

/-- Text of `fmt.Sprintf("%X-%X-%X-%X-%X", u[0:4], u[4:6], u[6:8], u[8:10], u[10:])`. -/
def uuidText (u : List Nat) : String :=
  sprintX (u.take 4) ++ "-" ++ sprintX ((u.drop 4).take 2) ++ "-" ++
    sprintX ((u.drop 6).take 2) ++ "-" ++ sprintX ((u.drop 8).take 2) ++ "-" ++
    sprintX (u.drop 10)

/-- The function `createV4UUID`, for the sixteen bytes `rand.Read` leaves in `u`. -/
def createV4UUID (random : List Nat) : String :=
  let u := random
  -- 13th char must be 4 and 17th must be in [89AB]
  let u := u.set 8 ((u.getD 8 0 ||| 0x80) &&& 0xBF)
  let u := u.set 6 ((u.getD 6 0 ||| 0x40) &&& 0x4F)
  uuidText u

/-! ## `encoding/json` as `DeployRequest` uses it

`String` marshals a request and the worker unmarshals the queue payload; the two
library functions are embedded for this struct.  The texts of this section are lists
of characters: they cover requests whose strings are valid UTF-8, written as Go
before 1.22 writes them.  A later section embeds the two functions over bytes, for
all strings and for both versions of the library. -/

/-- The text `json.Marshal` writes for one character of a string: the quote and the
reverse solidus are escaped, as are the line feed, the carriage return and the tab;
the other control characters and `<`, `>`, `&` are written as a `u00` escape with
two hexadecimal digits, and U+2028 and U+2029 as `u2028` and `u2029` escapes.  (Go
1.22 and later write backspace and form feed as `b` and `f` escapes instead, see
`jsonEscapeByte`.) -/
def jsonEscapeChar (c : Char) : List Char :=
  if c = '"' then ['\\', '"']
  else if c = '\\' then ['\\', '\\']
  else if c = '\n' then ['\\', 'n']
  else if c = '\r' then ['\\', 'r']
  else if c = '\t' then ['\\', 't']
  else if c.toNat < 0x20 ∨ c = '<' ∨ c = '>' ∨ c = '&' then
    ['\\', 'u', '0', '0', Nat.digitChar (c.toNat / 16), Nat.digitChar (c.toNat % 16)]
  else if c.toNat = 0x2028 then ['\\', 'u', '2', '0', '2', '8']
  else if c.toNat = 0x2029 then ['\\', 'u', '2', '0', '2', '9']
  else [c]

/-- The escaped characters of a string. -/
def jsonEscape : List Char → List Char
  | [] => []
  | c :: cs => jsonEscapeChar c ++ jsonEscape cs

/-- The text `json.Marshal` writes for a string, followed by `rest`. -/
def jsonString (s : String) (rest : List Char) : List Char :=
  '"' :: (jsonEscape s.data ++ '"' :: rest)

/-- The text `json.Marshal` writes for a boolean. -/
def jsonBoolText (b : Bool) : List Char := if b then "true".data else "false".data

/-- The function `String` of `DeployRequest`, for a request whose strings are valid
UTF-8: the text of `json.Marshal(r)`, an object with the eleven fields in the order
of their declaration, each under the name of its `json` tag.
`RawDeployRequest.String` is the same function over all strings. -/
def DeployRequest.String (r : DeployRequest) : String :=
  ⟨'\x7b' ::
    jsonString "deployID" (':' :: jsonString r.DeployID (',' ::
    jsonString "imageName" (':' :: jsonString r.ImageName (',' ::
    jsonString "imageTag" (':' :: jsonString r.ImageTag (',' ::
    jsonString "environment" (':' :: jsonString r.Environment (',' ::
    jsonString "envTag" (':' :: jsonString r.EnvTag (',' ::
    jsonString "etcdEndpoint" (':' :: jsonString r.EtcdEndpoint (',' ::
    jsonString "machine" (':' :: jsonString r.Machine (',' ::
    jsonString "metaMount" (':' :: jsonString r.MetaMount (',' ::
    jsonString "numCont" (':' :: ((formatInt r.NumCont).data ++ (',' ::
    jsonString "registry" (':' :: jsonString r.Registry (',' ::
    jsonString "swarm" (':' :: (jsonBoolText r.Swarm ++ ['\x7d'])))))))))))))))))))))))⟩

/-- The value of a hexadecimal digit. -/
def hexVal (c : Char) : Option Nat :=
  if '0' ≤ c ∧ c ≤ '9' then some (c.toNat - 48)
  else if 'a' ≤ c ∧ c ≤ 'f' then some (c.toNat - 87)
  else if 'A' ≤ c ∧ c ≤ 'F' then some (c.toNat - 55)
  else none

/-- The character a one-letter escape stands for. -/
def jsonUnescape (e : Char) : Option Char :=
  if e = '"' then some '"'
  else if e = '\\' then some '\\'
  else if e = '/' then some '/'
  else if e = 'b' then some (Char.ofNat 8)
  else if e = 'f' then some (Char.ofNat 12)
  else if e = 'n' then some '\n'
  else if e = 'r' then some '\r'
  else if e = 't' then some '\t'
  else none

/-- The character of a `u` escape of four hexadecimal digits; a surrogate half is read as U+FFFD (pairs
of surrogate escapes, which the library combines, are not embedded). -/
def jsonCodeUnit (v : Nat) : Char :=
  if 0xD800 ≤ v ∧ v < 0xE000 then Char.ofNat 0xFFFD else Char.ofNat v

/-- Where the reader of a string literal stands: in plain text, after a reverse
solidus, or after `k` hexadecimal digits of a `u` escape whose value so far is `v`. -/
inductive JsonScan where
  | text
  | escape
  | hex (k v : Nat)
deriving DecidableEq

/-- Reads a string literal after its opening quote, one character at a time: the
characters it stands for and the text after its closing quote; `none` on a syntax
error. -/
def jsonUnquote : JsonScan → List Char → Option (List Char × List Char)
  | _, [] => none
  | .text, c :: cs =>
    if c = '"' then some ([], cs)
    else if c = '\\' then jsonUnquote .escape cs
    else if c.toNat < 0x20 then none
    else (jsonUnquote .text cs).map (fun p => (c :: p.1, p.2))
  | .escape, e :: cs =>
    if e = 'u' then jsonUnquote (.hex 0 0) cs
    else
      match jsonUnescape e with
      | some ch => (jsonUnquote .text cs).map (fun p => (ch :: p.1, p.2))
      | none => none
  | .hex k v, h :: cs =>
    match hexVal h with
    | some x =>
      if k = 3 then
        (jsonUnquote .text cs).map (fun p => (jsonCodeUnit (v * 16 + x) :: p.1, p.2))
      else jsonUnquote (.hex (k + 1) (v * 16 + x)) cs
    | none => none

/-- Reads a string literal: the string and the text after it. -/
def jsonStringLit : List Char → Option (String × List Char)
  | '"' :: cs => (jsonUnquote .text cs).map (fun p => (⟨p.1⟩, p.2))
  | _ => none

/-- The leading decimal digits of a text, and the text after them. -/
def jsonDigits : List Char → List Char × List Char
  | [] => ([], [])
  | c :: cs =>
    if c.isDigit then ((c :: (jsonDigits cs).1), (jsonDigits cs).2) else ([], c :: cs)

/-- The number a list of decimal digits writes. -/
def digitsValue (ds : List Char) : Nat := ds.foldl (fun a c => 10 * a + (c.toNat - 48)) 0

/-- Reads a number into a field of type `int`: an optional minus sign and decimal
digits without a superfluous leading zero; a fraction or an exponent, or a value
outside 64 bits, is an error. -/
def jsonInt (cs : List Char) : Option (Int × List Char) :=
  let neg := cs.head? = some '-'
  let p := jsonDigits (if neg then cs.tail else cs)
  let v : Int := if neg then -(digitsValue p.1 : Int) else (digitsValue p.1 : Int)
  if p.1 = [] then none
  else if p.1.head? = some '0' ∧ p.1.length ≠ 1 then none
  else if p.2.head? = some '.' ∨ p.2.head? = some 'e' ∨ p.2.head? = some 'E' then none
  else if v < -(2 : Int) ^ 63 ∨ (2 : Int) ^ 63 ≤ v then none
  else some (v, p.2)

/-- Reads a boolean literal. -/
def jsonBool : List Char → Option (Bool × List Char)
  | 't' :: 'r' :: 'u' :: 'e' :: cs => some (true, cs)
  | 'f' :: 'a' :: 'l' :: 's' :: 'e' :: cs => some (false, cs)
  | _ => none

/-- Stores the value of the member `key` read from `cs` into the request: the field
is chosen by its `json` tag, and a value of another kind than the field is an error.
A member of another name is read and dropped. -/
def jsonSetField (r : DeployRequest) (key : String) (cs : List Char) :
    Option (DeployRequest × List Char) :=
  if key = "deployID" then (jsonStringLit cs).map (fun p => ({ r with DeployID := p.1 }, p.2))
  else if key = "imageName" then
    (jsonStringLit cs).map (fun p => ({ r with ImageName := p.1 }, p.2))
  else if key = "imageTag" then
    (jsonStringLit cs).map (fun p => ({ r with ImageTag := p.1 }, p.2))
  else if key = "environment" then
    (jsonStringLit cs).map (fun p => ({ r with Environment := p.1 }, p.2))
  else if key = "envTag" then (jsonStringLit cs).map (fun p => ({ r with EnvTag := p.1 }, p.2))
  else if key = "etcdEndpoint" then
    (jsonStringLit cs).map (fun p => ({ r with EtcdEndpoint := p.1 }, p.2))
  else if key = "machine" then
    (jsonStringLit cs).map (fun p => ({ r with Machine := p.1 }, p.2))
  else if key = "metaMount" then
    (jsonStringLit cs).map (fun p => ({ r with MetaMount := p.1 }, p.2))
  else if key = "numCont" then (jsonInt cs).map (fun p => ({ r with NumCont := p.1 }, p.2))
  else if key = "registry" then
    (jsonStringLit cs).map (fun p => ({ r with Registry := p.1 }, p.2))
  else if key = "swarm" then (jsonBool cs).map (fun p => ({ r with Swarm := p.1 }, p.2))
  else
    match jsonStringLit cs, jsonInt cs, jsonBool cs with
    | some p, _, _ => some (r, p.2)
    | none, some p, _ => some (r, p.2)
    | none, none, some p => some (r, p.2)
    | none, none, none => none

/-- Reads the members of an object into the request, up to the closing brace that
ends the text; `fuel` bounds the number of members. -/
def jsonMembers : Nat → DeployRequest → List Char → Option DeployRequest
  | 0, _, _ => none
  | fuel + 1, r, cs =>
    match jsonStringLit cs with
    | some (key, ':' :: cs1) =>
      match jsonSetField r key cs1 with
      | some (r1, ',' :: cs2) => jsonMembers fuel r1 cs2
      | some (r1, ['\x7d']) => some r1
      | _ => none
    | _ => none

/-- The zero value of `DeployRequest`, as `var r DeployRequest` declares it. -/
def zeroDeployRequest : DeployRequest :=
  { DeployID := "", ImageName := "", ImageTag := "", Environment := "", EnvTag := "",
    EtcdEndpoint := "", Machine := "", MetaMount := "", NumCont := 0, Registry := "",
    Swarm := false }

/-- The call `json.Unmarshal(b, &r)` on a zero `r`, for a text that is one object of
string, integer and boolean members written without white space and named as the
`json` tags are (the form `String` produces); any other text is reported as an error
here, also where the library reads it, and the error text is not the one of the
library. -/
def jsonUnmarshal (b : String) : Except String DeployRequest :=
  match b.data with
  | ['\x7b', '\x7d'] => .ok zeroDeployRequest
  | '\x7b' :: cs =>
    match jsonMembers cs.length zeroDeployRequest cs with
    | some r => .ok r
    | none => .error "invalid character in object"
  | _ => .error "invalid character looking for beginning of value"

/-! ## `server/server.go`: `deployHandler` -/

/-- Constant `DefaultImageTag` of `server/const.go`. -/
def DefaultImageTag : String := "latest"

/-- Constant `DefaultNumCont` of `server/const.go`. -/
def DefaultNumCont : Int := 2

/-- Constant `InvalidMediaType`. -/
def InvalidMediaType : String := "Invalid Content-Type or Accept header value."
/-- Constant `InvalidMethod`. -/
def InvalidMethod : String := "Invalid Method for this route."
/-- Constant `InvalidBody`. -/
def InvalidBody : String := "Invalid body of text in request."
/-- Constant `InvalidJSONText`. -/
def InvalidJSONText : String := "Invalid JSON format in text of body in request."
/-- Constant `InvalidAuthorization`. -/
def InvalidAuthorization : String := "Invalid authorization."
/-- Constant `InvalidEnvAuthorization`. -/
def InvalidEnvAuthorization : String := "Invalid authorization for environment."
/-- Constant `InvalidDeployEnv`. -/
def InvalidDeployEnv : String := "Invalid 'deployEnvironment'."
/-- Constant `InvalidDeployImage`. -/
def InvalidDeployImage : String := "Invalid 'image'."
/-- Constant `InvalidDeployCannotQueue`. -/
def InvalidDeployCannotQueue : String := "Cannot queue deploy request at this time."

/-- Status `http.StatusBadRequest`. -/
def StatusBadRequest : Nat := 400
/-- Status `http.StatusUnauthorized`. -/
def StatusUnauthorized : Nat := 401
/-- Status `http.StatusMethodNotAllowed`. -/
def StatusMethodNotAllowed : Nat := 405
/-- Status `http.StatusUnsupportedMediaType`. -/
def StatusUnsupportedMediaType : Nat := 415
/-- Status `http.StatusServiceUnavailable`. -/
def StatusServiceUnavailable : Nat := 503

/-- What the handlers read of an `http.Request`. -/
structure HttpRequest where
  /-- `r.Method` -/
  Method : String
  /-- `r.Header.Get("Content-Type")` -/
  ContentType : String
  /-- `r.Header.Get("Accept")` -/
  Accept : String
  /-- `r.Header.Get("Authorization")` -/
  Authorization : String
  /-- `ioutil.ReadAll(r.Body)` -/
  Body : Except String String

/-- The collaborators of the deploy handler for one request. -/
structure Gateway where
  /-- `w.Header().Get("X-Request-ID")` -/
  requestID : String
  /-- `db.ValidAuth(key)` -/
  validAuth : String → Bool
  /-- `db.AuthDeployEnv(key, env)` -/
  authDeployEnv : String → String → Bool
  /-- `json.Unmarshal(b, &d)` on a zero `d`, for the body a client sends -/
  unmarshal : String → Except String DeployRequest
  /-- `redis.RPush(key, value).Result()`: error -/
  rpush : String → String → Option String

/-- The operations of a handler, in the order they are issued. -/
inductive GatewayEvent where
  | httpError (message : String) (code : Nat)
  | write (body : String)
  | rpush (key payload : String)
  | queueDeploy (row : DeployStatus)
deriving DecidableEq

/-- The function `invalidHeader`: its result and what it wrote. -/
def invalidHeader (req : HttpRequest) : Bool × List GatewayEvent :=
  if req.ContentType ≠ "application/json" ∨ req.Accept ≠ "application/json" then
    (true, [.httpError InvalidMediaType StatusUnsupportedMediaType])
  else (false, [])

/-- The function `invalidMethod`: its result and what it wrote. -/
def invalidMethod (req : HttpRequest) (method : String) : Bool × List GatewayEvent :=
  if req.Method ≠ method then (true, [.httpError InvalidMethod StatusMethodNotAllowed])
  else (false, [])

/-- The function `invalidAuth`: its result and what it wrote. -/
def invalidAuth (g : Gateway) (req : HttpRequest) : Bool × List GatewayEvent :=
  if !g.validAuth (req.Authorization.replace "Bearer " "") then
    (true, [.httpError InvalidAuthorization StatusUnauthorized])
  else (false, [])

/-- The function `authDeployEnvironment`: its result and what it wrote. -/
def authDeployEnvironment (g : Gateway) (req : HttpRequest) (env : String) :
    Bool × List GatewayEvent :=
  if !g.authDeployEnv (req.Authorization.replace "Bearer " "") env then
    (true, [.httpError InvalidEnvAuthorization StatusUnauthorized])
  else (false, [])

/-- The value of `strconv.ParseUint(s, 10, 32)` before its range check: `none` on
a syntax error (no character, or a character that is not a decimal digit). -/
def parseUintDigits (cs : List Char) : Option Nat :=
  if cs = [] then none
  else if cs.all Char.isDigit then some (digitsValue cs)
  else none

/-- The value of `strconv.ParseInt(s, 10, 32)` when its error is nil, `none` when
it is not (syntax error, or a value outside 32 bits). -/
def parseInt32 (s : String) : Option Int :=
  match s.data with
  | [] => none
  | c :: cs =>
    let neg := c = '-'
    let ds := if c = '+' ∨ c = '-' then cs else c :: cs
    match parseUintDigits ds with
    | none => none
    | some un =>
      if ¬neg ∧ un ≥ 2 ^ 31 then none
      else if neg ∧ un > 2 ^ 31 then none
      else some (if neg then -(un : Int) else (un : Int))

/-- The value of `strconv.ParseBool(s)`, which is `false` when it reports an error. -/
def parseBool (s : String) : Bool :=
  s = "1" ∨ s = "t" ∨ s = "T" ∨ s = "TRUE" ∨ s = "true" ∨ s = "True"

/-- The expression `s.opt.Environments[env][key]`: the zero value when the
environment or the key is missing. -/
def envGet (o : Options) (env key : String) : String :=
  mapGet ((o.Environments.lookup env).getD []) key

/-- The function `NewDeployRequest`. -/
def NewDeployRequest (deployID imageName imageTag environment envTag etcdEndpoint machine
    metaMount : String) (numCont : Int) (registry : String) (swarm : Bool) : DeployRequest :=
  { DeployID := deployID, ImageName := imageName, ImageTag := imageTag,
    Environment := environment, EnvTag := envTag, EtcdEndpoint := etcdEndpoint,
    Machine := machine, MetaMount := metaMount, NumCont := numCont, Registry := registry,
    Swarm := swarm }

/-- The value of `payload` in `deployHandler` (source lines 263 to 279), for the
request identifier and the request `d` decoded from the body. -/
def deployPayload (o : Options) (reqID : String) (d : DeployRequest) : DeployRequest :=
  let d := if d.ImageTag = "" then { d with ImageTag := DefaultImageTag } else d
  -- Format extra meta-data for the deploy.
  let numCont : Int := 0
  let numCont :=
    match parseInt32 (envGet o d.Environment "num_containers") with
    | some i => i
    | none => numCont
  let numCont := if d.NumCont = 0 then DefaultNumCont else numCont
  let swarm := parseBool (envGet o d.Environment "swarm")
  NewDeployRequest reqID d.ImageName d.ImageTag d.Environment
    (envGet o d.Environment "env_tag") (envGet o d.Environment "etcd_endpoint")
    (envGet o d.Environment "machine") (envGet o d.Environment "metadata_mount") numCont
    (envGet o d.Environment "docker_registry") swarm

/-- The function `deployHandler`: the operations it issues for one request. -/
def deployHandler (g : Gateway) (o : Options) (req : HttpRequest) : List GatewayEvent :=
  if (invalidHeader req).1 then (invalidHeader req).2
  else if (invalidMethod req "POST").1 then (invalidMethod req "POST").2
  else if (invalidAuth g req).1 then (invalidAuth g req).2
  else
  let reqID := g.requestID
  -- Get the payload into a request struct.
  match req.Body with
  | .error _ => [.httpError InvalidBody StatusBadRequest]
  | .ok b =>
  match g.unmarshal b with
  | .error _ => [.httpError InvalidJSONText StatusBadRequest]
  | .ok d =>
  -- Is environment deployable from this server?
  if (o.Environments.lookup d.Environment).isNone then
    [.httpError InvalidDeployEnv StatusBadRequest]
  -- Does the user have auth for deploys against this env?
  else if (authDeployEnvironment g req d.Environment).1 then
    (authDeployEnvironment g req d.Environment).2
  -- Is there an image to deploy in the payload?
  else if d.ImageName = "" then [.httpError InvalidDeployImage StatusBadRequest]
  else
  let payload := deployPayload o reqID d
  -- Push the payload into the queue.
  .rpush o.RedisKeyQueue payload.String ::
  match g.rpush o.RedisKeyQueue payload.String with
  | some _ => [.httpError InvalidDeployCannotQueue StatusServiceUnavailable]
  | none =>
    [.queueDeploy (QueueDeploy payload.DeployID payload.Environment payload.ImageName
        payload.ImageTag),
      .write ("\x7b\"deployID\":\"" ++ reqID ++ "\"\x7d")]

/-! ## `server/deploy_service.go`: `Run` -/

/-- What one turn of the loop of `Run` finds. -/
structure Turn where
  /-- the `done` channel is ready when the `select` is evaluated -/
  done : Bool
  /-- `redis.RPop(key).Result()`: value and error -/
  rpop : String × Option String
  /-- `json.Unmarshal(b, &r)` on a zero `r` -/
  unmarshal : String → Except String DeployRequest
  /-- the collaborators of the deploy run of this turn -/
  world : World

/-- The operations of the worker, in the order they are issued. -/
inductive RunEvent where
  | wgAdd
  | wgDone
  | dbClose
  | redisClose
  | rpop (key : String)
  | logErrorf (text : String)
  | deployOp (e : Event)
  | sleep (seconds : Int)
deriving DecidableEq

/-- One evaluation of the `select` of `Run`: whether `Run` returns in it, and the
operations it issues.  A `break` leaves the `select`, not the loop. -/
def runSelect (o : Options) (t : Turn) : Bool × List RunEvent :=
  if t.done then
    -- Server signal quit
    (true, [.dbClose, .redisClose])
  else
    (false,
      .rpop o.RedisKeyQueue ::
      match t.rpop.2.filter (fun e => e ≠ "redis: nil") with
      | some err => [.logErrorf err]
      | none =>
        if t.rpop.1 = "" then []
        else
          match t.unmarshal t.rpop.1 with
          | .error err => [.logErrorf err]
          | .ok r => (deploy t.world o r).map .deployOp)

/-- The loop of `Run` over the turns it is given: one `select`, then the sleep of
the poll interval, then the next turn; whether `Run` returned within these turns,
and the operations issued. -/
def runLoop (o : Options) : List Turn → Bool × List RunEvent
  | [] => (false, [])
  | t :: ts =>
    if (runSelect o t).1 then (true, (runSelect o t).2)
    else
      ((runLoop o ts).1, (runSelect o t).2 ++ .sleep o.RedisPollInt :: (runLoop o ts).2)

/-- The function `Run`, for the turns its loop takes: whether it returned within
them, and the operations issued (the deferred `wg.Done` runs when it returns). -/
def Run (o : Options) (turns : List Turn) : Bool × List RunEvent :=
  ((runLoop o turns).1,
    .wgAdd :: (runLoop o turns).2 ++ (if (runLoop o turns).1 then [.wgDone] else []))

/-! ## Observations on a run -/

/-- The status, message and log of a status write; `none` for any other operation. -/
def statusWrite : Event → Option (Nat × String × String)
  | .updateDeploy _ s m l => some (s, m, l)
  | _ => none

/-- The status writes (`UpdateDeploy` calls) of a run, in order. -/
def statusWrites (t : List Event) : List (Nat × String × String) := t.filterMap statusWrite

/-- The log column of the status writes of a run, in order. -/
def writtenLogs (t : List Event) : List String := (statusWrites t).map (fun x => x.2.2)

/-- The script name of a subprocess start; `none` for any other operation. -/
def execName : Event → Option String
  | .exec name _ => some name
  | _ => none

/-- The script names of the subprocesses a run starts, in order. -/
def execNames (t : List Event) : List String := t.filterMap execName

/-- The value of a tracker set operation; `none` for any other operation. -/
def trackerSet : Event → Option (String × String × String)
  | .hset k f v => some (k, f, v)
  | _ => none

/-- The tracker set operations of a run, in order. -/
def trackerSets (t : List Event) : List (String × String × String) := t.filterMap trackerSet

/-- The name of a configuration read; `none` for any other operation. -/
def configRead : Event → Option String
  | .readInConfig name _ => some name
  | _ => none

/-- The names of the configuration files a run reads, in order. -/
def configReads (t : List Event) : List String := t.filterMap configRead

/-- The operation is a call to the coordination service. -/
def isEtcdCall : Event → Bool
  | .etcdConnect _ => true
  | .etcdSet _ => true
  | _ => false

/-- The calls to the coordination service in a run, in order. -/
def etcdCalls (t : List Event) : List Event := t.filter isEtcdCall

/-- The string `a` is a proper prefix of `b`. -/
def properPrefix (a b : String) : Prop := a.data <+: b.data ∧ a.data.length < b.data.length

instance (a b : String) : Decidable (properPrefix a b) := by
  unfold properPrefix; exact inferInstance

/-- The executor step lets the pipeline continue: `executeCommand` returns a nil error. -/
def stepPasses (p : ProcOutcome) : Prop :=
  (execCmd p).2 = none ∨ (execCmd p).2 = some alreadyAchieved

instance (p : ProcOutcome) : Decidable (stepPasses p) := by
  unfold stepPasses; exact inferInstance

/-- The executor step fails with error text `e`: `executeCommand` returns that error. -/
def stepFails (p : ProcOutcome) (e : String) : Prop :=
  (execCmd p).2 = some e ∧ e ≠ alreadyAchieved

instance (p : ProcOutcome) (e : String) : Decidable (stepFails p e) := by
  unfold stepFails; exact inferInstance

/-! ## The names, logs and operations along a run -/

/-- The tracker key of a request: `<RedisKeyLastDeploy>:<environment>`. -/
def lastDeployKey (o : Options) (r : DeployRequest) : String :=
  o.RedisKeyLastDeploy ++ ":" ++ r.Environment

/-- The workspace directory `createTempDirectory` names for a request. -/
def tempDirName (w : World) (o : Options) (r : DeployRequest) : String :=
  o.TempPath ++ "/" ++ r.Environment ++ "/" ++ r.ImageName ++ "-" ++ w.randomString maxRandom

/-- The start of the image download script. -/
def evImage (w : World) (o : Options) (r : DeployRequest) : Event :=
  .exec "./scripts/download-image.sh" [r.ImageTag, r.Registry, r.ImageName, tempDirName w o r]

/-- The start of the metadata download script. -/
def evMeta (w : World) (o : Options) (r : DeployRequest) : Event :=
  .exec "./scripts/download-metadata.sh" [o.GitRepo, o.GitRoot, tempDirName w o r]

/-- The start of the metadata publication script. -/
def evPublish (w : World) (o : Options) (r : DeployRequest) : Event :=
  .exec "./scripts/deploy-metadata.sh" [r.EnvTag, o.GitRepo, r.MetaMount, tempDirName w o r]

/-- The start of the launch script. -/
def evLaunch (w : World) (o : Options) (r : DeployRequest) : Event :=
  .exec "./scripts/deploy-containers.sh"
    [r.ImageName, r.ImageTag,
      if (w.hget (lastDeployKey o r) r.ImageName).1 = "" then r.ImageTag
      else (w.hget (lastDeployKey o r) r.ImageName).1,
      r.Registry, replaceChar r.ImageName '-' '_', r.Machine, formatInt (deployNumCont w o r (tempDirName w o r)),
      o.Project, formatBool r.Swarm, tempDirName w o r]

/-- The tracker set operation of a request. -/
def evTrackerSet (o : Options) (r : DeployRequest) : Event :=
  .hset (lastDeployKey o r) r.ImageName r.ImageTag

/-- The deferred removal of the workspace. -/
def evCleanup (w : World) (o : Options) (r : DeployRequest) : Event :=
  .removeAll (tempDirName w o r)

/-- The log when the workspace is created. -/
def logWorkspace (row : DeployStatus) : String :=
  row.Log ++ sprintln "Started Deploy." ++
    sprintln "Creating working temp directory for this deploy."

/-- The log when the image download starts. -/
def logImage (row : DeployStatus) : String :=
  logWorkspace row ++ sprintln "Extracting meta-data from Docker image in registry."

/-- The log when the metadata download starts. -/
def logMeta (row : DeployStatus) : String :=
  logImage row ++ sprintln "Downloading meta-data from git."

/-- The log when the metadata publication starts. -/
def logPublish (row : DeployStatus) : String :=
  logMeta row ++ sprintln "Extracting number of containers to launch." ++
    sprintln "Deploying meta-data."

/-- The log when the key publication, if any, is over. -/
def logKeys (r : DeployRequest) (row : DeployStatus) : String :=
  if r.EtcdEndpoint ≠ "" then logPublish row ++ sprintln "Deploying etcd2 keys."
  else logPublish row

/-- The log when the launch starts. -/
def logLaunch (r : DeployRequest) (row : DeployStatus) : String :=
  logKeys r row ++ sprintln "Starting up containers."

/-- The operations of a run before the image download script starts. -/
def upToImage (w : World) (o : Options) (r : DeployRequest) (row : DeployStatus) : List Event :=
  [.queryDeploy r.DeployID,
    .updateDeploy r.DeployID Started "Started Deploy." (row.Log ++ sprintln "Started Deploy."),
    .hget (lastDeployKey o r) r.ImageName,
    .updateDeploy r.DeployID Started "Creating working temp directory for this deploy."
      (logWorkspace row),
    .mkdirAll (tempDirName w o r),
    .updateDeploy r.DeployID Started "Extracting meta-data from Docker image in registry."
      (logImage row)]

/-- The operations of a run before the metadata download script starts. -/
def upToMeta (w : World) (o : Options) (r : DeployRequest) (row : DeployStatus) : List Event :=
  upToImage w o r row ++
  [evImage w o r, .stat (tempDirName w o r ++ "/docker-compose.yml"),
    .updateDeploy r.DeployID Started "Downloading meta-data from git." (logMeta row)]

/-- The operations of a run before the metadata publication script starts. -/
def upToPublish (w : World) (o : Options) (r : DeployRequest) (row : DeployStatus) :
    List Event :=
  upToMeta w o r row ++
  [evMeta w o r,
    .updateDeploy r.DeployID Started "Extracting number of containers to launch."
      (logMeta row ++ sprintln "Extracting number of containers to launch."),
    .readInConfig "main" (numContPaths o r (tempDirName w o r)),
    .updateDeploy r.DeployID Started "Deploying meta-data." (logPublish row)]

/-- The operations of the key publication step, none without an endpoint. -/
def keySteps (w : World) (o : Options) (r : DeployRequest) (row : DeployStatus) : List Event :=
  if r.EtcdEndpoint ≠ "" then
    [.updateDeploy r.DeployID Started "Deploying etcd2 keys." (logKeys r row),
      .readInConfig (r.Environment ++ ".etcd2")
        [tempDirName w o r ++ "/" ++ o.GitRepo ++ "/roles/common/meta"],
      .readInConfig (r.Environment ++ ".etcd2")
        [tempDirName w o r ++ "/" ++ o.GitRepo ++ "/roles/" ++ r.ImageName ++ "/meta"]]
  else []

/-- The operations of a run before the launch script starts. -/
def upToLaunch (w : World) (o : Options) (r : DeployRequest) (row : DeployStatus) : List Event :=
  upToPublish w o r row ++ evPublish w o r :: keySteps w o r row ++
  [.updateDeploy r.DeployID Started "Starting up containers." (logLaunch r row)]

/-- The run reads its status row, passes the tracker lookup and creates its workspace. -/
def reachesImage (w : World) (o : Options) (r : DeployRequest) (row : DeployStatus) : Prop :=
  w.queryDeploy r.DeployID = .ok row ∧
  ((w.hget (lastDeployKey o r) r.ImageName).2 = none ∨
    (w.hget (lastDeployKey o r) r.ImageName).2 = some "redis: nil") ∧
  w.mkdirAll (tempDirName w o r) = none

/-- The run gets as far as the metadata download: the image download passes and
`os.IsNotExist` does not hold of the manifest check. -/
def reachesMeta (w : World) (o : Options) (r : DeployRequest) (row : DeployStatus) : Prop :=
  reachesImage w o r row ∧ stepPasses (w.run "./scripts/download-image.sh") ∧
  ∀ e, w.stat (tempDirName w o r ++ "/docker-compose.yml") = some e → e.notExist = false

/-- The run gets as far as the metadata publication. -/
def reachesPublish (w : World) (o : Options) (r : DeployRequest) (row : DeployStatus) : Prop :=
  reachesMeta w o r row ∧ stepPasses (w.run "./scripts/download-metadata.sh")

/-- The run gets as far as the launch: every step before it succeeds. -/
def reachesLaunch (w : World) (o : Options) (r : DeployRequest) (row : DeployStatus) : Prop :=
  reachesPublish w o r row ∧ stepPasses (w.run "./scripts/deploy-metadata.sh")

/-- The world in which every subprocess writes `out name` to standard output
instead of what it wrote, all else being the same. -/
def withStdout (w : World) (out : String → String) : World :=
  { w with run := fun name => { w.run name with stdout := out name } }

/-! ## Sample inputs -/

/-- A subprocess that exits with status zero and writes nothing. -/
def quietProc : ProcOutcome := { run := .exited 0, stdout := "", stderr := "" }

/-- Sample options (the defaults of `server/const.go` where there is one). -/
def sampleOptions : Options :=
  { RedisKeyLastDeploy := "docker-deploy-server:lastdeploy",
    RedisKeyQueue := "docker-deploy-server:queue", RedisPollInt := 5,
    GitRoot := "git@github.com:acme", GitRepo := "meta", Project := "docker",
    TempPath := "/tmp/docker-deploy-server" }

/-- Sample request: image `foo` at tag `v2` for environment `qa`. -/
def sampleRequest : DeployRequest :=
  { DeployID := "d1", ImageName := "foo", ImageTag := "v2", Environment := "qa",
    EnvTag := "qa", EtcdEndpoint := "", Machine := "m1", MetaMount := "/meta",
    NumCont := 2, Registry := "reg", Swarm := false }

/-- The status row the gateway inserted for the sample request. -/
def sampleRow : DeployStatus := QueueDeploy "d1" "qa" "foo" "v2"

/-- A world in which the status row exists and every operation succeeds, up to
the given tracker lookup, manifest check and subprocess outcomes. -/
def sampleWorld (hget : String × Option String) (stat : Option FileError)
    (run : String → ProcOutcome) : World :=
  { queryDeploy := fun _ => .ok sampleRow,
    hget := fun _ _ => hget,
    hset := fun _ _ _ => none,
    rand := fun i => if i < 8 then i else i + 18,
    mkdirAll := fun _ => none,
    run := run,
    stat := fun _ => stat,
    configFile := fun _ _ => none,
    etcdConnect := fun _ => none,
    etcdSet := fun _ => none }

/-- Subprocess outcomes in which the launch script exits with status one and
writes the already-achieved line to its standard error. -/
def launchSaysAchieved (name : String) : ProcOutcome :=
  if name = "./scripts/deploy-containers.sh" then
    { run := .exited 1, stdout := "", stderr := "Desired container number already achieved\n" }
  else quietProc

/-- Subprocess outcomes in which the metadata download writes to its standard error. -/
def metaDownloadFails (name : String) : ProcOutcome :=
  if name = "./scripts/download-metadata.sh" then
    { run := .exited 128, stdout := "", stderr := "fatal: repository not found\n" }
  else quietProc

/-- A subprocess that exits with status zero and writes a line to standard output. -/
def chattyProc : ProcOutcome := { run := .exited 0, stdout := "pulled v2\n", stderr := "" }

/-- A metadata file `main` that sets `environments.qa.containers` to five. -/
def sampleMeta : ConfigFile :=
  { parseErr := none,
    getInt := fun k => if k = "environments.qa.containers" then 5 else 0,
    unmarshalErr := some "result must be a pointer" }

/-- The sample world with the tracker entry `v1`, every step succeeding, and the
metadata file `sampleMeta` in the common metadata directory only. -/
def sampleWorldWithMeta : World :=
  { sampleWorld ("v1", none) none (fun _ => quietProc) with
    configFile := fun dir name =>
      if dir = "/tmp/docker-deploy-server/qa/foo-abcdefgh01234567/meta/roles/common/meta" ∧
          name = "main" then some sampleMeta
      else none }

/-- Sample options with the environment `qa`, configured for five containers. -/
def sampleEnvOptions : Options :=
  { sampleOptions with
    Environments :=
      [("qa", [("num_containers", "5"), ("swarm", "false"), ("env_tag", "qa"),
        ("etcd_endpoint", ""), ("machine", "m1"), ("metadata_mount", "/meta"),
        ("docker_registry", "reg")])] }

/-- A gateway whose database accepts every token, whose queue accepts every push,
and which reads bodies that are flat JSON objects. -/
def sampleGateway : Gateway :=
  { requestID := "d1",
    validAuth := fun _ => true,
    authDeployEnv := fun _ _ => true,
    unmarshal := jsonUnmarshal,
    rpush := fun _ _ => none }

/-- A `POST` with the given content type and body, accepting JSON. -/
def sampleHttp (contentType body : String) : HttpRequest :=
  { Method := "POST", ContentType := contentType, Accept := "application/json",
    Authorization := "Bearer 0123456789", Body := .ok body }

/-- The body of a client asking for image `foo` at tag `v2` in environment `qa`. -/
def sampleBody : String :=
  "\x7b\"imageName\":\"foo\",\"imageTag\":\"v2\",\"environment\":\"qa\"\x7d"

/-- The body of a client asking for an environment the server does not know. -/
def unknownEnvBody : String :=
  "\x7b\"imageName\":\"foo\",\"imageTag\":\"v2\",\"environment\":\"nope\"\x7d"

/-- A metadata file `qa.etcd2` holding one record for the key `/app/log`. -/
def sampleKeys (value : String) : ConfigFile :=
  { parseErr := none, getInt := fun _ => 0, unmarshalErr := some "result must be a pointer",
    records := [[("key", "/app/log"), ("value", value)]] }

/-- The sample world with a record for `/app/log` in the common metadata (`info`)
and in the metadata of the image (`debug`). -/
def sampleWorldWithKeys : World :=
  { sampleWorld ("v1", none) none (fun _ => quietProc) with
    configFile := fun dir name =>
      if name = "qa.etcd2" ∧ dir = "/tmp/ws/meta/roles/common/meta" then some (sampleKeys "info")
      else if name = "qa.etcd2" ∧ dir = "/tmp/ws/meta/roles/foo/meta" then
        some (sampleKeys "debug")
      else none }

/-- A turn of the worker in which nothing is ready and the queue is empty. -/
def idleTurn : Turn :=
  { done := false, rpop := ("", some "redis: nil"), unmarshal := jsonUnmarshal,
    world := sampleWorld ("v1", none) none (fun _ => quietProc) }

/-- Sample turns: a queue read error, an empty queue, a payload that is not JSON,
the sample request, then the shutdown signal, then a turn that is never taken. -/
def sampleTurns : List Turn :=
  [{ idleTurn with rpop := ("", some "dial tcp: connection refused") },
    idleTurn,
    { idleTurn with rpop := ("not json", none) },
    { idleTurn with rpop := (sampleRequest.String, none) },
    { idleTurn with done := true },
    idleTurn]

/-! ## One subprocess outcome replaced by another -/

/-- The world in which the subprocess started for `script` ends as `p`, all else
being the same. -/
def withOutcome (w : World) (script : String) (p : ProcOutcome) : World :=
  { w with run := fun name => if name = script then p else w.run name }

/-- A subprocess that exits with status one, writes nothing to standard output and
writes the already-achieved line to its standard error. -/
def achievedProc : ProcOutcome :=
  { run := .exited 1, stdout := "", stderr := "Desired container number already achieved\n" }

/-! ## Strings as Go holds them: `unicode/utf8` and `encoding/json` over bytes

A Go `string` is a sequence of bytes, which need not be valid UTF-8.  The definitions
above keep text as `String`, a sequence of Unicode scalar values, and so cover the
strings that are valid UTF-8.  This section keeps a string as the list of its bytes
and embeds `json.Marshal` and `json.Unmarshal` for `DeployRequest` over all strings. -/

/-- The constant `utf8.RuneError`, U+FFFD. -/
def RuneError : Nat := 0xFFFD

/-- The function `utf8.DecodeRune`: the rune at the head of the bytes and its width;
`(RuneError, 1)` when the head starts no valid encoding, `(RuneError, 0)` for no
bytes.  The second byte of a three or four byte encoding has a narrower range after
`E0`, `ED`, `F0` and `F4` (no overlong forms, no surrogates, nothing above U+10FFFF). -/
def utf8DecodeRune : List Nat → Nat × Nat
  | [] => (RuneError, 0)
  | b0 :: rest =>
    if b0 < 0x80 then (b0, 1)
    else if 0xC2 ≤ b0 ∧ b0 ≤ 0xDF then
      match rest with
      | b1 :: _ =>
        if 0x80 ≤ b1 ∧ b1 ≤ 0xBF then ((b0 - 0xC0) * 64 + (b1 - 0x80), 2) else (RuneError, 1)
      | _ => (RuneError, 1)
    else if 0xE0 ≤ b0 ∧ b0 ≤ 0xEF then
      match rest with
      | b1 :: b2 :: _ =>
        if (if b0 = 0xE0 then 0xA0 else 0x80) ≤ b1 ∧ b1 ≤ (if b0 = 0xED then 0x9F else 0xBF) ∧
            0x80 ≤ b2 ∧ b2 ≤ 0xBF then
          ((b0 - 0xE0) * 4096 + (b1 - 0x80) * 64 + (b2 - 0x80), 3)
        else (RuneError, 1)
      | _ => (RuneError, 1)
    else if 0xF0 ≤ b0 ∧ b0 ≤ 0xF4 then
      match rest with
      | b1 :: b2 :: b3 :: _ =>
        if (if b0 = 0xF0 then 0x90 else 0x80) ≤ b1 ∧ b1 ≤ (if b0 = 0xF4 then 0x8F else 0xBF) ∧
            0x80 ≤ b2 ∧ b2 ≤ 0xBF ∧ 0x80 ≤ b3 ∧ b3 ≤ 0xBF then
          ((b0 - 0xF0) * 262144 + (b1 - 0x80) * 4096 + (b2 - 0x80) * 64 + (b3 - 0x80), 4)
        else (RuneError, 1)
      | _ => (RuneError, 1)
    else (RuneError, 1)

/-- The function `utf8.EncodeRune`: the bytes of a rune; a surrogate or a value
above U+10FFFF is written as `RuneError`. -/
def utf8EncodeRune (r : Nat) : List Nat :=
  if r < 0x80 then [r]
  else if r < 0x800 then [0xC0 + r / 64, 0x80 + r % 64]
  else if 0x10FFFF < r ∨ (0xD800 ≤ r ∧ r ≤ 0xDFFF) then [0xEF, 0xBF, 0xBD]
  else if r < 0x10000 then [0xE0 + r / 4096, 0x80 + r / 64 % 64, 0x80 + r % 64]
  else [0xF0 + r / 262144, 0x80 + r / 4096 % 64, 0x80 + r / 64 % 64, 0x80 + r % 64]

/-- The bytes of a string that is valid UTF-8, given by its scalar values. -/
def utf8Bytes (cs : List Char) : List Nat :=
  cs.flatMap (fun c => utf8EncodeRune c.toNat)

/-- The loop of `utf8.Valid`: no position of the bytes starts an invalid encoding.
Each turn takes at least one byte, so `fuel` of the length of the bytes is enough. -/
def utf8ValidLoop : Nat → List Nat → Bool
  | 0, bs => bs.isEmpty
  | _ + 1, [] => true
  | fuel + 1, b :: rest =>
    if (utf8DecodeRune (b :: rest)).1 = RuneError ∧ (utf8DecodeRune (b :: rest)).2 = 1 then false
    else utf8ValidLoop fuel (rest.drop ((utf8DecodeRune (b :: rest)).2 - 1))

/-- The function `utf8.Valid`. -/
def utf8Valid (bs : List Nat) : Bool := utf8ValidLoop bs.length bs

/-- The bytes with every byte that starts no valid encoding replaced by the three
bytes of U+FFFD: what a string becomes when it is written by `json.Marshal` and read
back by `json.Unmarshal`. -/
def utf8CoerceLoop : Nat → List Nat → List Nat
  | 0, _ => []
  | _ + 1, [] => []
  | fuel + 1, b :: rest =>
    if (utf8DecodeRune (b :: rest)).1 = RuneError ∧ (utf8DecodeRune (b :: rest)).2 = 1 then
      [0xEF, 0xBF, 0xBD] ++ utf8CoerceLoop fuel rest
    else
      (b :: rest).take (utf8DecodeRune (b :: rest)).2 ++
        utf8CoerceLoop fuel (rest.drop ((utf8DecodeRune (b :: rest)).2 - 1))

/-- The coerced bytes of a string, see `utf8CoerceLoop`. -/
def utf8Coerce (bs : List Nat) : List Nat := utf8CoerceLoop bs.length bs

/-- The byte of the lower-case hexadecimal digit of a value below sixteen
(`"0123456789abcdef"[n]`). -/
def jsonHex (n : Nat) : Nat := if n < 10 then 0x30 + n else 0x57 + n

/-- The table `htmlSafeSet`: the ASCII bytes from the space on that `json.Marshal`
copies as they are, which leaves out the quote, the reverse solidus, `<`, `>`, `&`. -/
def htmlSafe (b : Nat) : Bool :=
  decide (0x20 ≤ b ∧ b < 0x80 ∧ b ≠ 0x22 ∧ b ≠ 0x5C ∧ b ≠ 0x3C ∧ b ≠ 0x3E ∧ b ≠ 0x26)

/-- The bytes `json.Marshal` writes for one ASCII byte of a string.  The quote and
the reverse solidus get a reverse solidus in front; line feed, carriage return and
tab are written `\n`, `\r`, `\t`; every other byte outside `htmlSafeSet` is written
as `\u00` and two hexadecimal digits, except that the library of Go 1.22 and later
(`go122`) writes backspace and form feed as `\b` and `\f`. -/
def jsonEscapeByte (go122 : Bool) (b : Nat) : List Nat :=
  if htmlSafe b = true then [b]
  else if b = 0x5C ∨ b = 0x22 then [0x5C, b]
  else if go122 = true ∧ b = 0x08 then [0x5C, 0x62]
  else if go122 = true ∧ b = 0x0C then [0x5C, 0x66]
  else if b = 0x0A then [0x5C, 0x6E]
  else if b = 0x0D then [0x5C, 0x72]
  else if b = 0x09 then [0x5C, 0x74]
  else [0x5C, 0x75, 0x30, 0x30, jsonHex (b / 16), jsonHex (b % 16)]

/-- The loop of `appendString` of `encoding/json` (with `escapeHTML` set, as
`json.Marshal` sets it): an ASCII byte is written by `jsonEscapeByte`; a byte that
starts no valid encoding is written as the six bytes of the escape `u` `fffd`;
U+2028 and U+2029 are written as the escapes `u` `2028` and `u` `2029`; the bytes of
any other rune are copied.  Each turn takes at least one byte, so `fuel` of the
length of the bytes is enough. -/
def jsonEscapeLoop (go122 : Bool) : Nat → List Nat → List Nat
  | 0, _ => []
  | _ + 1, [] => []
  | fuel + 1, b :: rest =>
    if b < 0x80 then jsonEscapeByte go122 b ++ jsonEscapeLoop go122 fuel rest
    else if (utf8DecodeRune (b :: rest)).1 = RuneError ∧ (utf8DecodeRune (b :: rest)).2 = 1 then
      [0x5C, 0x75, 0x66, 0x66, 0x66, 0x64] ++ jsonEscapeLoop go122 fuel rest
    else if (utf8DecodeRune (b :: rest)).1 = 0x2028 ∨ (utf8DecodeRune (b :: rest)).1 = 0x2029 then
      [0x5C, 0x75, 0x32, 0x30, 0x32, jsonHex ((utf8DecodeRune (b :: rest)).1 % 16)] ++
        jsonEscapeLoop go122 fuel (rest.drop ((utf8DecodeRune (b :: rest)).2 - 1))
    else
      (b :: rest).take (utf8DecodeRune (b :: rest)).2 ++
        jsonEscapeLoop go122 fuel (rest.drop ((utf8DecodeRune (b :: rest)).2 - 1))

/-- The bytes `json.Marshal` writes for a string, followed by `rest`. -/
def jsonStringBytes (go122 : Bool) (s rest : List Nat) : List Nat :=
  0x22 :: (jsonEscapeLoop go122 s.length s ++ 0x22 :: rest)

/-- The bytes of a text of ASCII characters. -/
def asciiBytes (s : String) : List Nat := s.data.map Char.toNat

/-- The struct `DeployRequest` with every `string` field as the bytes Go holds. -/
structure RawDeployRequest where
  DeployID : List Nat
  ImageName : List Nat
  ImageTag : List Nat
  Environment : List Nat
  EnvTag : List Nat
  EtcdEndpoint : List Nat
  Machine : List Nat
  MetaMount : List Nat
  NumCont : Int
  Registry : List Nat
  Swarm : Bool
deriving DecidableEq

/-- The request whose string fields are the UTF-8 bytes of the given texts. -/
def DeployRequest.raw (r : DeployRequest) : RawDeployRequest :=
  { DeployID := utf8Bytes r.DeployID.data, ImageName := utf8Bytes r.ImageName.data,
    ImageTag := utf8Bytes r.ImageTag.data, Environment := utf8Bytes r.Environment.data,
    EnvTag := utf8Bytes r.EnvTag.data, EtcdEndpoint := utf8Bytes r.EtcdEndpoint.data,
    Machine := utf8Bytes r.Machine.data, MetaMount := utf8Bytes r.MetaMount.data,
    NumCont := r.NumCont, Registry := utf8Bytes r.Registry.data, Swarm := r.Swarm }

/-- The request with every string field coerced to valid UTF-8. -/
def RawDeployRequest.coerce (r : RawDeployRequest) : RawDeployRequest :=
  { DeployID := utf8Coerce r.DeployID, ImageName := utf8Coerce r.ImageName,
    ImageTag := utf8Coerce r.ImageTag, Environment := utf8Coerce r.Environment,
    EnvTag := utf8Coerce r.EnvTag, EtcdEndpoint := utf8Coerce r.EtcdEndpoint,
    Machine := utf8Coerce r.Machine, MetaMount := utf8Coerce r.MetaMount,
    NumCont := r.NumCont, Registry := utf8Coerce r.Registry, Swarm := r.Swarm }

/-- Every string field of the request is valid UTF-8. -/
def RawDeployRequest.valid (r : RawDeployRequest) : Bool :=
  utf8Valid r.DeployID && utf8Valid r.ImageName && utf8Valid r.ImageTag &&
    utf8Valid r.Environment && utf8Valid r.EnvTag && utf8Valid r.EtcdEndpoint &&
    utf8Valid r.Machine && utf8Valid r.MetaMount && utf8Valid r.Registry

/-- The function `String` of `DeployRequest` over bytes: the bytes of
`json.Marshal(r)`, an object with the eleven fields in the order of their
declaration, each under the name of its `json` tag. -/
def RawDeployRequest.String (go122 : Bool) (r : RawDeployRequest) : List Nat :=
  0x7B ::
    jsonStringBytes go122 (asciiBytes "deployID") (0x3A :: jsonStringBytes go122 r.DeployID (0x2C ::
    jsonStringBytes go122 (asciiBytes "imageName") (0x3A :: jsonStringBytes go122 r.ImageName (0x2C ::
    jsonStringBytes go122 (asciiBytes "imageTag") (0x3A :: jsonStringBytes go122 r.ImageTag (0x2C ::
    jsonStringBytes go122 (asciiBytes "environment") (0x3A :: jsonStringBytes go122 r.Environment (0x2C ::
    jsonStringBytes go122 (asciiBytes "envTag") (0x3A :: jsonStringBytes go122 r.EnvTag (0x2C ::
    jsonStringBytes go122 (asciiBytes "etcdEndpoint") (0x3A :: jsonStringBytes go122 r.EtcdEndpoint (0x2C ::
    jsonStringBytes go122 (asciiBytes "machine") (0x3A :: jsonStringBytes go122 r.Machine (0x2C ::
    jsonStringBytes go122 (asciiBytes "metaMount") (0x3A :: jsonStringBytes go122 r.MetaMount (0x2C ::
    jsonStringBytes go122 (asciiBytes "numCont") (0x3A :: (asciiBytes (formatInt r.NumCont) ++ (0x2C ::
    jsonStringBytes go122 (asciiBytes "registry") (0x3A :: jsonStringBytes go122 r.Registry (0x2C ::
    jsonStringBytes go122 (asciiBytes "swarm") (0x3A ::
      (asciiBytes (if r.Swarm then "true" else "false") ++ [0x7D])))))))))))))))))))))))

/-- Where the reader of a string literal stands: in plain text; with `k` more bytes
of a rune it has read to pass over; after a reverse solidus; after `k` hexadecimal
digits of a `u` escape whose value so far is `v`; and, after a `u` escape that gave
the surrogate `hi`, before the reverse solidus of a second escape, before its `u`,
or after `k` of its hexadecimal digits. -/
inductive JsonByteScan where
  | text
  | skip (k : Nat)
  | escape
  | hex (k v : Nat)
  | pair (hi : Nat)
  | pairU (hi : Nat)
  | pairHex (hi k v : Nat)
deriving DecidableEq

/-- What the reader of a string literal does with one byte: it fails, it ends the
literal, or it goes on in a new state; `out` is what it adds to the string. -/
inductive JsonStep where
  | fail
  | done (out : List Nat)
  | emit (out : List Nat) (next : JsonByteScan)
deriving DecidableEq

/-- The step with `pre` written before what it adds. -/
def JsonStep.after (pre : List Nat) : JsonStep → JsonStep
  | .fail => .fail
  | .done out => .done (pre ++ out)
  | .emit out next => .emit (pre ++ out) next

/-- The value of a hexadecimal digit given by its byte. -/
def hexValByte (c : Nat) : Option Nat :=
  if 0x30 ≤ c ∧ c ≤ 0x39 then some (c - 0x30)
  else if 0x61 ≤ c ∧ c ≤ 0x66 then some (c - 0x57)
  else if 0x41 ≤ c ∧ c ≤ 0x46 then some (c - 0x37)
  else none

/-- The byte a one-letter escape stands for: `"`, `\`, `/`, `b`, `f`, `n`, `r`, `t`. -/
def jsonUnescapeByte (e : Nat) : Option Nat :=
  if e = 0x22 then some 0x22
  else if e = 0x5C then some 0x5C
  else if e = 0x2F then some 0x2F
  else if e = 0x62 then some 0x08
  else if e = 0x66 then some 0x0C
  else if e = 0x6E then some 0x0A
  else if e = 0x72 then some 0x0D
  else if e = 0x74 then some 0x09
  else none

/-- A byte of plain text, followed by `cs`: the quote ends the literal, the reverse
solidus starts an escape, a control byte is an error, another ASCII byte stands for
itself, and any other byte is read by `utf8.DecodeRune` and written back by
`utf8.EncodeRune`, which coerces the string to valid UTF-8. -/
def jsonStepText (c : Nat) (cs : List Nat) : JsonStep :=
  if c = 0x22 then .done []
  else if c = 0x5C then .emit [] .escape
  else if c < 0x20 then .fail
  else if c < 0x80 then .emit [c] .text
  else
    .emit (utf8EncodeRune (utf8DecodeRune (c :: cs)).1)
      (if (utf8DecodeRune (c :: cs)).2 ≤ 1 then .text
        else .skip ((utf8DecodeRune (c :: cs)).2 - 1))

/-- The byte after a reverse solidus. -/
def jsonStepEscape (e : Nat) : JsonStep :=
  if e = 0x75 then .emit [] (.hex 0 0)
  else
    match jsonUnescapeByte e with
    | some b => .emit [b] .text
    | none => .fail

/-- The end of a `u` escape of value `v`: a surrogate waits for a second escape,
any other value is written by `utf8.EncodeRune`. -/
def jsonStepUnit (v : Nat) : JsonStep :=
  if 0xD800 ≤ v ∧ v < 0xE000 then .emit [] (.pair v) else .emit (utf8EncodeRune v) .text

/-- One step of the reader of a string literal, for the byte `c` followed by `cs`.
A surrogate escape that is not the first half of a pair of escapes is read as
U+FFFD, and what follows it is read on its own. -/
def jsonStep (st : JsonByteScan) (c : Nat) (cs : List Nat) : JsonStep :=
  match st with
  | .text => jsonStepText c cs
  | .skip k => .emit [] (if k ≤ 1 then .text else .skip (k - 1))
  | .escape => jsonStepEscape c
  | .hex k v =>
    match hexValByte c with
    | some x => if k = 3 then jsonStepUnit (v * 16 + x) else .emit [] (.hex (k + 1) (v * 16 + x))
    | none => .fail
  | .pair hi =>
    if c = 0x5C then .emit [] (.pairU hi) else (jsonStepText c cs).after [0xEF, 0xBF, 0xBD]
  | .pairU hi =>
    if c = 0x75 then .emit [] (.pairHex hi 0 0) else (jsonStepEscape c).after [0xEF, 0xBF, 0xBD]
  | .pairHex hi k v =>
    match hexValByte c with
    | some x =>
      if k = 3 then
        if hi < 0xDC00 ∧ 0xDC00 ≤ v * 16 + x ∧ v * 16 + x < 0xE000 then
          .emit (utf8EncodeRune (0x10000 + (hi - 0xD800) * 1024 + (v * 16 + x - 0xDC00))) .text
        else (jsonStepUnit (v * 16 + x)).after [0xEF, 0xBF, 0xBD]
      else .emit [] (.pairHex hi (k + 1) (v * 16 + x))
    | none => .fail

/-- Reads a string literal after its opening quote, one byte at a time: the bytes of
the string it stands for and the bytes after its closing quote; `none` on a syntax
error. -/
def jsonUnquoteBytes : JsonByteScan → List Nat → Option (List Nat × List Nat)
  | _, [] => none
  | st, c :: cs =>
    match jsonStep st c cs with
    | .fail => none
    | .done out => some (out, cs)
    | .emit out next => (jsonUnquoteBytes next cs).map (fun p => (out ++ p.1, p.2))

/-- Reads a string literal: the bytes of the string and the bytes after it. -/
def jsonStringLitBytes : List Nat → Option (List Nat × List Nat)
  | [] => none
  | c :: cs => if c = 0x22 then jsonUnquoteBytes .text cs else none

/-- The leading decimal digits of the bytes, and the bytes after them. -/
def jsonDigitsBytes : List Nat → List Nat × List Nat
  | [] => ([], [])
  | c :: cs =>
    if 0x30 ≤ c ∧ c ≤ 0x39 then ((c :: (jsonDigitsBytes cs).1), (jsonDigitsBytes cs).2)
    else ([], c :: cs)

/-- The number a list of decimal digits writes. -/
def digitsValueBytes (ds : List Nat) : Nat := ds.foldl (fun a c => 10 * a + (c - 0x30)) 0

/-- Reads a number into a field of type `int`: an optional minus sign and decimal
digits without a superfluous leading zero; a fraction or an exponent, or a value
outside 64 bits, is an error. -/
def jsonIntBytes (cs : List Nat) : Option (Int × List Nat) :=
  let neg := cs.head? = some 0x2D
  let p := jsonDigitsBytes (if neg then cs.tail else cs)
  let v : Int := if neg then -(digitsValueBytes p.1 : Int) else (digitsValueBytes p.1 : Int)
  if p.1 = [] then none
  else if p.1.head? = some 0x30 ∧ p.1.length ≠ 1 then none
  else if p.2.head? = some 0x2E ∨ p.2.head? = some 0x65 ∨ p.2.head? = some 0x45 then none
  else if v < -(2 : Int) ^ 63 ∨ (2 : Int) ^ 63 ≤ v then none
  else some (v, p.2)

/-- Reads a boolean literal. -/
def jsonBoolBytes (cs : List Nat) : Option (Bool × List Nat) :=
  if cs.take 4 = asciiBytes "true" then some (true, cs.drop 4)
  else if cs.take 5 = asciiBytes "false" then some (false, cs.drop 5)
  else none

/-- The loop of `jsonFoldName`; `skip` counts the bytes still to pass over of a
rune that is already folded. -/
def jsonFoldLoop : Nat → List Nat → List Nat
  | _, [] => []
  | skip + 1, _ :: rest => jsonFoldLoop skip rest
  | 0, b :: rest =>
    if 0x61 ≤ b ∧ b ≤ 0x7A then (b - 0x20) :: jsonFoldLoop 0 rest
    else if b = 0xE2 ∧ rest.take 2 = [0x84, 0xAA] then 0x4B :: jsonFoldLoop 2 rest
    else if b = 0xC5 ∧ rest.take 1 = [0xBF] then 0x53 :: jsonFoldLoop 1 rest
    else b :: jsonFoldLoop 0 rest

/-- The folded form of a member name, equal for two names exactly when
`bytes.EqualFold` holds of them, as far as names that fold to ASCII go: an ASCII
letter is folded to upper case, and the Kelvin sign (`E2 84 AA`) and the long s
(`C5 BF`) are folded to `K` and `S`.  Other bytes are kept, and a name that keeps
a byte above `7F` matches none of the fields, whose names are ASCII. -/
def jsonFoldName (name : List Nat) : List Nat := jsonFoldLoop 0 name

/-- The member `key` names the field of tag `tag`: the names are equal, or equal
under case folding. -/
def jsonNames (key : List Nat) (tag : String) : Bool :=
  decide (jsonFoldName key = jsonFoldName (asciiBytes tag))

/-- Stores the value of the member `key` read from `cs` into the request: the field
is chosen by its `json` tag, and a value of another kind than the field is an error.
A member that names no field is read and dropped. -/
def jsonSetFieldBytes (r : RawDeployRequest) (key cs : List Nat) :
    Option (RawDeployRequest × List Nat) :=
  if jsonNames key "deployID" = true then
    (jsonStringLitBytes cs).map (fun p => ({ r with DeployID := p.1 }, p.2))
  else if jsonNames key "imageName" = true then
    (jsonStringLitBytes cs).map (fun p => ({ r with ImageName := p.1 }, p.2))
  else if jsonNames key "imageTag" = true then
    (jsonStringLitBytes cs).map (fun p => ({ r with ImageTag := p.1 }, p.2))
  else if jsonNames key "environment" = true then
    (jsonStringLitBytes cs).map (fun p => ({ r with Environment := p.1 }, p.2))
  else if jsonNames key "envTag" = true then
    (jsonStringLitBytes cs).map (fun p => ({ r with EnvTag := p.1 }, p.2))
  else if jsonNames key "etcdEndpoint" = true then
    (jsonStringLitBytes cs).map (fun p => ({ r with EtcdEndpoint := p.1 }, p.2))
  else if jsonNames key "machine" = true then
    (jsonStringLitBytes cs).map (fun p => ({ r with Machine := p.1 }, p.2))
  else if jsonNames key "metaMount" = true then
    (jsonStringLitBytes cs).map (fun p => ({ r with MetaMount := p.1 }, p.2))
  else if jsonNames key "numCont" = true then
    (jsonIntBytes cs).map (fun p => ({ r with NumCont := p.1 }, p.2))
  else if jsonNames key "registry" = true then
    (jsonStringLitBytes cs).map (fun p => ({ r with Registry := p.1 }, p.2))
  else if jsonNames key "swarm" = true then
    (jsonBoolBytes cs).map (fun p => ({ r with Swarm := p.1 }, p.2))
  else
    match jsonStringLitBytes cs, jsonIntBytes cs, jsonBoolBytes cs with
    | some p, _, _ => some (r, p.2)
    | none, some p, _ => some (r, p.2)
    | none, none, some p => some (r, p.2)
    | none, none, none => none

/-- Reads the members of an object into the request, up to the closing brace that
ends the bytes; `fuel` bounds the number of members. -/
def jsonMembersBytes : Nat → RawDeployRequest → List Nat → Option RawDeployRequest
  | 0, _, _ => none
  | fuel + 1, r, cs =>
    match jsonStringLitBytes cs with
    | some (key, c :: cs1) =>
      if c = 0x3A then
        match jsonSetFieldBytes r key cs1 with
        | some (r1, d :: cs2) =>
          if d = 0x2C then jsonMembersBytes fuel r1 cs2
          else if d = 0x7D ∧ cs2 = [] then some r1
          else none
        | _ => none
      else none
    | _ => none

/-- The zero value of `DeployRequest` over bytes. -/
def zeroRawDeployRequest : RawDeployRequest :=
  { DeployID := [], ImageName := [], ImageTag := [], Environment := [], EnvTag := [],
    EtcdEndpoint := [], Machine := [], MetaMount := [], NumCont := 0, Registry := [],
    Swarm := false }

/-- The call `json.Unmarshal(b, &r)` on a zero `r`, for bytes that are one object of
string, integer and boolean members written without white space (the form `String`
produces): the request read, or `none` when the library returns an error.  Any other
bytes are given `none` here, also where the library reads them. -/
def jsonUnmarshalBytes (b : List Nat) : Option RawDeployRequest :=
  match b with
  | [] => none
  | c :: cs =>
    if c = 0x7B then
      if cs = [0x7D] then some zeroRawDeployRequest
      else jsonMembersBytes cs.length zeroRawDeployRequest cs
    else none

/-- A request whose image name is the three bytes `66 FF 6F`: the byte `FF` starts
no valid encoding. -/
def invalidNameRequest : RawDeployRequest :=
  { sampleRequest.raw with ImageName := [0x66, 0xFF, 0x6F] }

/-- A request whose image name has a letter of two bytes, a `<` and a line feed. -/
def accentRequest : DeployRequest := { sampleRequest with ImageName := "café<\n" }

/-! ## Case analysis of the pipeline -/

theorem executeCommand_cases (w : World) (name : String) (args : List String) (r : DeployRequest)
    (msg log : String) :
    (stepPasses (w.run name) ∧
      executeCommand w name args r msg log = ⟨log, none, [.exec name args]⟩) ∨
    (∃ e, stepFails (w.run name) e ∧
      executeCommand w name args r msg log =
        ⟨log ++ errEntry msg e, some e,
          [.exec name args, .updateDeploy r.DeployID Failed msg (log ++ errEntry msg e)]⟩) := by
  unfold executeCommand stepPasses stepFails
  cases h : (execCmd (w.run name)).2 with
  | none => simp
  | some e =>
    by_cases he : e = alreadyAchieved
    · simp [he]
    · right
      exact ⟨e, ⟨rfl, he⟩, by simp [he]⟩

theorem readEtcdKeys_eq (w : World) (name : String) (paths : List String)
    (m : List (String × String)) :
    readEtcdKeys w name paths m = (m, [.readInConfig name paths]) := by
  unfold readEtcdKeys
  split
  · split <;> simp
  · rfl

theorem updateEtcd_eq (w : World) (o : Options) (r : DeployRequest) (tmp : String) :
    updateEtcd w o r tmp = (("", none),
      [.readInConfig (r.Environment ++ ".etcd2") [tmp ++ "/" ++ o.GitRepo ++ "/roles/common/meta"],
       .readInConfig (r.Environment ++ ".etcd2")
        [tmp ++ "/" ++ o.GitRepo ++ "/roles/" ++ r.ImageName ++ "/meta"]]) := by
  unfold updateEtcd
  simp [readEtcdKeys_eq]

theorem deployLaunch_cases (w : World) (o : Options) (r : DeployRequest) (log : String) :
    (∃ e, stepFails (w.run "./scripts/deploy-containers.sh") e ∧
      deployLaunch w o r (lastDeployKey o r) (w.hget (lastDeployKey o r) r.ImageName).1
          (tempDirName w o r) (deployNumCont w o r (tempDirName w o r)) log =
        [.updateDeploy r.DeployID Started "Starting up containers."
            (log ++ sprintln "Starting up containers."),
          evLaunch w o r,
          .updateDeploy r.DeployID Failed "Starting up containers."
            (log ++ sprintln "Starting up containers." ++ errEntry "Starting up containers." e)]) ∨
    (stepPasses (w.run "./scripts/deploy-containers.sh") ∧
      ∃ e, w.hset (lastDeployKey o r) r.ImageName r.ImageTag = some e ∧
      deployLaunch w o r (lastDeployKey o r) (w.hget (lastDeployKey o r) r.ImageName).1
          (tempDirName w o r) (deployNumCont w o r (tempDirName w o r)) log =
        [.updateDeploy r.DeployID Started "Starting up containers."
            (log ++ sprintln "Starting up containers."),
          evLaunch w o r, evTrackerSet o r,
          .updateDeploy r.DeployID Failed
            "Unable to access redis server to set last deploy image tag."
            (log ++ sprintln "Starting up containers." ++
              errEntry "Unable to access redis server to set last deploy image tag." e)]) ∨
    (stepPasses (w.run "./scripts/deploy-containers.sh") ∧
      w.hset (lastDeployKey o r) r.ImageName r.ImageTag = none ∧
      deployLaunch w o r (lastDeployKey o r) (w.hget (lastDeployKey o r) r.ImageName).1
          (tempDirName w o r) (deployNumCont w o r (tempDirName w o r)) log =
        [.updateDeploy r.DeployID Started "Starting up containers."
            (log ++ sprintln "Starting up containers."),
          evLaunch w o r, evTrackerSet o r,
          .updateDeploy r.DeployID Success "Containers deployed successfully."
            (log ++ sprintln "Starting up containers." ++
              ("SUCCESS: " ++ "Containers deployed successfully." ++ "\n"))]) := by
  unfold deployLaunch
  rcases executeCommand_cases w "./scripts/deploy-containers.sh"
    [r.ImageName, r.ImageTag,
      if (w.hget (lastDeployKey o r) r.ImageName).1 = "" then r.ImageTag
      else (w.hget (lastDeployKey o r) r.ImageName).1,
      r.Registry, replaceChar r.ImageName '-' '_', r.Machine, formatInt (deployNumCont w o r (tempDirName w o r)),
      o.Project, formatBool r.Swarm, tempDirName w o r] r
    "Starting up containers." (log ++ sprintln "Starting up containers.")
    with ⟨hp, hc⟩ | ⟨e, he, hc⟩
  · right
    simp only [hc]
    cases hs : w.hset (lastDeployKey o r) r.ImageName r.ImageTag with
    | none => right; simp [hp, evLaunch, evTrackerSet]
    | some e => left; simp [hp, evLaunch, evTrackerSet]
  · left
    refine ⟨e, he, ?_⟩
    simp [hc, evLaunch]

/-- Every run of `deploy` follows one of ten paths; each comes with the outcomes
that select it and with the operations it issues. -/
theorem deploy_paths (w : World) (o : Options) (r : DeployRequest) :
    (∃ err, w.queryDeploy r.DeployID = .error err ∧
      deploy w o r = [.queryDeploy r.DeployID,
        .logErrorf ("ERR: " ++ "Could not get Deploy from MySQL for ID: " ++ " " ++ r.DeployID ++
          "\n" ++ err ++ "\n")]) ∨
    (∃ row e, w.queryDeploy r.DeployID = .ok row ∧
      (w.hget (lastDeployKey o r) r.ImageName).2 = some e ∧ e ≠ "redis: nil" ∧
      deploy w o r = [.queryDeploy r.DeployID,
        .updateDeploy r.DeployID Started "Started Deploy." (row.Log ++ sprintln "Started Deploy."),
        .hget (lastDeployKey o r) r.ImageName,
        .updateDeploy r.DeployID Failed
          "Unable to access redis server for last deploy validation."
          (row.Log ++ sprintln "Started Deploy." ++
            errEntry "Unable to access redis server for last deploy validation." e)]) ∨
    (∃ row e, w.queryDeploy r.DeployID = .ok row ∧
      ((w.hget (lastDeployKey o r) r.ImageName).2 = none ∨
        (w.hget (lastDeployKey o r) r.ImageName).2 = some "redis: nil") ∧
      w.mkdirAll (tempDirName w o r) = some e ∧
      deploy w o r = [.queryDeploy r.DeployID,
        .updateDeploy r.DeployID Started "Started Deploy." (row.Log ++ sprintln "Started Deploy."),
        .hget (lastDeployKey o r) r.ImageName,
        .updateDeploy r.DeployID Started "Creating working temp directory for this deploy."
          (logWorkspace row),
        .mkdirAll (tempDirName w o r),
        .updateDeploy r.DeployID Failed "Unable to create temporary work directory on server."
          (logWorkspace row ++
            errEntry "Unable to create temporary work directory on server." e)]) ∨
    (∃ row e, w.queryDeploy r.DeployID = .ok row ∧ reachesImage w o r row ∧ stepFails (w.run "./scripts/download-image.sh") e ∧
      deploy w o r = upToImage w o r row ++
        [evImage w o r,
          .updateDeploy r.DeployID Failed "Extracting meta-data from Docker image in registry."
            (logImage row ++ errEntry "Extracting meta-data from Docker image in registry." e),
          evCleanup w o r]) ∨
    (∃ row e, w.queryDeploy r.DeployID = .ok row ∧ reachesImage w o r row ∧ stepPasses (w.run "./scripts/download-image.sh") ∧
      w.stat (tempDirName w o r ++ "/docker-compose.yml") = some e ∧ e.notExist = true ∧
      deploy w o r = upToImage w o r row ++
        [evImage w o r, .stat (tempDirName w o r ++ "/docker-compose.yml"),
          .updateDeploy r.DeployID Failed "docker-compose.yml file doesn't exist for this launch."
            (logImage row ++
              errEntry "docker-compose.yml file doesn't exist for this launch." e.text),
          evCleanup w o r]) ∨
    (∃ row e, w.queryDeploy r.DeployID = .ok row ∧ reachesMeta w o r row ∧ stepFails (w.run "./scripts/download-metadata.sh") e ∧
      deploy w o r = upToMeta w o r row ++
        [evMeta w o r,
          .updateDeploy r.DeployID Failed "Downloading meta-data from git."
            (logMeta row ++ errEntry "Downloading meta-data from git." e),
          evCleanup w o r]) ∨
    (∃ row e, w.queryDeploy r.DeployID = .ok row ∧ reachesPublish w o r row ∧ stepFails (w.run "./scripts/deploy-metadata.sh") e ∧
      deploy w o r = upToPublish w o r row ++
        [evPublish w o r,
          .updateDeploy r.DeployID Failed "Deploying meta-data."
            (logPublish row ++ errEntry "Deploying meta-data." e),
          evCleanup w o r]) ∨
    (∃ row e, w.queryDeploy r.DeployID = .ok row ∧ reachesLaunch w o r row ∧ stepFails (w.run "./scripts/deploy-containers.sh") e ∧
      deploy w o r = upToLaunch w o r row ++
        [evLaunch w o r,
          .updateDeploy r.DeployID Failed "Starting up containers."
            (logLaunch r row ++ errEntry "Starting up containers." e),
          evCleanup w o r]) ∨
    (∃ row e, w.queryDeploy r.DeployID = .ok row ∧ reachesLaunch w o r row ∧ stepPasses (w.run "./scripts/deploy-containers.sh") ∧
      w.hset (lastDeployKey o r) r.ImageName r.ImageTag = some e ∧
      deploy w o r = upToLaunch w o r row ++
        [evLaunch w o r, evTrackerSet o r,
          .updateDeploy r.DeployID Failed
            "Unable to access redis server to set last deploy image tag."
            (logLaunch r row ++
              errEntry "Unable to access redis server to set last deploy image tag." e),
          evCleanup w o r]) ∨
    (∃ row, w.queryDeploy r.DeployID = .ok row ∧ reachesLaunch w o r row ∧ stepPasses (w.run "./scripts/deploy-containers.sh") ∧
      w.hset (lastDeployKey o r) r.ImageName r.ImageTag = none ∧
      deploy w o r = upToLaunch w o r row ++
        [evLaunch w o r, evTrackerSet o r,
          .updateDeploy r.DeployID Success "Containers deployed successfully."
            (logLaunch r row ++ ("SUCCESS: " ++ "Containers deployed successfully." ++ "\n")),
          evCleanup w o r]) := by
  unfold deploy
  cases hq : w.queryDeploy r.DeployID with
  | error err => left; exact ⟨err, rfl, rfl⟩
  | ok row =>
  right
  simp only []
  cases hg : (w.hget (o.RedisKeyLastDeploy ++ ":" ++ r.Environment) r.ImageName).2.filter
      (fun e => e ≠ "redis: nil") with
  | some e =>
    left
    obtain ⟨h1, h2⟩ := Option.filter_eq_some.mp hg
    exact ⟨row, e, rfl, h1, by simpa using h2, rfl⟩
  | none =>
  right
  have hget : (w.hget (lastDeployKey o r) r.ImageName).2 = none ∨
      (w.hget (lastDeployKey o r) r.ImageName).2 = some "redis: nil" := by
    cases h : (w.hget (lastDeployKey o r) r.ImageName).2 with
    | none => simp
    | some e =>
      unfold lastDeployKey at h
      rw [h] at hg
      by_cases he : e = "redis: nil"
      · simp [he]
      · simp [Option.filter, he] at hg
  unfold createTempDirectory
  cases hm : w.mkdirAll (tempDirName w o r) with
  | some e =>
    left
    unfold tempDirName at hm
    refine ⟨row, e, rfl, hget, rfl, ?_⟩
    simp [hm, logWorkspace, lastDeployKey, tempDirName]
  | none =>
  right
  have hri : reachesImage w o r row := ⟨hq, hget, hm⟩
  unfold tempDirName at hm
  simp only [hm]
  unfold deployWorkspace
  simp only [updateEtcd_eq]
  rcases executeCommand_cases w "./scripts/download-image.sh"
    [r.ImageTag, r.Registry, r.ImageName, tempDirName w o r] r
    "Extracting meta-data from Docker image in registry." (logImage row)
    with ⟨hp1, hc1⟩ | ⟨e, he, hc1⟩
  swap
  · left
    refine ⟨row, e, rfl, hri, he, ?_⟩
    simp only [logImage, logWorkspace, tempDirName] at hc1
    simp [hc1, upToImage, evImage, evCleanup, logImage, logWorkspace, lastDeployKey, tempDirName]
  right
  simp only [logImage, logWorkspace, tempDirName] at hc1
  simp only [hc1]
  cases hs : (w.stat (tempDirName w o r ++ "/docker-compose.yml")).filter
      (fun e => e.notExist) with
  | some e =>
    left
    obtain ⟨h1, h2⟩ := Option.filter_eq_some.mp hs
    refine ⟨row, e, rfl, hri, hp1, h1, h2, ?_⟩
    unfold tempDirName at hs
    simp [hs, upToImage, evImage, evCleanup, logImage, logWorkspace, lastDeployKey, tempDirName]
  | none =>
  right
  have hstat : ∀ e, w.stat (tempDirName w o r ++ "/docker-compose.yml") = some e →
      e.notExist = false := by
    intro e h
    rw [h] at hs
    simpa [Option.filter] using hs
  have hrm : reachesMeta w o r row := ⟨hri, hp1, hstat⟩
  unfold tempDirName at hs
  simp only [hs]
  rcases executeCommand_cases w "./scripts/download-metadata.sh"
    [o.GitRepo, o.GitRoot, tempDirName w o r] r "Downloading meta-data from git." (logMeta row)
    with ⟨hp2, hc2⟩ | ⟨e, he, hc2⟩
  swap
  · left
    refine ⟨row, e, rfl, hrm, he, ?_⟩
    simp only [logMeta, logImage, logWorkspace, tempDirName] at hc2
    simp [hc2, upToMeta, upToImage, evImage, evMeta, evCleanup, logMeta, logImage, logWorkspace,
      lastDeployKey, tempDirName]
  right
  simp only [logMeta, logImage, logWorkspace, tempDirName] at hc2
  simp only [hc2]
  rcases executeCommand_cases w "./scripts/deploy-metadata.sh"
    [r.EnvTag, o.GitRepo, r.MetaMount, tempDirName w o r] r "Deploying meta-data."
    (logPublish row) with ⟨hp3, hc3⟩ | ⟨e, he, hc3⟩
  swap
  · left
    refine ⟨row, e, rfl, ⟨hrm, hp2⟩, he, ?_⟩
    simp only [logPublish, logMeta, logImage, logWorkspace, tempDirName] at hc3
    simp [hc3, upToPublish, upToMeta, upToImage, evImage, evMeta, evPublish, evCleanup,
      logPublish, logMeta, logImage, logWorkspace, lastDeployKey, tempDirName]
  right
  have hrl : reachesLaunch w o r row := ⟨⟨hrm, hp2⟩, hp3⟩
  simp only [logPublish, logMeta, logImage, logWorkspace, tempDirName] at hc3
  simp only [hc3]
  have hl := deployLaunch_cases w o r (logKeys r row)
  by_cases hep : r.EtcdEndpoint = ""
  · simp only [logKeys, hep, ne_eq, not_true_eq_false, ite_false, logPublish, logMeta, logImage,
      logWorkspace, lastDeployKey, tempDirName] at hl
    rcases hl with ⟨e, he, hl⟩ | ⟨hp, e, hs, hl⟩ | ⟨hp, hs, hl⟩
    · left
      refine ⟨row, e, rfl, hrl, he, ?_⟩
      simp [hl, hep, upToLaunch, keySteps, upToPublish, upToMeta, upToImage, evImage, evMeta,
        evPublish, evCleanup, logLaunch, logKeys, logPublish, logMeta, logImage, logWorkspace,
        lastDeployKey, tempDirName]
    · right; left
      refine ⟨row, e, rfl, hrl, hp, hs, ?_⟩
      simp [hl, hep, upToLaunch, keySteps, upToPublish, upToMeta, upToImage, evImage, evMeta,
        evPublish, evCleanup, logLaunch, logKeys, logPublish, logMeta, logImage, logWorkspace,
        lastDeployKey, tempDirName]
    · right; right
      refine ⟨row, rfl, hrl, hp, hs, ?_⟩
      simp [hl, hep, upToLaunch, keySteps, upToPublish, upToMeta, upToImage, evImage, evMeta,
        evPublish, evCleanup, logLaunch, logKeys, logPublish, logMeta, logImage, logWorkspace,
        lastDeployKey, tempDirName]
  · simp only [logKeys, hep, ne_eq, not_false_eq_true, ite_true, logPublish, logMeta, logImage,
      logWorkspace, lastDeployKey, tempDirName] at hl
    rcases hl with ⟨e, he, hl⟩ | ⟨hp, e, hs, hl⟩ | ⟨hp, hs, hl⟩
    · left
      refine ⟨row, e, rfl, hrl, he, ?_⟩
      simp [hl, hep, upToLaunch, keySteps, upToPublish, upToMeta, upToImage, evImage, evMeta,
        evPublish, evCleanup, logLaunch, logKeys, logPublish, logMeta, logImage, logWorkspace,
        lastDeployKey, tempDirName]
    · right; left
      refine ⟨row, e, rfl, hrl, hp, hs, ?_⟩
      simp [hl, hep, upToLaunch, keySteps, upToPublish, upToMeta, upToImage, evImage, evMeta,
        evPublish, evCleanup, logLaunch, logKeys, logPublish, logMeta, logImage, logWorkspace,
        lastDeployKey, tempDirName]
    · right; right
      refine ⟨row, rfl, hrl, hp, hs, ?_⟩
      simp [hl, hep, upToLaunch, keySteps, upToPublish, upToMeta, upToImage, evImage, evMeta,
        evPublish, evCleanup, logLaunch, logKeys, logPublish, logMeta, logImage, logWorkspace,
        lastDeployKey, tempDirName]

theorem properPrefix_append (a s : String) (h : 0 < s.length) : properPrefix a (a ++ s) := by
  unfold properPrefix
  rw [String.data_append]
  refine ⟨List.prefix_append _ _, ?_⟩
  rw [List.length_append]
  have : s.data.length = s.length := rfl
  omega

theorem properPrefix_sprintln (a m : String) : properPrefix a (a ++ sprintln m) := by
  apply properPrefix_append
  have h : ("\n" : String).length = 1 := rfl
  simp only [sprintln, String.length_append]
  omega

theorem properPrefix_errEntry (a m e : String) : properPrefix a (a ++ errEntry m e) := by
  apply properPrefix_append
  have h : ("\n" : String).length = 1 := rfl
  simp only [errEntry, String.length_append]
  omega

theorem properPrefix_success (a m : String) :
    properPrefix a (a ++ ("SUCCESS: " ++ m ++ "\n")) := by
  apply properPrefix_append
  have h : ("\n" : String).length = 1 := rfl
  simp only [String.length_append]
  omega

theorem queryDeploy_row (w : World) (r : DeployRequest) (row row1 : DeployStatus)
    (h : w.queryDeploy r.DeployID = .ok row) (h1 : w.queryDeploy r.DeployID = .ok row1) :
    row1 = row := by
  rw [h] at h1
  exact (Except.ok.inj h1).symm

theorem stepPasses_of_stderr (p : ProcOutcome) (h : p.stderr = alreadyAchieved) :
    stepPasses p := by
  right
  unfold execCmd
  rw [h]
  simp [alreadyAchieved]

theorem not_stepFails_of_stepPasses (p : ProcOutcome) (e : String) (h : stepPasses p) :
    ¬ stepFails p e := by
  rintro ⟨h1, h2⟩
  rcases h with h | h
  · rw [h] at h1; exact Option.noConfusion h1
  · rw [h] at h1; exact h2 (Option.some.inj h1).symm

theorem stepFails_unique (p : ProcOutcome) (e e1 : String) (h : stepFails p e)
    (h1 : stepFails p e1) : e1 = e := by
  have := h.1
  rw [h1.1] at this
  exact Option.some.inj this

theorem some_unique {α : Type} (x : Option α) (a b : α) (h : x = some a) (h1 : x = some b) :
    b = a := by
  rw [h] at h1
  exact (Option.some.inj h1).symm

/-- A run in which the image download fails issues exactly these operations. -/
theorem deploy_fail_image (w : World) (o : Options) (r : DeployRequest) (row : DeployStatus)
    (e : String) (hr0 : reachesImage w o r row)
    (hf0 : stepFails (w.run "./scripts/download-image.sh") e) :
    deploy w o r = upToImage w o r row ++
      [evImage w o r,
        .updateDeploy r.DeployID Failed "Extracting meta-data from Docker image in registry."
          (logImage row ++ errEntry "Extracting meta-data from Docker image in registry." e),
        evCleanup w o r] := by
  rcases deploy_paths w o r with
    ⟨err, hq1, ht⟩ | ⟨row1, e1, hq1, hg, hne, ht⟩ | ⟨row1, e1, hq1, hg, hm, ht⟩ |
    ⟨row1, e1, hq1, hr, hf, ht⟩ | ⟨row1, e1, hq1, hr, hp, hs, hn, ht⟩ |
    ⟨row1, e1, hq1, hr, hf, ht⟩ | ⟨row1, e1, hq1, hr, hf, ht⟩ | ⟨row1, e1, hq1, hr, hf, ht⟩ |
    ⟨row1, e1, hq1, hr, hp, hs, ht⟩ | ⟨row1, hq1, hr, hp, hs, ht⟩
  all_goals
    first
    | (obtain rfl := queryDeploy_row w r row row1 hr0.1 hq1
       obtain rfl := stepFails_unique _ _ _ hf0 hf
       exact ht)
    | (exfalso
       simp_all [reachesLaunch, reachesPublish, reachesMeta, reachesImage, stepFails, stepPasses])

/-- A run in which the manifest is missing after the image download issues exactly
these operations. -/
theorem deploy_manifest_missing (w : World) (o : Options) (r : DeployRequest) (row : DeployStatus)
    (e : FileError) (hr0 : reachesImage w o r row)
    (hp0 : stepPasses (w.run "./scripts/download-image.sh"))
    (hs0 : w.stat (tempDirName w o r ++ "/docker-compose.yml") = some e)
    (hn0 : e.notExist = true) :
    deploy w o r = upToImage w o r row ++
      [evImage w o r, .stat (tempDirName w o r ++ "/docker-compose.yml"),
        .updateDeploy r.DeployID Failed "docker-compose.yml file doesn't exist for this launch."
          (logImage row ++
            errEntry "docker-compose.yml file doesn't exist for this launch." e.text),
        evCleanup w o r] := by
  rcases deploy_paths w o r with
    ⟨err, hq1, ht⟩ | ⟨row1, e1, hq1, hg, hne, ht⟩ | ⟨row1, e1, hq1, hg, hm, ht⟩ |
    ⟨row1, e1, hq1, hr, hf, ht⟩ | ⟨row1, e1, hq1, hr, hp, hs, hn, ht⟩ |
    ⟨row1, e1, hq1, hr, hf, ht⟩ | ⟨row1, e1, hq1, hr, hf, ht⟩ | ⟨row1, e1, hq1, hr, hf, ht⟩ |
    ⟨row1, e1, hq1, hr, hp, hs, ht⟩ | ⟨row1, hq1, hr, hp, hs, ht⟩
  all_goals
    first
    | (obtain rfl := queryDeploy_row w r row row1 hr0.1 hq1
       obtain rfl := some_unique _ _ _ hs0 hs
       exact ht)
    | (exfalso
       simp_all [reachesLaunch, reachesPublish, reachesMeta, reachesImage, stepFails, stepPasses])

/-- A run in which the metadata download fails issues exactly these operations. -/
theorem deploy_fail_meta (w : World) (o : Options) (r : DeployRequest) (row : DeployStatus)
    (e : String) (hr0 : reachesMeta w o r row)
    (hf0 : stepFails (w.run "./scripts/download-metadata.sh") e) :
    deploy w o r = upToMeta w o r row ++
      [evMeta w o r,
        .updateDeploy r.DeployID Failed "Downloading meta-data from git."
          (logMeta row ++ errEntry "Downloading meta-data from git." e),
        evCleanup w o r] := by
  rcases deploy_paths w o r with
    ⟨err, hq1, ht⟩ | ⟨row1, e1, hq1, hg, hne, ht⟩ | ⟨row1, e1, hq1, hg, hm, ht⟩ |
    ⟨row1, e1, hq1, hr, hf, ht⟩ | ⟨row1, e1, hq1, hr, hp, hs, hn, ht⟩ |
    ⟨row1, e1, hq1, hr, hf, ht⟩ | ⟨row1, e1, hq1, hr, hf, ht⟩ | ⟨row1, e1, hq1, hr, hf, ht⟩ |
    ⟨row1, e1, hq1, hr, hp, hs, ht⟩ | ⟨row1, hq1, hr, hp, hs, ht⟩
  all_goals
    first
    | (obtain rfl := queryDeploy_row w r row row1 hr0.1.1 hq1
       obtain rfl := stepFails_unique _ _ _ hf0 hf
       exact ht)
    | (exfalso
       simp_all [reachesLaunch, reachesPublish, reachesMeta, reachesImage, stepFails, stepPasses])

/-- A run in which the metadata publication fails issues exactly these operations. -/
theorem deploy_fail_publish (w : World) (o : Options) (r : DeployRequest) (row : DeployStatus)
    (e : String) (hr0 : reachesPublish w o r row)
    (hf0 : stepFails (w.run "./scripts/deploy-metadata.sh") e) :
    deploy w o r = upToPublish w o r row ++
      [evPublish w o r,
        .updateDeploy r.DeployID Failed "Deploying meta-data."
          (logPublish row ++ errEntry "Deploying meta-data." e),
        evCleanup w o r] := by
  rcases deploy_paths w o r with
    ⟨err, hq1, ht⟩ | ⟨row1, e1, hq1, hg, hne, ht⟩ | ⟨row1, e1, hq1, hg, hm, ht⟩ |
    ⟨row1, e1, hq1, hr, hf, ht⟩ | ⟨row1, e1, hq1, hr, hp, hs, hn, ht⟩ |
    ⟨row1, e1, hq1, hr, hf, ht⟩ | ⟨row1, e1, hq1, hr, hf, ht⟩ | ⟨row1, e1, hq1, hr, hf, ht⟩ |
    ⟨row1, e1, hq1, hr, hp, hs, ht⟩ | ⟨row1, hq1, hr, hp, hs, ht⟩
  all_goals
    first
    | (obtain rfl := queryDeploy_row w r row row1 hr0.1.1.1 hq1
       obtain rfl := stepFails_unique _ _ _ hf0 hf
       exact ht)
    | (exfalso
       simp_all [reachesLaunch, reachesPublish, reachesMeta, reachesImage, stepFails, stepPasses])

/-- A run in which the launch fails issues exactly these operations. -/
theorem deploy_fail_launch (w : World) (o : Options) (r : DeployRequest) (row : DeployStatus)
    (e : String) (hr0 : reachesLaunch w o r row)
    (hf0 : stepFails (w.run "./scripts/deploy-containers.sh") e) :
    deploy w o r = upToLaunch w o r row ++
      [evLaunch w o r,
        .updateDeploy r.DeployID Failed "Starting up containers."
          (logLaunch r row ++ errEntry "Starting up containers." e),
        evCleanup w o r] := by
  rcases deploy_paths w o r with
    ⟨err, hq1, ht⟩ | ⟨row1, e1, hq1, hg, hne, ht⟩ | ⟨row1, e1, hq1, hg, hm, ht⟩ |
    ⟨row1, e1, hq1, hr, hf, ht⟩ | ⟨row1, e1, hq1, hr, hp, hs, hn, ht⟩ |
    ⟨row1, e1, hq1, hr, hf, ht⟩ | ⟨row1, e1, hq1, hr, hf, ht⟩ | ⟨row1, e1, hq1, hr, hf, ht⟩ |
    ⟨row1, e1, hq1, hr, hp, hs, ht⟩ | ⟨row1, hq1, hr, hp, hs, ht⟩
  all_goals
    first
    | (obtain rfl := queryDeploy_row w r row row1 hr0.1.1.1.1 hq1
       obtain rfl := stepFails_unique _ _ _ hf0 hf
       exact ht)
    | (exfalso
       simp_all [reachesLaunch, reachesPublish, reachesMeta, reachesImage, stepFails, stepPasses])

/-- A run in which only the tracker write fails issues exactly these operations. -/
theorem deploy_fail_tracker (w : World) (o : Options) (r : DeployRequest) (row : DeployStatus)
    (e : String) (hr0 : reachesLaunch w o r row)
    (hp0 : stepPasses (w.run "./scripts/deploy-containers.sh"))
    (hs0 : w.hset (lastDeployKey o r) r.ImageName r.ImageTag = some e) :
    deploy w o r = upToLaunch w o r row ++
      [evLaunch w o r, evTrackerSet o r,
        .updateDeploy r.DeployID Failed
          "Unable to access redis server to set last deploy image tag."
          (logLaunch r row ++
            errEntry "Unable to access redis server to set last deploy image tag." e),
        evCleanup w o r] := by
  rcases deploy_paths w o r with
    ⟨err, hq1, ht⟩ | ⟨row1, e1, hq1, hg, hne, ht⟩ | ⟨row1, e1, hq1, hg, hm, ht⟩ |
    ⟨row1, e1, hq1, hr, hf, ht⟩ | ⟨row1, e1, hq1, hr, hp, hs, hn, ht⟩ |
    ⟨row1, e1, hq1, hr, hf, ht⟩ | ⟨row1, e1, hq1, hr, hf, ht⟩ | ⟨row1, e1, hq1, hr, hf, ht⟩ |
    ⟨row1, e1, hq1, hr, hp, hs, ht⟩ | ⟨row1, hq1, hr, hp, hs, ht⟩
  all_goals
    first
    | (obtain rfl := queryDeploy_row w r row row1 hr0.1.1.1.1 hq1
       obtain rfl := some_unique _ _ _ hs0 hs
       exact ht)
    | (exfalso
       simp_all [reachesLaunch, reachesPublish, reachesMeta, reachesImage, stepFails, stepPasses])

/-- A run whose steps all succeed issues exactly these operations. -/
theorem deploy_success (w : World) (o : Options) (r : DeployRequest) (row : DeployStatus)
    (hr0 : reachesLaunch w o r row)
    (hp0 : stepPasses (w.run "./scripts/deploy-containers.sh"))
    (hs0 : w.hset (lastDeployKey o r) r.ImageName r.ImageTag = none) :
    deploy w o r = upToLaunch w o r row ++
      [evLaunch w o r, evTrackerSet o r,
        .updateDeploy r.DeployID Success "Containers deployed successfully."
          (logLaunch r row ++ ("SUCCESS: " ++ "Containers deployed successfully." ++ "\n")),
        evCleanup w o r] := by
  rcases deploy_paths w o r with
    ⟨err, hq1, ht⟩ | ⟨row1, e1, hq1, hg, hne, ht⟩ | ⟨row1, e1, hq1, hg, hm, ht⟩ |
    ⟨row1, e1, hq1, hr, hf, ht⟩ | ⟨row1, e1, hq1, hr, hp, hs, hn, ht⟩ |
    ⟨row1, e1, hq1, hr, hf, ht⟩ | ⟨row1, e1, hq1, hr, hf, ht⟩ | ⟨row1, e1, hq1, hr, hf, ht⟩ |
    ⟨row1, e1, hq1, hr, hp, hs, ht⟩ | ⟨row1, hq1, hr, hp, hs, ht⟩
  all_goals
    first
    | (obtain rfl := queryDeploy_row w r row row1 hr0.1.1.1.1 hq1
       exact ht)
    | (exfalso
       simp_all [reachesLaunch, reachesPublish, reachesMeta, reachesImage, stepFails, stepPasses])

/-- A subprocess start in a run is one of the four script starts, and the run
got as far as that step. -/
theorem exec_mem_deploy (w : World) (o : Options) (r : DeployRequest) (name : String)
    (args : List String) (h : Event.exec name args ∈ deploy w o r) :
    ∃ row,
      (Event.exec name args = evImage w o r ∧ reachesImage w o r row) ∨
      (Event.exec name args = evMeta w o r ∧ reachesMeta w o r row) ∨
      (Event.exec name args = evPublish w o r ∧ reachesPublish w o r row) ∨
      (Event.exec name args = evLaunch w o r ∧ reachesLaunch w o r row) := by
  rcases deploy_paths w o r with
    ⟨err, hq1, ht⟩ | ⟨row1, e1, hq1, hg, hne, ht⟩ | ⟨row1, e1, hq1, hg, hm, ht⟩ |
    ⟨row1, e1, hq1, hr, hf, ht⟩ | ⟨row1, e1, hq1, hr, hp, hs, hn, ht⟩ |
    ⟨row1, e1, hq1, hr, hf, ht⟩ | ⟨row1, e1, hq1, hr, hf, ht⟩ | ⟨row1, e1, hq1, hr, hf, ht⟩ |
    ⟨row1, e1, hq1, hr, hp, hs, ht⟩ | ⟨row1, hq1, hr, hp, hs, ht⟩
  all_goals rw [ht] at h
  all_goals by_cases hep : r.EtcdEndpoint = ""
  all_goals
    simp [upToLaunch, keySteps, upToPublish, upToMeta, upToImage, evTrackerSet, evCleanup, hep]
      at h
  all_goals refine ⟨row1, ?_⟩
  all_goals simp only [reachesLaunch, reachesPublish, reachesMeta] at hr ⊢
  all_goals tauto

/-! ## The JSON text of a request and its reading -/

theorem hexVal_digitChar (k : Nat) (h : k < 16) : hexVal (Nat.digitChar k) = some k := by
  interval_cases k <;> decide

theorem jsonUnquote_escapeChar (c : Char) (cs rest : List Char) (s : List Char)
    (ih : jsonUnquote .text cs = some (s, rest)) :
    jsonUnquote .text (jsonEscapeChar c ++ cs) = some (c :: s, rest) := by
  unfold jsonEscapeChar
  split_ifs with h1 h2 h3 h4 h5 h6 h7 h8
  · subst h1; simp [jsonUnquote, jsonUnescape, ih]
  · subst h2; simp [jsonUnquote, jsonUnescape, ih]
  · subst h3; simp [jsonUnquote, jsonUnescape, ih]
  · subst h4; simp [jsonUnquote, jsonUnescape, ih]
  · subst h5; simp [jsonUnquote, jsonUnescape, ih]
  · have hn : c.toNat < 64 := by
      rcases h6 with h | h | h | h
      · omega
      · subst h; decide
      · subst h; decide
      · subst h; decide
    have hq : c.toNat / 16 < 16 := by omega
    have hr : c.toNat % 16 < 16 := Nat.mod_lt _ (by decide)
    have hv : (0 * 16 + c.toNat / 16) * 16 + c.toNat % 16 = c.toNat := by omega
    have h0 : hexVal '0' = some 0 := by decide
    simp [jsonUnquote, h0, hexVal_digitChar _ hq, hexVal_digitChar _ hr, ih, hv, jsonCodeUnit]
    have hv2 : c.toNat / 16 * 16 + c.toNat % 16 = c.toNat := by omega
    rw [hv2, if_neg (by omega)]
    exact Char.ofNat_toNat c
  · have h0 : hexVal '0' = some 0 := by decide
    have h2 : hexVal '2' = some 2 := by decide
    have h8 : hexVal '8' = some 8 := by decide
    have hc : c = Char.ofNat 0x2028 := by rw [← h7]; exact (Char.ofNat_toNat c).symm
    simp [jsonUnquote, h0, h2, h8, ih, jsonCodeUnit, hc]
  · have h0 : hexVal '0' = some 0 := by decide
    have h2 : hexVal '2' = some 2 := by decide
    have h9 : hexVal '9' = some 9 := by decide
    have hc : c = Char.ofNat 0x2029 := by rw [← h8]; exact (Char.ofNat_toNat c).symm
    simp [jsonUnquote, h0, h2, h9, ih, jsonCodeUnit, hc]
  · have hlt : ¬ c.toNat < 32 := fun h => h6 (Or.inl h)
    simp [jsonUnquote, h1, h2, hlt, ih]

theorem jsonUnquote_escape (s rest : List Char) :
    jsonUnquote .text (jsonEscape s ++ '"' :: rest) = some (s, rest) := by
  induction s with
  | nil => simp [jsonEscape, jsonUnquote]
  | cons c cs ih =>
    rw [jsonEscape, List.append_assoc]
    exact jsonUnquote_escapeChar c _ rest cs ih

theorem jsonStringLit_jsonString (s : String) (rest : List Char) :
    jsonStringLit (jsonString s rest) = some (s, rest) := by
  simp [jsonString, jsonStringLit, jsonUnquote_escape]

theorem jsonBool_text (b : Bool) (rest : List Char) :
    jsonBool (jsonBoolText b ++ rest) = some (b, rest) := by
  cases b <;> rfl

theorem digitChar_isDigit (k : Nat) (h : k < 10) :
    (Nat.digitChar k).isDigit = true ∧ (Nat.digitChar k).toNat - 48 = k ∧
      (k ≠ 0 → Nat.digitChar k ≠ '0') := by
  interval_cases k <;> decide

theorem toDigitsCore_append (n : Nat) : ∀ fuel ds, n < fuel →
    Nat.toDigitsCore 10 fuel n ds = Nat.toDigitsCore 10 (n + 1) n [] ++ ds := by
  induction n using Nat.strong_induction_on with
  | _ n ih =>
    intro fuel ds hf
    obtain ⟨f, rfl⟩ : ∃ f, fuel = f + 1 := ⟨fuel - 1, by omega⟩
    simp only [Nat.toDigitsCore]
    by_cases h0 : n / 10 = 0
    · simp [h0]
    · simp only [h0, if_false]
      have hlt : n / 10 < n := by omega
      rw [ih (n / 10) hlt f _ (by omega), ih (n / 10) hlt n _ hlt]
      simp

theorem toDigits_step (n : Nat) :
    Nat.toDigits 10 n =
      if n / 10 = 0 then [Nat.digitChar (n % 10)]
      else Nat.toDigits 10 (n / 10) ++ [Nat.digitChar (n % 10)] := by
  unfold Nat.toDigits
  by_cases h0 : n / 10 = 0
  · simp [Nat.toDigitsCore, h0]
  · rw [Nat.toDigitsCore]
    simp only [h0, if_false]
    exact toDigitsCore_append (n / 10) n _ (by omega)

theorem digitsValue_append (xs : List Char) (d : Char) :
    digitsValue (xs ++ [d]) = 10 * digitsValue xs + (d.toNat - 48) := by
  simp [digitsValue, List.foldl_append]

theorem toDigits_spec (n : Nat) :
    (∀ c ∈ Nat.toDigits 10 n, c.isDigit = true) ∧ digitsValue (Nat.toDigits 10 n) = n ∧
    Nat.toDigits 10 n ≠ [] ∧ (n ≠ 0 → (Nat.toDigits 10 n).head? ≠ some '0') := by
  induction n using Nat.strong_induction_on with
  | _ n ih =>
    have hm : n % 10 < 10 := Nat.mod_lt _ (by decide)
    obtain ⟨hd1, hd2, hd3⟩ := digitChar_isDigit (n % 10) hm
    rw [toDigits_step]
    by_cases h0 : n / 10 = 0
    · have hn : n % 10 = n := by omega
      simp only [h0, if_true]
      refine ⟨by simpa using hd1, ?_, by simp, ?_⟩
      · rw [hn] at hd2
        simp [digitsValue, hd2, hn]
      · intro hne
        simp only [List.head?_cons, ne_eq, Option.some.injEq]
        exact hd3 (by omega)
    · simp only [h0, if_false]
      obtain ⟨i1, i2, i3, i4⟩ := ih (n / 10) (by omega)
      refine ⟨?_, ?_, by simp, ?_⟩
      · intro c hc
        rcases List.mem_append.mp hc with h | h
        · exact i1 c h
        · simp only [List.mem_singleton] at h; rw [h]; exact hd1
      · rw [digitsValue_append, i2, hd2]; omega
      · intro _
        cases hds : Nat.toDigits 10 (n / 10) with
        | nil => exact absurd hds i3
        | cons a as =>
          have := i4 h0
          rw [hds] at this
          simpa using this

theorem jsonDigits_append (ds rest : List Char) (h : ∀ c ∈ ds, c.isDigit = true) :
    jsonDigits (ds ++ ',' :: rest) = (ds, ',' :: rest) := by
  induction ds with
  | nil => simp [jsonDigits]
  | cons c cs ih =>
    have hc := h c (by simp)
    have := ih (fun c hc => h c (by simp [hc]))
    simp [jsonDigits, hc, this]

theorem formatInt_data (n : Int) :
    (formatInt n).data =
      if n < 0 then '-' :: Nat.toDigits 10 n.natAbs else Nat.toDigits 10 n.natAbs := by
  cases n with
  | ofNat m =>
    have : ¬ (Int.ofNat m < 0) := by simp
    rw [if_neg this]
    rfl
  | negSucc m =>
    have : Int.negSucc m < 0 := Int.negSucc_lt_zero m
    rw [if_pos this]
    rfl

theorem jsonInt_formatInt (n : Int) (rest : List Char)
    (hlo : -(2 : Int) ^ 63 ≤ n) (hhi : n < (2 : Int) ^ 63) :
    jsonInt ((formatInt n).data ++ ',' :: rest) = some (n, ',' :: rest) := by
  obtain ⟨h1, h2, h3, h4⟩ := toDigits_spec n.natAbs
  obtain ⟨a, as, has⟩ : ∃ a as, Nat.toDigits 10 n.natAbs = a :: as := by
    cases hds : Nat.toDigits 10 n.natAbs with
    | nil => exact absurd hds h3
    | cons a as => exact ⟨a, as, rfl⟩
  have ha : a.isDigit = true := h1 a (by rw [has]; simp)
  have ham : a ≠ '-' := by
    intro h; rw [h] at ha; exact absurd ha (by decide)
  have hz : (a = '0' → as = []) := by
    intro h0
    by_cases hn : n.natAbs = 0
    · rw [hn] at has
      have : Nat.toDigits 10 0 = ['0'] := by decide
      rw [this] at has
      exact (List.cons.inj has).2.symm
    · have := h4 hn
      rw [has, h0] at this
      exact absurd rfl this
  have hd := jsonDigits_append (Nat.toDigits 10 n.natAbs) rest h1
  have hlead : ¬ ((Nat.toDigits 10 n.natAbs).head? = some '0' ∧
      (Nat.toDigits 10 n.natAbs).length ≠ 1) := by
    rintro ⟨hh, hl⟩
    rw [has] at hh hl
    have h0 : a = '0' := by simpa using hh
    rw [hz h0] at hl
    exact hl rfl
  have hsep : ¬ (some ',' = some '.' ∨ some ',' = some 'e' ∨ some ',' = some 'E') := by decide
  rw [formatInt_data]
  unfold jsonInt
  by_cases hneg : n < 0
  · have hv : -(n.natAbs : Int) = n := by omega
    simp only [hneg, if_true, List.cons_append, List.head?_cons, List.tail_cons, hd, h2]
    rw [if_neg h3, if_neg hlead, if_neg hsep, hv, if_neg (by omega)]
  · have hv : (n.natAbs : Int) = n := by omega
    have hh : ¬ ((Nat.toDigits 10 n.natAbs ++ ',' :: rest).head? = some '-') := by
      rw [has]
      simpa using ham
    simp only [hneg, if_false, hh, hd, h2, List.head?_cons]
    rw [if_neg h3, if_neg hlead, if_neg hsep, hv, if_neg (by omega)]

theorem jsonMembers_step (fuel : Nat) (r0 r1 : DeployRequest) (key : String)
    (v cs2 : List Char) (h : jsonSetField r0 key v = some (r1, ',' :: cs2)) :
    jsonMembers (fuel + 1) r0 (jsonString key (':' :: v)) = jsonMembers fuel r1 cs2 := by
  simp [jsonMembers, jsonStringLit_jsonString, h]

theorem jsonMembers_last (fuel : Nat) (r0 r1 : DeployRequest) (key : String)
    (v : List Char) (h : jsonSetField r0 key v = some (r1, ['\x7d'])) :
    jsonMembers (fuel + 1) r0 (jsonString key (':' :: v)) = some r1 := by
  simp [jsonMembers, jsonStringLit_jsonString, h]

theorem jsonString_length (s : String) (rest : List Char) :
    rest.length + 2 ≤ (jsonString s rest).length := by
  simp [jsonString]

theorem jsonUnmarshal_object (key : String) (rest : List Char) :
    jsonUnmarshal ⟨'\x7b' :: jsonString key rest⟩ =
      match jsonMembers (jsonString key rest).length zeroDeployRequest (jsonString key rest) with
      | some r => .ok r
      | none => .error "invalid character in object" := by
  simp [jsonUnmarshal, jsonString]

/-! ## Standard output plays no part in a run -/

theorem execCmd_stdout (p : ProcOutcome) (s : String) :
    (execCmd { p with stdout := s }).2 = (execCmd p).2 := by
  unfold execCmd
  by_cases h : p.stderr = "" <;> simp [h]

theorem executeCommand_stdout (w : World) (out : String → String) (name : String)
    (args : List String) (r : DeployRequest) (msg log : String) :
    executeCommand (withStdout w out) name args r msg log = executeCommand w name args r msg log := by
  unfold executeCommand
  have : (execCmd ((withStdout w out).run name)).2 = (execCmd (w.run name)).2 :=
    execCmd_stdout (w.run name) (out name)
  rw [this]

theorem deployLaunch_stdout (w : World) (out : String → String) (o : Options) (r : DeployRequest)
    (a b c : String) (n : Int) (log : String) :
    deployLaunch (withStdout w out) o r a b c n log = deployLaunch w o r a b c n log := by
  unfold deployLaunch
  simp only [executeCommand_stdout]
  rfl

theorem deployWorkspace_stdout (w : World) (out : String → String) (o : Options) (r : DeployRequest)
    (a b c log : String) :
    deployWorkspace (withStdout w out) o r a b c log = deployWorkspace w o r a b c log := by
  unfold deployWorkspace
  simp only [executeCommand_stdout, deployLaunch_stdout, updateEtcd_eq]
  rfl

theorem deploy_stdout (w : World) (out : String → String) (o : Options) (r : DeployRequest) :
    deploy (withStdout w out) o r = deploy w o r := by
  unfold deploy
  simp only [deployWorkspace_stdout]
  rfl

/-! ## A step that reports the already-achieved line runs as one that succeeds -/

theorem executeCommand_withOutcome (w : World) (script : String)
    (h : (w.run script).stderr = alreadyAchieved) (name : String)
    (args : List String) (r : DeployRequest) (msg log : String) :
    executeCommand (withOutcome w script quietProc) name args r msg log =
      executeCommand w name args r msg log := by
  by_cases hn : name = script
  · subst hn
    have h1 : (execCmd (w.run name)).2 = some alreadyAchieved := by
      unfold execCmd
      rw [h]
      simp [alreadyAchieved]
    have h2 : (execCmd ((withOutcome w name quietProc).run name)).2 = none := by
      simp [withOutcome, execCmd, quietProc, cmdRun]
    unfold executeCommand
    rw [h1, h2]
    simp
  · unfold executeCommand
    have : (withOutcome w script quietProc).run name = w.run name := by
      simp [withOutcome, hn]
    rw [this]

theorem deployLaunch_withOutcome (w : World) (script : String)
    (h : (w.run script).stderr = alreadyAchieved) (o : Options) (r : DeployRequest)
    (a b c : String) (n : Int) (log : String) :
    deployLaunch (withOutcome w script quietProc) o r a b c n log =
      deployLaunch w o r a b c n log := by
  unfold deployLaunch
  simp only [executeCommand_withOutcome w script h]
  rfl

theorem deployWorkspace_withOutcome (w : World) (script : String)
    (h : (w.run script).stderr = alreadyAchieved) (o : Options) (r : DeployRequest)
    (a b c log : String) :
    deployWorkspace (withOutcome w script quietProc) o r a b c log =
      deployWorkspace w o r a b c log := by
  unfold deployWorkspace
  simp only [executeCommand_withOutcome w script h, deployLaunch_withOutcome w script h,
    updateEtcd_eq]
  rfl

theorem deploy_withOutcome (w : World) (script : String)
    (h : (w.run script).stderr = alreadyAchieved) (o : Options) (r : DeployRequest) :
    deploy (withOutcome w script quietProc) o r = deploy w o r := by
  unfold deploy
  simp only [deployWorkspace_withOutcome w script h]
  rfl

/-- No run calls the coordination service. -/
theorem deploy_no_etcd (w : World) (o : Options) (r : DeployRequest) :
    etcdCalls (deploy w o r) = [] := by
  rcases deploy_paths w o r with
    ⟨err, hq1, ht⟩ | ⟨row1, e, hq1, hg, hne, ht⟩ | ⟨row1, e, hq1, hg, hm, ht⟩ |
    ⟨row1, e, hq1, hr, hf, ht⟩ | ⟨row1, e, hq1, hr, hp, hs, hn, ht⟩ |
    ⟨row1, e, hq1, hr, hf, ht⟩ | ⟨row1, e, hq1, hr, hf, ht⟩ | ⟨row1, e, hq1, hr, hf, ht⟩ |
    ⟨row1, e, hq1, hr, hp, hs, ht⟩ | ⟨row1, hq1, hr, hp, hs, ht⟩
  all_goals rw [ht]
  all_goals by_cases hep : r.EtcdEndpoint = ""
  all_goals
    simp [etcdCalls, isEtcdCall, upToLaunch, keySteps, upToPublish, upToMeta, upToImage, evImage,
      evMeta, evPublish, evLaunch, evTrackerSet, evCleanup, hep]

/-! ## What follows a step that passes -/

theorem deploy_after_image (w : World) (o : Options) (r : DeployRequest) (row : DeployStatus)
    (hr0 : reachesImage w o r row) (hp0 : stepPasses (w.run "./scripts/download-image.sh")) :
    upToImage w o r row ++ [evImage w o r, .stat (tempDirName w o r ++ "/docker-compose.yml")] <+:
      deploy w o r := by
  rcases deploy_paths w o r with
    ⟨err, hq1, ht⟩ | ⟨row1, e1, hq1, hg, hne, ht⟩ | ⟨row1, e1, hq1, hg, hm, ht⟩ |
    ⟨row1, e1, hq1, hr, hf, ht⟩ | ⟨row1, e1, hq1, hr, hp, hs, hn, ht⟩ |
    ⟨row1, e1, hq1, hr, hf, ht⟩ | ⟨row1, e1, hq1, hr, hf, ht⟩ | ⟨row1, e1, hq1, hr, hf, ht⟩ |
    ⟨row1, e1, hq1, hr, hp, hs, ht⟩ | ⟨row1, hq1, hr, hp, hs, ht⟩
  all_goals
    first
    | (obtain rfl := queryDeploy_row w r row row1 hr0.1 hq1
       rw [ht]
       simp [upToLaunch, upToPublish, upToMeta, List.prefix_append_right_inj]
       done)
    | (exfalso
       simp_all [reachesLaunch, reachesPublish, reachesMeta, reachesImage, stepFails, stepPasses])

theorem deploy_after_meta (w : World) (o : Options) (r : DeployRequest) (row : DeployStatus)
    (hr0 : reachesMeta w o r row) (hp0 : stepPasses (w.run "./scripts/download-metadata.sh")) :
    upToMeta w o r row ++
      [evMeta w o r,
        .updateDeploy r.DeployID Started "Extracting number of containers to launch."
          (logMeta row ++ sprintln "Extracting number of containers to launch.")] <+:
      deploy w o r := by
  rcases deploy_paths w o r with
    ⟨err, hq1, ht⟩ | ⟨row1, e1, hq1, hg, hne, ht⟩ | ⟨row1, e1, hq1, hg, hm, ht⟩ |
    ⟨row1, e1, hq1, hr, hf, ht⟩ | ⟨row1, e1, hq1, hr, hp, hs, hn, ht⟩ |
    ⟨row1, e1, hq1, hr, hf, ht⟩ | ⟨row1, e1, hq1, hr, hf, ht⟩ | ⟨row1, e1, hq1, hr, hf, ht⟩ |
    ⟨row1, e1, hq1, hr, hp, hs, ht⟩ | ⟨row1, hq1, hr, hp, hs, ht⟩
  all_goals
    first
    | (obtain rfl := queryDeploy_row w r row row1 hr0.1.1 hq1
       rw [ht]
       simp [upToLaunch, upToPublish, List.prefix_append_right_inj]
       done)
    | (exfalso
       simp_all [reachesLaunch, reachesPublish, reachesMeta, reachesImage, stepFails, stepPasses])

theorem deploy_after_publish (w : World) (o : Options) (r : DeployRequest) (row : DeployStatus)
    (hr0 : reachesPublish w o r row) (hp0 : stepPasses (w.run "./scripts/deploy-metadata.sh")) :
    upToLaunch w o r row <+: deploy w o r := by
  rcases deploy_paths w o r with
    ⟨err, hq1, ht⟩ | ⟨row1, e1, hq1, hg, hne, ht⟩ | ⟨row1, e1, hq1, hg, hm, ht⟩ |
    ⟨row1, e1, hq1, hr, hf, ht⟩ | ⟨row1, e1, hq1, hr, hp, hs, hn, ht⟩ |
    ⟨row1, e1, hq1, hr, hf, ht⟩ | ⟨row1, e1, hq1, hr, hf, ht⟩ | ⟨row1, e1, hq1, hr, hf, ht⟩ |
    ⟨row1, e1, hq1, hr, hp, hs, ht⟩ | ⟨row1, hq1, hr, hp, hs, ht⟩
  all_goals
    first
    | (obtain rfl := queryDeploy_row w r row row1 hr0.1.1.1 hq1
       rw [ht]
       exact List.prefix_append _ _)
    | (exfalso
       simp_all [reachesLaunch, reachesPublish, reachesMeta, reachesImage, stepFails, stepPasses])

theorem deploy_after_launch (w : World) (o : Options) (r : DeployRequest) (row : DeployStatus)
    (hr0 : reachesLaunch w o r row) (hp0 : stepPasses (w.run "./scripts/deploy-containers.sh")) :
    upToLaunch w o r row ++ [evLaunch w o r, evTrackerSet o r] <+: deploy w o r := by
  rcases deploy_paths w o r with
    ⟨err, hq1, ht⟩ | ⟨row1, e1, hq1, hg, hne, ht⟩ | ⟨row1, e1, hq1, hg, hm, ht⟩ |
    ⟨row1, e1, hq1, hr, hf, ht⟩ | ⟨row1, e1, hq1, hr, hp, hs, hn, ht⟩ |
    ⟨row1, e1, hq1, hr, hf, ht⟩ | ⟨row1, e1, hq1, hr, hf, ht⟩ | ⟨row1, e1, hq1, hr, hf, ht⟩ |
    ⟨row1, e1, hq1, hr, hp, hs, ht⟩ | ⟨row1, hq1, hr, hp, hs, ht⟩
  all_goals
    first
    | (obtain rfl := queryDeploy_row w r row row1 hr0.1.1.1.1 hq1
       rw [ht]
       simp [List.prefix_append_right_inj]
       done)
    | (exfalso
       simp_all [reachesLaunch, reachesPublish, reachesMeta, reachesImage, stepFails, stepPasses])

/-! ## `unicode/utf8`: decoding and encoding -/

theorem utf8DecodeRune_ascii (b : Nat) (rest : List Nat) (h : b < 0x80) :
    utf8DecodeRune (b :: rest) = (b, 1) := by
  simp [utf8DecodeRune, h]

theorem utf8DecodeRune_two (b0 b1 : Nat) (tl : List Nat) (h2 : 0xC2 ≤ b0 ∧ b0 ≤ 0xDF)
    (hc : 0x80 ≤ b1 ∧ b1 ≤ 0xBF) :
    utf8DecodeRune (b0 :: b1 :: tl) = ((b0 - 0xC0) * 64 + (b1 - 0x80), 2) := by
  have h : ¬ b0 < 0x80 := by omega
  simp only [utf8DecodeRune, if_neg h, if_pos h2, if_pos hc]

theorem utf8DecodeRune_three (b0 b1 b2 : Nat) (tl : List Nat) (h3 : 0xE0 ≤ b0 ∧ b0 ≤ 0xEF)
    (hc : (if b0 = 0xE0 then 0xA0 else 0x80) ≤ b1 ∧
      b1 ≤ (if b0 = 0xED then 0x9F else 0xBF) ∧ 0x80 ≤ b2 ∧ b2 ≤ 0xBF) :
    utf8DecodeRune (b0 :: b1 :: b2 :: tl) =
      ((b0 - 0xE0) * 4096 + (b1 - 0x80) * 64 + (b2 - 0x80), 3) := by
  have h : ¬ b0 < 0x80 := by omega
  have h2 : ¬ (0xC2 ≤ b0 ∧ b0 ≤ 0xDF) := by omega
  simp only [utf8DecodeRune, if_neg h, if_neg h2, if_pos h3, if_pos hc]

theorem utf8DecodeRune_four (b0 b1 b2 b3 : Nat) (tl : List Nat) (h4 : 0xF0 ≤ b0 ∧ b0 ≤ 0xF4)
    (hc : (if b0 = 0xF0 then 0x90 else 0x80) ≤ b1 ∧
      b1 ≤ (if b0 = 0xF4 then 0x8F else 0xBF) ∧ 0x80 ≤ b2 ∧ b2 ≤ 0xBF ∧
      0x80 ≤ b3 ∧ b3 ≤ 0xBF) :
    utf8DecodeRune (b0 :: b1 :: b2 :: b3 :: tl) =
      ((b0 - 0xF0) * 262144 + (b1 - 0x80) * 4096 + (b2 - 0x80) * 64 + (b3 - 0x80), 4) := by
  have h : ¬ b0 < 0x80 := by omega
  have h2 : ¬ (0xC2 ≤ b0 ∧ b0 ≤ 0xDF) := by omega
  have h3 : ¬ (0xE0 ≤ b0 ∧ b0 ≤ 0xEF) := by omega
  simp only [utf8DecodeRune, if_neg h, if_neg h2, if_neg h3, if_pos h4, if_pos hc]

theorem utf8EncodeRune_two (b0 b1 : Nat) (h2 : 0xC2 ≤ b0 ∧ b0 ≤ 0xDF)
    (hc : 0x80 ≤ b1 ∧ b1 ≤ 0xBF) :
    utf8EncodeRune ((b0 - 0xC0) * 64 + (b1 - 0x80)) = [b0, b1] := by
  generalize hr : (b0 - 0xC0) * 64 + (b1 - 0x80) = r
  simp only [utf8EncodeRune]
  split_ifs <;> first
    | (exfalso; omega)
    | (simp only [List.cons.injEq, and_true]; omega)

theorem utf8EncodeRune_three (b0 b1 b2 : Nat) (h3 : 0xE0 ≤ b0 ∧ b0 ≤ 0xEF)
    (hc : (if b0 = 0xE0 then 0xA0 else 0x80) ≤ b1 ∧
      b1 ≤ (if b0 = 0xED then 0x9F else 0xBF) ∧ 0x80 ≤ b2 ∧ b2 ≤ 0xBF) :
    utf8EncodeRune ((b0 - 0xE0) * 4096 + (b1 - 0x80) * 64 + (b2 - 0x80)) = [b0, b1, b2] := by
  obtain ⟨c1, c2, c3, c4⟩ := hc
  generalize hr : (b0 - 0xE0) * 4096 + (b1 - 0x80) * 64 + (b2 - 0x80) = r
  simp only [utf8EncodeRune]
  split_ifs at c1 c2 ⊢ <;> first
    | (exfalso; omega)
    | (simp only [List.cons.injEq, and_true]; omega)

theorem utf8EncodeRune_four (b0 b1 b2 b3 : Nat) (h4 : 0xF0 ≤ b0 ∧ b0 ≤ 0xF4)
    (hc : (if b0 = 0xF0 then 0x90 else 0x80) ≤ b1 ∧
      b1 ≤ (if b0 = 0xF4 then 0x8F else 0xBF) ∧ 0x80 ≤ b2 ∧ b2 ≤ 0xBF ∧
      0x80 ≤ b3 ∧ b3 ≤ 0xBF) :
    utf8EncodeRune ((b0 - 0xF0) * 262144 + (b1 - 0x80) * 4096 + (b2 - 0x80) * 64 +
      (b3 - 0x80)) = [b0, b1, b2, b3] ∧
    0x10000 ≤ (b0 - 0xF0) * 262144 + (b1 - 0x80) * 4096 + (b2 - 0x80) * 64 + (b3 - 0x80) := by
  obtain ⟨c1, c2, c3, c4, c5, c6⟩ := hc
  generalize hr : (b0 - 0xF0) * 262144 + (b1 - 0x80) * 4096 + (b2 - 0x80) * 64 +
    (b3 - 0x80) = r
  have hlo : 0x10000 ≤ r := by
    split_ifs at c1 c2 <;> omega
  refine ⟨?_, hlo⟩
  simp only [utf8EncodeRune]
  split_ifs at c1 c2 ⊢ <;> first
    | (exfalso; omega)
    | (simp only [List.cons.injEq, and_true]; omega)

/-- The outcomes of `utf8.DecodeRune` on a byte that is not ASCII: an error of
width one, or a rune of two, three or four bytes that `utf8.EncodeRune` writes back
as the bytes read, whatever follows them. -/
theorem utf8DecodeRune_cases (b0 : Nat) (rest : List Nat) (h : ¬ b0 < 0x80) :
    utf8DecodeRune (b0 :: rest) = (RuneError, 1) ∨
    (∃ b1 tl, rest = b1 :: tl ∧ 0x80 ≤ b1 ∧
      (∀ tl1, (utf8DecodeRune (b0 :: b1 :: tl1)).2 = 2 ∧
        utf8EncodeRune (utf8DecodeRune (b0 :: b1 :: tl1)).1 = [b0, b1] ∧
        (utf8DecodeRune (b0 :: b1 :: tl1)).1 < 0x800)) ∨
    (∃ b1 b2 tl, rest = b1 :: b2 :: tl ∧ 0x80 ≤ b1 ∧ 0x80 ≤ b2 ∧
      (∀ tl1, (utf8DecodeRune (b0 :: b1 :: b2 :: tl1)).2 = 3 ∧
        utf8EncodeRune (utf8DecodeRune (b0 :: b1 :: b2 :: tl1)).1 = [b0, b1, b2] ∧
        (utf8DecodeRune (b0 :: b1 :: b2 :: tl1)).1 =
          (utf8DecodeRune (b0 :: b1 :: b2 :: tl)).1)) ∨
    (∃ b1 b2 b3 tl, rest = b1 :: b2 :: b3 :: tl ∧ 0x80 ≤ b1 ∧ 0x80 ≤ b2 ∧ 0x80 ≤ b3 ∧
      (∀ tl1, (utf8DecodeRune (b0 :: b1 :: b2 :: b3 :: tl1)).2 = 4 ∧
        utf8EncodeRune (utf8DecodeRune (b0 :: b1 :: b2 :: b3 :: tl1)).1 = [b0, b1, b2, b3] ∧
        0x10000 ≤ (utf8DecodeRune (b0 :: b1 :: b2 :: b3 :: tl1)).1)) := by
  by_cases h2 : 0xC2 ≤ b0 ∧ b0 ≤ 0xDF
  · match rest with
    | [] => left; simp [utf8DecodeRune, h, h2]
    | b1 :: tl =>
      by_cases hc : 0x80 ≤ b1 ∧ b1 ≤ 0xBF
      · right; left
        refine ⟨b1, tl, rfl, hc.1, fun tl1 => ?_⟩
        rw [utf8DecodeRune_two b0 b1 tl1 h2 hc]
        exact ⟨rfl, utf8EncodeRune_two b0 b1 h2 hc, by show _ < 0x800; omega⟩
      · left; simp only [utf8DecodeRune, if_neg h, if_pos h2, if_neg hc]
  · by_cases h3 : 0xE0 ≤ b0 ∧ b0 ≤ 0xEF
    · match rest with
      | [] => left; simp [utf8DecodeRune, h, h2, h3]
      | [_] => left; simp [utf8DecodeRune, h, h2, h3]
      | b1 :: b2 :: tl =>
        by_cases hc : (if b0 = 0xE0 then 0xA0 else 0x80) ≤ b1 ∧
            b1 ≤ (if b0 = 0xED then 0x9F else 0xBF) ∧ 0x80 ≤ b2 ∧ b2 ≤ 0xBF
        · right; right; left
          have hb1 : 0x80 ≤ b1 := by
            obtain ⟨c1, c2, _, _⟩ := hc
            split_ifs at c1 c2 <;> omega
          refine ⟨b1, b2, tl, rfl, hb1, hc.2.2.1, fun tl1 => ?_⟩
          rw [utf8DecodeRune_three b0 b1 b2 tl1 h3 hc, utf8DecodeRune_three b0 b1 b2 tl h3 hc]
          exact ⟨rfl, utf8EncodeRune_three b0 b1 b2 h3 hc, rfl⟩
        · left; simp only [utf8DecodeRune, if_neg h, if_neg h2, if_pos h3, if_neg hc]
    · by_cases h4 : 0xF0 ≤ b0 ∧ b0 ≤ 0xF4
      · match rest with
        | [] => left; simp [utf8DecodeRune, h, h2, h3, h4]
        | [_] => left; simp [utf8DecodeRune, h, h2, h3, h4]
        | [_, _] => left; simp [utf8DecodeRune, h, h2, h3, h4]
        | b1 :: b2 :: b3 :: tl =>
          by_cases hc : (if b0 = 0xF0 then 0x90 else 0x80) ≤ b1 ∧
              b1 ≤ (if b0 = 0xF4 then 0x8F else 0xBF) ∧ 0x80 ≤ b2 ∧ b2 ≤ 0xBF ∧
              0x80 ≤ b3 ∧ b3 ≤ 0xBF
          · right; right; right
            have hb1 : 0x80 ≤ b1 := by
              obtain ⟨c1, c2, _⟩ := hc
              split_ifs at c1 c2 <;> omega
            refine ⟨b1, b2, b3, tl, rfl, hb1, hc.2.2.1, hc.2.2.2.2.1, fun tl1 => ?_⟩
            rw [utf8DecodeRune_four b0 b1 b2 b3 tl1 h4 hc]
            exact ⟨rfl, (utf8EncodeRune_four b0 b1 b2 b3 h4 hc).1,
              (utf8EncodeRune_four b0 b1 b2 b3 h4 hc).2⟩
          · left
            simp only [utf8DecodeRune, if_neg h, if_neg h2, if_neg h3, if_pos h4, if_neg hc]
      · left
        simp only [utf8DecodeRune, if_neg h, if_neg h2, if_neg h3, if_neg h4]

/-! ## Reading back what `appendString` writes -/

theorem jsonUnquoteBytes_emit (st next : JsonByteScan) (c : Nat) (cs out : List Nat)
    (h : jsonStep st c cs = .emit out next) :
    jsonUnquoteBytes st (c :: cs) =
      (jsonUnquoteBytes next cs).map (fun p => (out ++ p.1, p.2)) := by
  rw [jsonUnquoteBytes, h]

theorem jsonUnquoteBytes_done (st : JsonByteScan) (c : Nat) (cs out : List Nat)
    (h : jsonStep st c cs = .done out) :
    jsonUnquoteBytes st (c :: cs) = some (out, cs) := by
  rw [jsonUnquoteBytes, h]

theorem hexValByte_jsonHex (k : Nat) (h : k < 16) : hexValByte (jsonHex k) = some k := by
  interval_cases k <;> decide

/-- The reader gives back an ASCII byte from what `jsonEscapeByte` writes for it. -/
theorem jsonUnquoteBytes_escapeByte (go122 : Bool) (b : Nat) (hb : b < 0x80)
    (more : List Nat) :
    jsonUnquoteBytes .text (jsonEscapeByte go122 b ++ more) =
      (jsonUnquoteBytes .text more).map (fun p => (b :: p.1, p.2)) := by
  have hesc : jsonUnquoteBytes .text
      ([0x5C, 0x75, 0x30, 0x30, jsonHex (b / 16), jsonHex (b % 16)] ++ more) =
      (jsonUnquoteBytes .text more).map (fun p => (b :: p.1, p.2)) := by
    have hq : b / 16 < 16 := by omega
    have hr : b % 16 < 16 := Nat.mod_lt _ (by decide)
    have hv : b / 16 * 16 + b % 16 = b := by omega
    have hs : ¬ (0xD800 ≤ b ∧ b < 0xE000) := by omega
    have he : utf8EncodeRune b = [b] := by simp [utf8EncodeRune, hb]
    have s1 : jsonStep .text 0x5C (0x75 :: 0x30 :: 0x30 :: jsonHex (b / 16) ::
        jsonHex (b % 16) :: more) = .emit [] .escape := by
      simp [jsonStep, jsonStepText]
    have s2 : jsonStep .escape 0x75 (0x30 :: 0x30 :: jsonHex (b / 16) ::
        jsonHex (b % 16) :: more) = .emit [] (.hex 0 0) := by
      simp [jsonStep, jsonStepEscape]
    have s3 : jsonStep (.hex 0 0) 0x30 (0x30 :: jsonHex (b / 16) ::
        jsonHex (b % 16) :: more) = .emit [] (.hex 1 0) := by
      simp [jsonStep, hexValByte]
    have s4 : jsonStep (.hex 1 0) 0x30 (jsonHex (b / 16) ::
        jsonHex (b % 16) :: more) = .emit [] (.hex 2 0) := by
      simp [jsonStep, hexValByte]
    have s5 : jsonStep (.hex 2 0) (jsonHex (b / 16)) (jsonHex (b % 16) :: more) =
        .emit [] (.hex 3 (b / 16)) := by
      simp [jsonStep, hexValByte_jsonHex _ hq]
    have s6 : jsonStep (.hex 3 (b / 16)) (jsonHex (b % 16)) more = .emit [b] .text := by
      simp [jsonStep, hexValByte_jsonHex _ hr, jsonStepUnit, hv, hs, he]
    simp only [List.cons_append, List.nil_append]
    rw [jsonUnquoteBytes_emit _ _ _ _ _ s1, jsonUnquoteBytes_emit _ _ _ _ _ s2,
      jsonUnquoteBytes_emit _ _ _ _ _ s3, jsonUnquoteBytes_emit _ _ _ _ _ s4,
      jsonUnquoteBytes_emit _ _ _ _ _ s5, jsonUnquoteBytes_emit _ _ _ _ _ s6]
    simp [Option.map_map, Function.comp_def]
  have hshort : ∀ e x, jsonUnescapeByte e = some x → e ≠ 0x75 →
      jsonUnquoteBytes .text ([0x5C, e] ++ more) =
        (jsonUnquoteBytes .text more).map (fun p => (x :: p.1, p.2)) := by
    intro e x hx hne
    have s1 : jsonStep .text 0x5C (e :: more) = .emit [] .escape := by
      simp [jsonStep, jsonStepText]
    have s2 : jsonStep .escape e more = .emit [x] .text := by
      simp [jsonStep, jsonStepEscape, hne, hx]
    simp only [List.cons_append, List.nil_append]
    rw [jsonUnquoteBytes_emit _ _ _ _ _ s1, jsonUnquoteBytes_emit _ _ _ _ _ s2]
    simp [Option.map_map, Function.comp_def]
  unfold jsonEscapeByte
  split_ifs with h1 h2 h3 h4 h5 h6 h7
  · have hs : jsonStep .text b more = .emit [b] .text := by
      simp only [htmlSafe, decide_eq_true_eq] at h1
      obtain ⟨a1, a2, a3, a4, _⟩ := h1
      have a5 : ¬ b < 0x20 := by omega
      simp [jsonStep, jsonStepText, a3, a4, a5, hb]
    simp only [List.cons_append, List.nil_append]
    rw [jsonUnquoteBytes_emit _ _ _ _ _ hs]
    simp
  · rcases h2 with h | h
    · subst h; exact hshort _ _ (by decide) (by decide)
    · subst h; exact hshort _ _ (by decide) (by decide)
  · obtain ⟨_, h⟩ := h3; subst h; exact hshort _ _ (by decide) (by decide)
  · obtain ⟨_, h⟩ := h4; subst h; exact hshort _ _ (by decide) (by decide)
  · subst h5; exact hshort _ _ (by decide) (by decide)
  · subst h6; exact hshort _ _ (by decide) (by decide)
  · subst h7; exact hshort _ _ (by decide) (by decide)
  · exact hesc

/-- The reader gives the rune of a `u` escape of four hexadecimal digits whose
value is no surrogate. -/
theorem jsonUnquoteBytes_u4 (h1 h2 h3 h4 x1 x2 x3 x4 : Nat) (more : List Nat)
    (e1 : hexValByte h1 = some x1) (e2 : hexValByte h2 = some x2)
    (e3 : hexValByte h3 = some x3) (e4 : hexValByte h4 = some x4)
    (hs : ¬ (0xD800 ≤ ((x1 * 16 + x2) * 16 + x3) * 16 + x4 ∧
      ((x1 * 16 + x2) * 16 + x3) * 16 + x4 < 0xE000)) :
    jsonUnquoteBytes .text (0x5C :: 0x75 :: h1 :: h2 :: h3 :: h4 :: more) =
      (jsonUnquoteBytes .text more).map
        (fun p => (utf8EncodeRune (((x1 * 16 + x2) * 16 + x3) * 16 + x4) ++ p.1, p.2)) := by
  have s1 : jsonStep .text 0x5C (0x75 :: h1 :: h2 :: h3 :: h4 :: more) = .emit [] .escape := by
    simp [jsonStep, jsonStepText]
  have s2 : jsonStep .escape 0x75 (h1 :: h2 :: h3 :: h4 :: more) = .emit [] (.hex 0 0) := by
    simp [jsonStep, jsonStepEscape]
  have s3 : jsonStep (.hex 0 0) h1 (h2 :: h3 :: h4 :: more) = .emit [] (.hex 1 x1) := by
    simp [jsonStep, e1]
  have s4 : jsonStep (.hex 1 x1) h2 (h3 :: h4 :: more) = .emit [] (.hex 2 (x1 * 16 + x2)) := by
    simp [jsonStep, e2]
  have s5 : jsonStep (.hex 2 (x1 * 16 + x2)) h3 (h4 :: more) =
      .emit [] (.hex 3 ((x1 * 16 + x2) * 16 + x3)) := by
    simp [jsonStep, e3]
  have s6 : jsonStep (.hex 3 ((x1 * 16 + x2) * 16 + x3)) h4 more =
      .emit (utf8EncodeRune (((x1 * 16 + x2) * 16 + x3) * 16 + x4)) .text := by
    simp only [jsonStep, e4, jsonStepUnit, if_true, if_neg hs]
  rw [jsonUnquoteBytes_emit _ _ _ _ _ s1, jsonUnquoteBytes_emit _ _ _ _ _ s2,
    jsonUnquoteBytes_emit _ _ _ _ _ s3, jsonUnquoteBytes_emit _ _ _ _ _ s4,
    jsonUnquoteBytes_emit _ _ _ _ _ s5, jsonUnquoteBytes_emit _ _ _ _ _ s6]
  simp [Option.map_map, Function.comp_def]

/-- The reader copies the bytes of a rune that is not ASCII, given the width and
the bytes `utf8.EncodeRune` writes for it. -/
theorem jsonUnquoteBytes_rune (b0 : Nat) (tl out : List Nat) (k : Nat) (h0 : ¬ b0 < 0x80)
    (hw : (utf8DecodeRune (b0 :: tl)).2 = k + 1)
    (he : utf8EncodeRune (utf8DecodeRune (b0 :: tl)).1 = out) :
    jsonUnquoteBytes .text (b0 :: tl) =
      (jsonUnquoteBytes (if k = 0 then .text else .skip k) tl).map
        (fun p => (out ++ p.1, p.2)) := by
  have s1 : jsonStep .text b0 tl = .emit out (if k = 0 then .text else .skip k) := by
    have a1 : b0 ≠ 0x22 := by omega
    have a2 : b0 ≠ 0x5C := by omega
    have a3 : ¬ b0 < 0x20 := by omega
    simp only [jsonStep, jsonStepText, if_neg a1, if_neg a2, if_neg a3, if_neg h0, hw, he]
    by_cases hk : k = 0
    · simp [hk]
    · have : ¬ k + 1 ≤ 1 := by omega
      simp [hk, this]
  rw [jsonUnquoteBytes_emit _ _ _ _ _ s1]

theorem jsonUnquoteBytes_skip (k c : Nat) (cs : List Nat) :
    jsonUnquoteBytes (.skip (k + 1)) (c :: cs) =
      jsonUnquoteBytes (if k = 0 then .text else .skip k) cs := by
  have s1 : jsonStep (.skip (k + 1)) c cs = .emit [] (if k = 0 then .text else .skip k) := by
    by_cases hk : k = 0
    · simp [jsonStep, hk]
    · have : ¬ k + 1 ≤ 1 := by omega
      simp [jsonStep, hk, this]
  rw [jsonUnquoteBytes_emit _ _ _ _ _ s1]
  simp

theorem jsonEscapeLoop_ascii (go122 : Bool) (n b : Nat) (tl : List Nat) (hb : b < 0x80) :
    jsonEscapeLoop go122 (n + 1) (b :: tl) = jsonEscapeByte go122 b ++ jsonEscapeLoop go122 n tl := by
  rw [jsonEscapeLoop, if_pos hb]

theorem jsonEscapeLoop_error (go122 : Bool) (n b : Nat) (tl : List Nat) (hb : ¬ b < 0x80)
    (he : utf8DecodeRune (b :: tl) = (RuneError, 1)) :
    jsonEscapeLoop go122 (n + 1) (b :: tl) =
      [0x5C, 0x75, 0x66, 0x66, 0x66, 0x64] ++ jsonEscapeLoop go122 n tl := by
  rw [jsonEscapeLoop, if_neg hb, if_pos (by rw [he]; exact ⟨rfl, rfl⟩)]

theorem jsonEscapeLoop_separator (go122 : Bool) (n b k : Nat) (tl : List Nat) (hb : ¬ b < 0x80)
    (hw : (utf8DecodeRune (b :: tl)).2 = k + 2)
    (h2 : (utf8DecodeRune (b :: tl)).1 = 0x2028 ∨ (utf8DecodeRune (b :: tl)).1 = 0x2029) :
    jsonEscapeLoop go122 (n + 1) (b :: tl) =
      [0x5C, 0x75, 0x32, 0x30, 0x32, jsonHex ((utf8DecodeRune (b :: tl)).1 % 16)] ++
        jsonEscapeLoop go122 n (tl.drop (k + 1)) := by
  rw [jsonEscapeLoop, if_neg hb, if_neg (by rw [hw]; omega), if_pos h2, hw]
  rfl

theorem jsonEscapeLoop_rune (go122 : Bool) (n b k : Nat) (tl : List Nat) (hb : ¬ b < 0x80)
    (hw : (utf8DecodeRune (b :: tl)).2 = k + 2)
    (h2 : ¬ ((utf8DecodeRune (b :: tl)).1 = 0x2028 ∨ (utf8DecodeRune (b :: tl)).1 = 0x2029)) :
    jsonEscapeLoop go122 (n + 1) (b :: tl) =
      (b :: tl).take (k + 2) ++ jsonEscapeLoop go122 n (tl.drop (k + 1)) := by
  rw [jsonEscapeLoop, if_neg hb, if_neg (by rw [hw]; omega), if_neg h2, hw]
  rfl

theorem utf8CoerceLoop_error (n b : Nat) (tl : List Nat)
    (he : utf8DecodeRune (b :: tl) = (RuneError, 1)) :
    utf8CoerceLoop (n + 1) (b :: tl) = [0xEF, 0xBF, 0xBD] ++ utf8CoerceLoop n tl := by
  rw [utf8CoerceLoop, if_pos (by rw [he]; exact ⟨rfl, rfl⟩)]

theorem utf8CoerceLoop_rune (n b k : Nat) (tl : List Nat)
    (hw : (utf8DecodeRune (b :: tl)).2 = k + 2) :
    utf8CoerceLoop (n + 1) (b :: tl) =
      (b :: tl).take (k + 2) ++ utf8CoerceLoop n (tl.drop (k + 1)) := by
  rw [utf8CoerceLoop, if_neg (by rw [hw]; omega), hw]
  rfl

theorem utf8CoerceLoop_ascii (n b : Nat) (tl : List Nat) (hb : b < 0x80) :
    utf8CoerceLoop (n + 1) (b :: tl) = b :: utf8CoerceLoop n tl := by
  have hd := utf8DecodeRune_ascii b tl hb
  have hne : ¬ (b = RuneError ∧ 1 = 1) := by
    simp only [RuneError]; omega
  rw [utf8CoerceLoop, hd, if_neg hne]
  rfl

/-- The string literal `appendString` writes for any bytes is read back as the
coerced bytes. -/
theorem jsonUnquoteBytes_escapeLoop (go122 : Bool) : ∀ (n : Nat) (bs rest : List Nat),
    bs.length ≤ n →
    jsonUnquoteBytes .text (jsonEscapeLoop go122 n bs ++ 0x22 :: rest) =
      some (utf8CoerceLoop n bs, rest) := by
  have hq : ∀ rest : List Nat, jsonUnquoteBytes .text (0x22 :: rest) = some ([], rest) := by
    intro rest
    exact jsonUnquoteBytes_done _ _ _ _ (by simp [jsonStep, jsonStepText])
  intro n
  induction n with
  | zero =>
    intro bs rest hl
    simp [jsonEscapeLoop, utf8CoerceLoop, hq]
  | succ n ih =>
    intro bs rest hl
    match bs, hl with
    | [], _ => simp [jsonEscapeLoop, utf8CoerceLoop, hq]
    | b :: tl, hl =>
      have hl1 : tl.length ≤ n := by simpa using hl
      by_cases hb : b < 0x80
      · rw [jsonEscapeLoop_ascii go122 n b tl hb, utf8CoerceLoop_ascii n b tl hb,
          List.append_assoc, jsonUnquoteBytes_escapeByte go122 b hb, ih tl rest hl1]
        rfl
      · rcases utf8DecodeRune_cases b tl hb with
          he | ⟨b1, t2, rfl, _, hs⟩ | ⟨b1, b2, t3, rfl, _, _, hs⟩ |
          ⟨b1, b2, b3, t4, rfl, _, _, _, hs⟩
        · rw [jsonEscapeLoop_error go122 n b tl hb he, utf8CoerceLoop_error n b tl he]
          simp only [List.cons_append, List.nil_append]
          rw [jsonUnquoteBytes_u4 0x66 0x66 0x66 0x64 15 15 15 13 _ (by decide) (by decide)
            (by decide) (by decide) (by decide), ih tl rest hl1]
          have : utf8EncodeRune (((15 * 16 + 15) * 16 + 15) * 16 + 13) = [0xEF, 0xBF, 0xBD] := by
            decide
          rw [this]
          rfl
        · obtain ⟨w, e, hlt⟩ := hs t2
          have hl2 : t2.length ≤ n := by simp at hl1; omega
          have h2 : ¬ ((utf8DecodeRune (b :: b1 :: t2)).1 = 0x2028 ∨
              (utf8DecodeRune (b :: b1 :: t2)).1 = 0x2029) := by omega
          rw [jsonEscapeLoop_rune go122 n b 0 _ hb w h2, utf8CoerceLoop_rune n b 0 _ w]
          simp only [List.take, List.drop, List.cons_append, List.nil_append]
          obtain ⟨w1, e1, _⟩ := hs (jsonEscapeLoop go122 n t2 ++ 0x22 :: rest)
          rw [jsonUnquoteBytes_rune b _ [b, b1] 1 hb w1 e1]
          simp only [if_neg (by decide : ¬ (1 : Nat) = 0)]
          rw [jsonUnquoteBytes_skip 0 b1, if_pos rfl, ih t2 rest hl2]
          rfl
        · obtain ⟨w, e, _⟩ := hs t3
          have hl2 : t3.length ≤ n := by simp at hl1; omega
          by_cases h2 : (utf8DecodeRune (b :: b1 :: b2 :: t3)).1 = 0x2028 ∨
              (utf8DecodeRune (b :: b1 :: b2 :: t3)).1 = 0x2029
          · rw [jsonEscapeLoop_separator go122 n b 1 _ hb w h2, utf8CoerceLoop_rune n b 1 _ w]
            simp only [List.take, List.drop, List.cons_append, List.nil_append]
            have hx : (utf8DecodeRune (b :: b1 :: b2 :: t3)).1 % 16 < 16 :=
              Nat.mod_lt _ (by decide)
            have hv : ((2 * 16 + 0) * 16 + 2) * 16 + (utf8DecodeRune (b :: b1 :: b2 :: t3)).1 % 16 =
                (utf8DecodeRune (b :: b1 :: b2 :: t3)).1 := by
              rcases h2 with h | h <;> rw [h]
            rw [jsonUnquoteBytes_u4 0x32 0x30 0x32 _ 2 0 2 _ _ (by decide) (by decide)
              (by decide) (hexValByte_jsonHex _ hx) (by rw [hv]; omega), hv, e,
              ih t3 rest hl2]
            rfl
          · rw [jsonEscapeLoop_rune go122 n b 1 _ hb w h2, utf8CoerceLoop_rune n b 1 _ w]
            simp only [List.take, List.drop, List.cons_append, List.nil_append]
            obtain ⟨w1, e1, _⟩ := hs (jsonEscapeLoop go122 n t3 ++ 0x22 :: rest)
            rw [jsonUnquoteBytes_rune b _ [b, b1, b2] 2 hb w1 e1]
            simp only [if_neg (by decide : ¬ (2 : Nat) = 0)]
            rw [jsonUnquoteBytes_skip 1 b1, if_neg (by decide : ¬ (1 : Nat) = 0),
              jsonUnquoteBytes_skip 0 b2, if_pos rfl, ih t3 rest hl2]
            rfl
        · obtain ⟨w, e, hge⟩ := hs t4
          have hl2 : t4.length ≤ n := by simp at hl1; omega
          have h2 : ¬ ((utf8DecodeRune (b :: b1 :: b2 :: b3 :: t4)).1 = 0x2028 ∨
              (utf8DecodeRune (b :: b1 :: b2 :: b3 :: t4)).1 = 0x2029) := by omega
          rw [jsonEscapeLoop_rune go122 n b 2 _ hb w h2, utf8CoerceLoop_rune n b 2 _ w]
          simp only [List.take, List.drop, List.cons_append, List.nil_append]
          obtain ⟨w1, e1, _⟩ := hs (jsonEscapeLoop go122 n t4 ++ 0x22 :: rest)
          rw [jsonUnquoteBytes_rune b _ [b, b1, b2, b3] 3 hb w1 e1]
          simp only [if_neg (by decide : ¬ (3 : Nat) = 0)]
          rw [jsonUnquoteBytes_skip 2 b1, if_neg (by decide : ¬ (2 : Nat) = 0),
            jsonUnquoteBytes_skip 1 b2, if_neg (by decide : ¬ (1 : Nat) = 0),
            jsonUnquoteBytes_skip 0 b3, if_pos rfl, ih t4 rest hl2]
          rfl

theorem jsonStringLitBytes_jsonStringBytes (go122 : Bool) (s rest : List Nat) :
    jsonStringLitBytes (jsonStringBytes go122 s rest) = some (utf8Coerce s, rest) := by
  simp only [jsonStringBytes, jsonStringLitBytes, if_true, utf8Coerce]
  exact jsonUnquoteBytes_escapeLoop go122 s.length s rest (Nat.le_refl _)

/-- Bytes that `utf8.Valid` accepts are left as they are by the coercion. -/
theorem utf8CoerceLoop_valid : ∀ (n : Nat) (bs : List Nat), bs.length ≤ n →
    utf8ValidLoop n bs = true → utf8CoerceLoop n bs = bs := by
  intro n
  induction n with
  | zero =>
    intro bs hl _
    have : bs = [] := List.eq_nil_of_length_eq_zero (by omega)
    subst this
    rfl
  | succ n ih =>
    intro bs hl hv
    match bs, hl, hv with
    | [], _, _ => rfl
    | b :: tl, hl, hv =>
      have hl1 : tl.length ≤ n := by simpa using hl
      by_cases hb : b < 0x80
      · have hd := utf8DecodeRune_ascii b tl hb
        have hne : ¬ (b = RuneError ∧ 1 = 1) := by
          simp only [RuneError]; omega
        rw [utf8ValidLoop, hd, if_neg hne] at hv
        rw [utf8CoerceLoop_ascii n b tl hb, ih tl hl1 hv]
      · rcases utf8DecodeRune_cases b tl hb with
          he | ⟨b1, t2, rfl, _, hs⟩ | ⟨b1, b2, t3, rfl, _, _, hs⟩ |
          ⟨b1, b2, b3, t4, rfl, _, _, _, hs⟩
        · rw [utf8ValidLoop, if_pos (by rw [he]; exact ⟨rfl, rfl⟩)] at hv
          exact absurd hv (by decide)
        · obtain ⟨w, _, _⟩ := hs t2
          have hl2 : t2.length ≤ n := by simp at hl1; omega
          rw [utf8ValidLoop, if_neg (by rw [w]; omega), w] at hv
          rw [utf8CoerceLoop_rune n b 0 _ w]
          simp only [List.take, List.drop, List.cons_append, List.nil_append]
          rw [ih t2 hl2 hv]
        · obtain ⟨w, _, _⟩ := hs t3
          have hl2 : t3.length ≤ n := by simp at hl1; omega
          rw [utf8ValidLoop, if_neg (by rw [w]; omega), w] at hv
          rw [utf8CoerceLoop_rune n b 1 _ w]
          simp only [List.take, List.drop, List.cons_append, List.nil_append]
          rw [ih t3 hl2 hv]
        · obtain ⟨w, _, _⟩ := hs t4
          have hl2 : t4.length ≤ n := by simp at hl1; omega
          rw [utf8ValidLoop, if_neg (by rw [w]; omega), w] at hv
          rw [utf8CoerceLoop_rune n b 2 _ w]
          simp only [List.take, List.drop, List.cons_append, List.nil_append]
          rw [ih t4 hl2 hv]

theorem utf8Coerce_valid (bs : List Nat) (h : utf8Valid bs = true) : utf8Coerce bs = bs :=
  utf8CoerceLoop_valid bs.length bs (Nat.le_refl _) h

/-! ### Numbers and booleans over bytes -/

theorem jsonBoolBytes_text (b : Bool) (rest : List Nat) :
    jsonBoolBytes (asciiBytes (if b then "true" else "false") ++ rest) = some (b, rest) := by
  cases b <;> rfl

theorem digitsValueBytes_ascii (cs : List Char) :
    digitsValueBytes (cs.map Char.toNat) = digitsValue cs := by
  simp [digitsValueBytes, digitsValue, List.foldl_map]

theorem jsonDigitsBytes_append (ds : List Char) (rest : List Nat)
    (h : ∀ c ∈ ds, c.isDigit = true) :
    jsonDigitsBytes (ds.map Char.toNat ++ 0x2C :: rest) = (ds.map Char.toNat, 0x2C :: rest) := by
  induction ds with
  | nil => simp [jsonDigitsBytes]
  | cons c cs ih =>
    have hc := h c (by simp)
    have h1 : 0x30 ≤ c.toNat ∧ c.toNat ≤ 0x39 := by
      simp only [Char.isDigit, Bool.and_eq_true, decide_eq_true_eq] at hc
      exact ⟨hc.1, hc.2⟩
    have := ih (fun c hc => h c (by simp [hc]))
    show jsonDigitsBytes (c.toNat :: (cs.map Char.toNat ++ 0x2C :: rest)) = _
    rw [jsonDigitsBytes, if_pos h1, this]
    rfl

theorem jsonIntBytes_formatInt (n : Int) (rest : List Nat)
    (hlo : -(2 : Int) ^ 63 ≤ n) (hhi : n < (2 : Int) ^ 63) :
    jsonIntBytes (asciiBytes (formatInt n) ++ 0x2C :: rest) = some (n, 0x2C :: rest) := by
  obtain ⟨h1, h2, h3, h4⟩ := toDigits_spec n.natAbs
  obtain ⟨a, as, has⟩ : ∃ a as, Nat.toDigits 10 n.natAbs = a :: as := by
    cases hds : Nat.toDigits 10 n.natAbs with
    | nil => exact absurd hds h3
    | cons a as => exact ⟨a, as, rfl⟩
  have ha : a.isDigit = true := h1 a (by rw [has]; simp)
  have ha1 : 0x30 ≤ a.toNat ∧ a.toNat ≤ 0x39 := by
    simp only [Char.isDigit, Bool.and_eq_true, decide_eq_true_eq] at ha
    exact ⟨ha.1, ha.2⟩
  have hz : (a.toNat = 0x30 → as = []) := by
    intro h0
    have ha0 : a = '0' := by
      rw [← Char.ofNat_toNat a, h0]
    by_cases hn : n.natAbs = 0
    · rw [hn] at has
      have : Nat.toDigits 10 0 = ['0'] := by decide
      rw [this] at has
      exact (List.cons.inj has).2.symm
    · have := h4 hn
      rw [has, ha0] at this
      exact absurd rfl this
  have hd := jsonDigitsBytes_append (Nat.toDigits 10 n.natAbs) rest h1
  have hv := digitsValueBytes_ascii (Nat.toDigits 10 n.natAbs)
  rw [h2] at hv
  have hne : ¬ ((Nat.toDigits 10 n.natAbs).map Char.toNat = []) := by
    rw [has]; simp
  have hlead : ¬ (((Nat.toDigits 10 n.natAbs).map Char.toNat).head? = some 0x30 ∧
      ((Nat.toDigits 10 n.natAbs).map Char.toNat).length ≠ 1) := by
    rintro ⟨hh, hl⟩
    rw [has] at hh hl
    have h0 : a.toNat = 0x30 := by simpa using hh
    rw [hz h0] at hl
    exact hl rfl
  have hsep : ¬ ((some 0x2C : Option Nat) = some 0x2E ∨ (some 0x2C : Option Nat) = some 0x65 ∨
      (some 0x2C : Option Nat) = some 0x45) := by
    decide
  have hsep1 : (0x2C :: rest).head? = some 0x2C := rfl
  unfold asciiBytes
  rw [formatInt_data]
  by_cases hneg : n < 0
  · have hvn : -(n.natAbs : Int) = n := by omega
    have hcs : List.map Char.toNat (if n < 0 then '-' :: Nat.toDigits 10 n.natAbs
        else Nat.toDigits 10 n.natAbs) ++ 0x2C :: rest =
        0x2D :: ((Nat.toDigits 10 n.natAbs).map Char.toNat ++ 0x2C :: rest) := by
      rw [if_pos hneg]; rfl
    rw [hcs]
    unfold jsonIntBytes
    simp only [List.head?_cons, if_true, List.tail_cons, hd, hv, hsep1]
    rw [if_neg hne, if_neg hlead, if_neg hsep, hvn, if_neg (by omega)]
  · have hvn : (n.natAbs : Int) = n := by omega
    have hcs : List.map Char.toNat (if n < 0 then '-' :: Nat.toDigits 10 n.natAbs
        else Nat.toDigits 10 n.natAbs) ++ 0x2C :: rest =
        (Nat.toDigits 10 n.natAbs).map Char.toNat ++ 0x2C :: rest := by
      rw [if_neg hneg]
    have hh : ¬ (((Nat.toDigits 10 n.natAbs).map Char.toNat ++ 0x2C :: rest).head? =
        some 0x2D) := by
      rw [has]
      simp only [List.map_cons, List.cons_append, List.head?_cons, Option.some.injEq]
      omega
    rw [hcs]
    unfold jsonIntBytes
    simp only [hh, if_false, hd, hv, hsep1]
    rw [if_neg hne, if_neg hlead, if_neg hsep, hvn, if_neg (by omega)]

/-! ### The members of the object -/

theorem jsonMembersBytes_step (go122 : Bool) (fuel : Nat) (r0 r1 : RawDeployRequest)
    (key v cs2 : List Nat) (hk : utf8Coerce key = key)
    (h : jsonSetFieldBytes r0 key v = some (r1, 0x2C :: cs2)) :
    jsonMembersBytes (fuel + 1) r0 (jsonStringBytes go122 key (0x3A :: v)) =
      jsonMembersBytes fuel r1 cs2 := by
  simp [jsonMembersBytes, jsonStringLitBytes_jsonStringBytes, hk, h]

theorem jsonMembersBytes_last (go122 : Bool) (fuel : Nat) (r0 r1 : RawDeployRequest)
    (key v : List Nat) (hk : utf8Coerce key = key)
    (h : jsonSetFieldBytes r0 key v = some (r1, [0x7D])) :
    jsonMembersBytes (fuel + 1) r0 (jsonStringBytes go122 key (0x3A :: v)) = some r1 := by
  simp [jsonMembersBytes, jsonStringLitBytes_jsonStringBytes, hk, h]

theorem jsonSetFieldBytes_deployID (r : RawDeployRequest) (cs : List Nat) :
    jsonSetFieldBytes r (asciiBytes "deployID") cs =
      (jsonStringLitBytes cs).map (fun p => ({ r with DeployID := p.1 }, p.2)) := by
  unfold jsonSetFieldBytes
  rw [if_pos (by decide)]

theorem jsonMembersBytes_deployID (go122 : Bool) (fuel : Nat) (r0 : RawDeployRequest)
    (s rest : List Nat) :
    jsonMembersBytes (fuel + 1) r0 (jsonStringBytes go122 (asciiBytes "deployID")
      (0x3A :: jsonStringBytes go122 s (0x2C :: rest))) =
      jsonMembersBytes fuel { r0 with DeployID := utf8Coerce s } rest :=
  jsonMembersBytes_step go122 fuel r0 _ _ _ rest (by decide)
    (by rw [jsonSetFieldBytes_deployID, jsonStringLitBytes_jsonStringBytes]; rfl)

theorem jsonSetFieldBytes_imageName (r : RawDeployRequest) (cs : List Nat) :
    jsonSetFieldBytes r (asciiBytes "imageName") cs =
      (jsonStringLitBytes cs).map (fun p => ({ r with ImageName := p.1 }, p.2)) := by
  unfold jsonSetFieldBytes
  rw [if_neg (by decide), if_pos (by decide)]

theorem jsonMembersBytes_imageName (go122 : Bool) (fuel : Nat) (r0 : RawDeployRequest)
    (s rest : List Nat) :
    jsonMembersBytes (fuel + 1) r0 (jsonStringBytes go122 (asciiBytes "imageName")
      (0x3A :: jsonStringBytes go122 s (0x2C :: rest))) =
      jsonMembersBytes fuel { r0 with ImageName := utf8Coerce s } rest :=
  jsonMembersBytes_step go122 fuel r0 _ _ _ rest (by decide)
    (by rw [jsonSetFieldBytes_imageName, jsonStringLitBytes_jsonStringBytes]; rfl)

theorem jsonSetFieldBytes_imageTag (r : RawDeployRequest) (cs : List Nat) :
    jsonSetFieldBytes r (asciiBytes "imageTag") cs =
      (jsonStringLitBytes cs).map (fun p => ({ r with ImageTag := p.1 }, p.2)) := by
  unfold jsonSetFieldBytes
  rw [if_neg (by decide), if_neg (by decide), if_pos (by decide)]

theorem jsonMembersBytes_imageTag (go122 : Bool) (fuel : Nat) (r0 : RawDeployRequest)
    (s rest : List Nat) :
    jsonMembersBytes (fuel + 1) r0 (jsonStringBytes go122 (asciiBytes "imageTag")
      (0x3A :: jsonStringBytes go122 s (0x2C :: rest))) =
      jsonMembersBytes fuel { r0 with ImageTag := utf8Coerce s } rest :=
  jsonMembersBytes_step go122 fuel r0 _ _ _ rest (by decide)
    (by rw [jsonSetFieldBytes_imageTag, jsonStringLitBytes_jsonStringBytes]; rfl)

theorem jsonSetFieldBytes_environment (r : RawDeployRequest) (cs : List Nat) :
    jsonSetFieldBytes r (asciiBytes "environment") cs =
      (jsonStringLitBytes cs).map (fun p => ({ r with Environment := p.1 }, p.2)) := by
  unfold jsonSetFieldBytes
  rw [if_neg (by decide), if_neg (by decide), if_neg (by decide), if_pos (by decide)]

theorem jsonMembersBytes_environment (go122 : Bool) (fuel : Nat) (r0 : RawDeployRequest)
    (s rest : List Nat) :
    jsonMembersBytes (fuel + 1) r0 (jsonStringBytes go122 (asciiBytes "environment")
      (0x3A :: jsonStringBytes go122 s (0x2C :: rest))) =
      jsonMembersBytes fuel { r0 with Environment := utf8Coerce s } rest :=
  jsonMembersBytes_step go122 fuel r0 _ _ _ rest (by decide)
    (by rw [jsonSetFieldBytes_environment, jsonStringLitBytes_jsonStringBytes]; rfl)

theorem jsonSetFieldBytes_envTag (r : RawDeployRequest) (cs : List Nat) :
    jsonSetFieldBytes r (asciiBytes "envTag") cs =
      (jsonStringLitBytes cs).map (fun p => ({ r with EnvTag := p.1 }, p.2)) := by
  unfold jsonSetFieldBytes
  rw [if_neg (by decide), if_neg (by decide), if_neg (by decide), if_neg (by decide), if_pos (by decide)]

theorem jsonMembersBytes_envTag (go122 : Bool) (fuel : Nat) (r0 : RawDeployRequest)
    (s rest : List Nat) :
    jsonMembersBytes (fuel + 1) r0 (jsonStringBytes go122 (asciiBytes "envTag")
      (0x3A :: jsonStringBytes go122 s (0x2C :: rest))) =
      jsonMembersBytes fuel { r0 with EnvTag := utf8Coerce s } rest :=
  jsonMembersBytes_step go122 fuel r0 _ _ _ rest (by decide)
    (by rw [jsonSetFieldBytes_envTag, jsonStringLitBytes_jsonStringBytes]; rfl)

theorem jsonSetFieldBytes_etcdEndpoint (r : RawDeployRequest) (cs : List Nat) :
    jsonSetFieldBytes r (asciiBytes "etcdEndpoint") cs =
      (jsonStringLitBytes cs).map (fun p => ({ r with EtcdEndpoint := p.1 }, p.2)) := by
  unfold jsonSetFieldBytes
  rw [if_neg (by decide), if_neg (by decide), if_neg (by decide), if_neg (by decide), if_neg (by decide), if_pos (by decide)]

theorem jsonMembersBytes_etcdEndpoint (go122 : Bool) (fuel : Nat) (r0 : RawDeployRequest)
    (s rest : List Nat) :
    jsonMembersBytes (fuel + 1) r0 (jsonStringBytes go122 (asciiBytes "etcdEndpoint")
      (0x3A :: jsonStringBytes go122 s (0x2C :: rest))) =
      jsonMembersBytes fuel { r0 with EtcdEndpoint := utf8Coerce s } rest :=
  jsonMembersBytes_step go122 fuel r0 _ _ _ rest (by decide)
    (by rw [jsonSetFieldBytes_etcdEndpoint, jsonStringLitBytes_jsonStringBytes]; rfl)

theorem jsonSetFieldBytes_machine (r : RawDeployRequest) (cs : List Nat) :
    jsonSetFieldBytes r (asciiBytes "machine") cs =
      (jsonStringLitBytes cs).map (fun p => ({ r with Machine := p.1 }, p.2)) := by
  unfold jsonSetFieldBytes
  rw [if_neg (by decide), if_neg (by decide), if_neg (by decide), if_neg (by decide), if_neg (by decide), if_neg (by decide), if_pos (by decide)]

theorem jsonMembersBytes_machine (go122 : Bool) (fuel : Nat) (r0 : RawDeployRequest)
    (s rest : List Nat) :
    jsonMembersBytes (fuel + 1) r0 (jsonStringBytes go122 (asciiBytes "machine")
      (0x3A :: jsonStringBytes go122 s (0x2C :: rest))) =
      jsonMembersBytes fuel { r0 with Machine := utf8Coerce s } rest :=
  jsonMembersBytes_step go122 fuel r0 _ _ _ rest (by decide)
    (by rw [jsonSetFieldBytes_machine, jsonStringLitBytes_jsonStringBytes]; rfl)

theorem jsonSetFieldBytes_metaMount (r : RawDeployRequest) (cs : List Nat) :
    jsonSetFieldBytes r (asciiBytes "metaMount") cs =
      (jsonStringLitBytes cs).map (fun p => ({ r with MetaMount := p.1 }, p.2)) := by
  unfold jsonSetFieldBytes
  rw [if_neg (by decide), if_neg (by decide), if_neg (by decide), if_neg (by decide), if_neg (by decide), if_neg (by decide), if_neg (by decide), if_pos (by decide)]

theorem jsonMembersBytes_metaMount (go122 : Bool) (fuel : Nat) (r0 : RawDeployRequest)
    (s rest : List Nat) :
    jsonMembersBytes (fuel + 1) r0 (jsonStringBytes go122 (asciiBytes "metaMount")
      (0x3A :: jsonStringBytes go122 s (0x2C :: rest))) =
      jsonMembersBytes fuel { r0 with MetaMount := utf8Coerce s } rest :=
  jsonMembersBytes_step go122 fuel r0 _ _ _ rest (by decide)
    (by rw [jsonSetFieldBytes_metaMount, jsonStringLitBytes_jsonStringBytes]; rfl)

theorem jsonSetFieldBytes_numCont (r : RawDeployRequest) (cs : List Nat) :
    jsonSetFieldBytes r (asciiBytes "numCont") cs =
      (jsonIntBytes cs).map (fun p => ({ r with NumCont := p.1 }, p.2)) := by
  unfold jsonSetFieldBytes
  rw [if_neg (by decide), if_neg (by decide), if_neg (by decide), if_neg (by decide), if_neg (by decide), if_neg (by decide), if_neg (by decide), if_neg (by decide), if_pos (by decide)]

theorem jsonMembersBytes_numCont (go122 : Bool) (fuel : Nat) (r0 : RawDeployRequest) (n : Int)
    (rest : List Nat) (hlo : -(2 : Int) ^ 63 ≤ n) (hhi : n < (2 : Int) ^ 63) :
    jsonMembersBytes (fuel + 1) r0 (jsonStringBytes go122 (asciiBytes "numCont")
      (0x3A :: (asciiBytes (formatInt n) ++ 0x2C :: rest))) =
      jsonMembersBytes fuel { r0 with NumCont := n } rest :=
  jsonMembersBytes_step go122 fuel r0 _ _ _ rest (by decide)
    (by rw [jsonSetFieldBytes_numCont, jsonIntBytes_formatInt n rest hlo hhi]; rfl)

theorem jsonSetFieldBytes_registry (r : RawDeployRequest) (cs : List Nat) :
    jsonSetFieldBytes r (asciiBytes "registry") cs =
      (jsonStringLitBytes cs).map (fun p => ({ r with Registry := p.1 }, p.2)) := by
  unfold jsonSetFieldBytes
  rw [if_neg (by decide), if_neg (by decide), if_neg (by decide), if_neg (by decide), if_neg (by decide), if_neg (by decide), if_neg (by decide), if_neg (by decide), if_neg (by decide), if_pos (by decide)]

theorem jsonMembersBytes_registry (go122 : Bool) (fuel : Nat) (r0 : RawDeployRequest)
    (s rest : List Nat) :
    jsonMembersBytes (fuel + 1) r0 (jsonStringBytes go122 (asciiBytes "registry")
      (0x3A :: jsonStringBytes go122 s (0x2C :: rest))) =
      jsonMembersBytes fuel { r0 with Registry := utf8Coerce s } rest :=
  jsonMembersBytes_step go122 fuel r0 _ _ _ rest (by decide)
    (by rw [jsonSetFieldBytes_registry, jsonStringLitBytes_jsonStringBytes]; rfl)

theorem jsonSetFieldBytes_swarm (r : RawDeployRequest) (cs : List Nat) :
    jsonSetFieldBytes r (asciiBytes "swarm") cs =
      (jsonBoolBytes cs).map (fun p => ({ r with Swarm := p.1 }, p.2)) := by
  unfold jsonSetFieldBytes
  rw [if_neg (by decide), if_neg (by decide), if_neg (by decide), if_neg (by decide), if_neg (by decide), if_neg (by decide), if_neg (by decide), if_neg (by decide), if_neg (by decide), if_neg (by decide), if_pos (by decide)]

theorem jsonMembersBytes_swarm (go122 : Bool) (fuel : Nat) (r0 : RawDeployRequest) (b : Bool) :
    jsonMembersBytes (fuel + 1) r0 (jsonStringBytes go122 (asciiBytes "swarm")
      (0x3A :: (asciiBytes (if b then "true" else "false") ++ [0x7D]))) =
      some { r0 with Swarm := b } :=
  jsonMembersBytes_last go122 fuel r0 _ _ _ (by decide)
    (by rw [jsonSetFieldBytes_swarm, jsonBoolBytes_text]; rfl)

/-- The bytes `String` writes for a request are read back as the request with its
string fields coerced to valid UTF-8. -/
theorem jsonUnmarshalBytes_String (go122 : Bool) (r : RawDeployRequest)
    (hlo : -(2 : Int) ^ 63 ≤ r.NumCont) (hhi : r.NumCont < (2 : Int) ^ 63) :
    jsonUnmarshalBytes (r.String go122) = some r.coerce := by
  unfold RawDeployRequest.String
  generalize hcs : jsonStringBytes go122 (asciiBytes "deployID") _ = cs
  have hne : cs ≠ [0x7D] := by
    rw [← hcs]
    simp [jsonStringBytes]
  have hl : 11 ≤ cs.length := by
    rw [← hcs]
    simp [jsonStringBytes, List.length_append]
    omega
  obtain ⟨n, hn⟩ : ∃ n, cs.length = n + 1 + 1 + 1 + 1 + 1 + 1 + 1 + 1 + 1 + 1 + 1 :=
    ⟨cs.length - 11, by omega⟩
  simp only [jsonUnmarshalBytes, if_true, if_neg hne]
  rw [hn, ← hcs]
  rw [jsonMembersBytes_deployID, jsonMembersBytes_imageName, jsonMembersBytes_imageTag,
    jsonMembersBytes_environment, jsonMembersBytes_envTag, jsonMembersBytes_etcdEndpoint,
    jsonMembersBytes_machine, jsonMembersBytes_metaMount,
    jsonMembersBytes_numCont _ _ _ _ _ hlo hhi, jsonMembersBytes_registry,
    jsonMembersBytes_swarm]
  rfl

/-- A request whose string fields are valid UTF-8 is left as it is by the coercion. -/
theorem RawDeployRequest.coerce_valid (r : RawDeployRequest) (h : r.valid = true) :
    r.coerce = r := by
  simp only [RawDeployRequest.valid, Bool.and_eq_true] at h
  obtain ⟨⟨⟨⟨⟨⟨⟨⟨h1, h2⟩, h3⟩, h4⟩, h5⟩, h6⟩, h7⟩, h8⟩, h9⟩ := h
  simp only [RawDeployRequest.coerce, utf8Coerce_valid _ h1, utf8Coerce_valid _ h2,
    utf8Coerce_valid _ h3, utf8Coerce_valid _ h4, utf8Coerce_valid _ h5, utf8Coerce_valid _ h6,
    utf8Coerce_valid _ h7, utf8Coerce_valid _ h8, utf8Coerce_valid _ h9]

/-! ### Text that is valid UTF-8 -/

theorem utf8Bytes_cons (c : Char) (cs : List Char) :
    utf8Bytes (c :: cs) = utf8EncodeRune c.toNat ++ utf8Bytes cs := by
  simp [utf8Bytes]

theorem utf8Bytes_append (xs ys : List Char) :
    utf8Bytes (xs ++ ys) = utf8Bytes xs ++ utf8Bytes ys := by
  simp [utf8Bytes]

theorem char_toNat_valid (c : Char) :
    c.toNat < 0xD800 ∨ (0xDFFF < c.toNat ∧ c.toNat < 0x110000) := c.valid

/-- What `utf8.EncodeRune` writes for a scalar value is read back by
`utf8.DecodeRune`, whatever follows it. -/
theorem utf8DecodeRune_encode (c : Char) (rest : List Nat) :
    ∃ b tl, utf8EncodeRune c.toNat = b :: tl ∧
      utf8DecodeRune (b :: (tl ++ rest)) = (c.toNat, tl.length + 1) ∧
      (c.toNat < 0x80 → b = c.toNat ∧ tl = []) ∧ (¬ c.toNat < 0x80 → ¬ b < 0x80 ∧ tl ≠ []) := by
  have hv := char_toNat_valid c
  generalize c.toNat = r at hv
  by_cases h1 : r < 0x80
  · refine ⟨r, [], by simp [utf8EncodeRune, h1], ?_, fun _ => ⟨rfl, rfl⟩, fun h => absurd h1 h⟩
    exact utf8DecodeRune_ascii r _ h1
  · by_cases h2 : r < 0x800
    · refine ⟨0xC0 + r / 64, [0x80 + r % 64], by simp [utf8EncodeRune, h1, h2], ?_,
        fun h => absurd h h1, fun _ => ⟨by omega, by simp⟩⟩
      rw [List.singleton_append, utf8DecodeRune_two _ _ _ (by omega) (by omega)]
      simp only [List.length_singleton, Prod.mk.injEq, and_true]
      omega
    · by_cases h3 : r < 0x10000
      · have hs : ¬ (0x10FFFF < r ∨ (0xD800 ≤ r ∧ r ≤ 0xDFFF)) := by omega
        refine ⟨0xE0 + r / 4096, [0x80 + r / 64 % 64, 0x80 + r % 64],
          by simp only [utf8EncodeRune, if_neg h1, if_neg h2, if_neg hs, if_pos h3], ?_,
          fun h => absurd h h1, fun _ => ⟨by omega, by simp⟩⟩
        have hc : (if 0xE0 + r / 4096 = 0xE0 then 0xA0 else 0x80) ≤ 0x80 + r / 64 % 64 ∧
            0x80 + r / 64 % 64 ≤ (if 0xE0 + r / 4096 = 0xED then 0x9F else 0xBF) ∧
            0x80 ≤ 0x80 + r % 64 ∧ 0x80 + r % 64 ≤ 0xBF := by
          split_ifs <;> omega
        rw [List.cons_append, List.cons_append, List.nil_append,
          utf8DecodeRune_three _ _ _ _ (by omega) hc]
        simp only [List.length_cons, List.length_nil, Prod.mk.injEq, and_true]
        omega
      · have hs : ¬ (0x10FFFF < r ∨ (0xD800 ≤ r ∧ r ≤ 0xDFFF)) := by omega
        refine ⟨0xF0 + r / 262144, [0x80 + r / 4096 % 64, 0x80 + r / 64 % 64, 0x80 + r % 64],
          by simp only [utf8EncodeRune, if_neg h1, if_neg h2, if_neg hs, if_neg h3], ?_,
          fun h => absurd h h1, fun _ => ⟨by omega, by simp⟩⟩
        have hc : (if 0xF0 + r / 262144 = 0xF0 then 0x90 else 0x80) ≤ 0x80 + r / 4096 % 64 ∧
            0x80 + r / 4096 % 64 ≤ (if 0xF0 + r / 262144 = 0xF4 then 0x8F else 0xBF) ∧
            0x80 ≤ 0x80 + r / 64 % 64 ∧ 0x80 + r / 64 % 64 ≤ 0xBF ∧
            0x80 ≤ 0x80 + r % 64 ∧ 0x80 + r % 64 ≤ 0xBF := by
          split_ifs <;> omega
        rw [List.cons_append, List.cons_append, List.cons_append, List.nil_append,
          utf8DecodeRune_four _ _ _ _ _ (by omega) hc]
        simp only [List.length_cons, List.length_nil, Prod.mk.injEq, and_true]
        omega

/-- The bytes of a text are valid UTF-8. -/
theorem utf8ValidLoop_utf8Bytes : ∀ (cs : List Char) (n : Nat), (utf8Bytes cs).length ≤ n →
    utf8ValidLoop n (utf8Bytes cs) = true := by
  intro cs
  induction cs with
  | nil =>
    intro n _
    cases n <;> rfl
  | cons c cs ih =>
    intro n hl
    obtain ⟨b, tl, he, hd, h1, h2⟩ := utf8DecodeRune_encode c (utf8Bytes cs)
    rw [utf8Bytes_cons, he] at hl ⊢
    simp only [List.cons_append, List.length_cons, List.length_append] at hl
    obtain ⟨m, rfl⟩ : ∃ m, n = m + 1 := ⟨n - 1, by omega⟩
    have hne : ¬ (c.toNat = RuneError ∧ tl.length + 1 = 1) := by
      rintro ⟨e1, e2⟩
      have : tl = [] := List.eq_nil_of_length_eq_zero (by omega)
      by_cases hc : c.toNat < 0x80
      · simp only [RuneError] at e1; omega
      · exact (h2 hc).2 this
    rw [List.cons_append, utf8ValidLoop, hd, if_neg hne]
    simp only [Nat.add_one_sub_one, List.drop_left]
    exact ih m (by omega)

theorem utf8Valid_utf8Bytes (cs : List Char) : utf8Valid (utf8Bytes cs) = true :=
  utf8ValidLoop_utf8Bytes cs _ (Nat.le_refl _)

theorem DeployRequest.raw_valid (r : DeployRequest) : r.raw.valid = true := by
  simp [RawDeployRequest.valid, DeployRequest.raw, utf8Valid_utf8Bytes]

/-! ### The two embeddings of `String` agree on text -/

set_option maxRecDepth 100000 in
theorem jsonEscapeByte_char (c : Char) (h : c.toNat < 0x80) :
    utf8Bytes (jsonEscapeChar c) = jsonEscapeByte false c.toNat := by
  have hc : c = Char.ofNat c.toNat := (Char.ofNat_toNat c).symm
  generalize c.toNat = k at h hc
  subst hc
  interval_cases k <;> decide

theorem jsonEscapeChar_rune (c : Char) (h : ¬ c.toNat < 0x80)
    (h2 : ¬ (c.toNat = 0x2028 ∨ c.toNat = 0x2029)) : jsonEscapeChar c = [c] := by
  have n1 : c ≠ '"' := by rintro rfl; exact h (by decide)
  have n2 : c ≠ '\\' := by rintro rfl; exact h (by decide)
  have n3 : c ≠ '\n' := by rintro rfl; exact h (by decide)
  have n4 : c ≠ '\r' := by rintro rfl; exact h (by decide)
  have n5 : c ≠ '\t' := by rintro rfl; exact h (by decide)
  have n6 : ¬ (c.toNat < 0x20 ∨ c = '<' ∨ c = '>' ∨ c = '&') := by
    rintro (h6 | rfl | rfl | rfl)
    · omega
    · exact h (by decide)
    · exact h (by decide)
    · exact h (by decide)
  have n7 : ¬ c.toNat = 0x2028 := fun e => h2 (Or.inl e)
  have n8 : ¬ c.toNat = 0x2029 := fun e => h2 (Or.inr e)
  simp only [jsonEscapeChar, if_neg n1, if_neg n2, if_neg n3, if_neg n4, if_neg n5, if_neg n6,
    if_neg n7, if_neg n8]

theorem jsonEscapeChar_separator (c : Char) (h2 : c.toNat = 0x2028 ∨ c.toNat = 0x2029) :
    utf8Bytes (jsonEscapeChar c) = [0x5C, 0x75, 0x32, 0x30, 0x32, jsonHex (c.toNat % 16)] := by
  have hc : c = Char.ofNat c.toNat := (Char.ofNat_toNat c).symm
  rcases h2 with h | h
  · rw [h] at hc ⊢; subst hc; decide
  · rw [h] at hc ⊢; subst hc; decide

/-- On the bytes of a text, the loop of `appendString` (as Go before 1.22 runs it)
writes the bytes of the text `jsonEscape` gives. -/
theorem jsonEscapeLoop_utf8Bytes : ∀ (cs : List Char) (n : Nat), (utf8Bytes cs).length ≤ n →
    jsonEscapeLoop false n (utf8Bytes cs) = utf8Bytes (jsonEscape cs) := by
  intro cs
  induction cs with
  | nil =>
    intro n _
    cases n <;> rfl
  | cons c cs ih =>
    intro n hl
    obtain ⟨b, tl, he, hd, h1, h2⟩ := utf8DecodeRune_encode c (utf8Bytes cs)
    rw [utf8Bytes_cons, he] at hl
    simp only [List.cons_append, List.length_cons, List.length_append] at hl
    obtain ⟨m, rfl⟩ : ∃ m, n = m + 1 := ⟨n - 1, by omega⟩
    have hm : (utf8Bytes cs).length ≤ m := by omega
    rw [jsonEscape, utf8Bytes_append, utf8Bytes_cons, he, List.cons_append]
    by_cases hc : c.toNat < 0x80
    · obtain ⟨e1, e2⟩ := h1 hc
      subst e2
      rw [List.nil_append, jsonEscapeLoop_ascii false m b _ (by omega), ih m hm, e1,
        jsonEscapeByte_char c hc]
    · obtain ⟨hb, hne⟩ := h2 hc
      obtain ⟨k, hk⟩ : ∃ k, tl.length = k + 1 :=
        ⟨tl.length - 1, by
          have : tl.length ≠ 0 := fun h0 => hne (List.eq_nil_of_length_eq_zero h0)
          omega⟩
      have hw : (utf8DecodeRune (b :: (tl ++ utf8Bytes cs))).2 = k + 2 := by
        rw [hd]; show tl.length + 1 = k + 2; omega
      have hr : (utf8DecodeRune (b :: (tl ++ utf8Bytes cs))).1 = c.toNat := by rw [hd]
      have hdrop : (tl ++ utf8Bytes cs).drop (k + 1) = utf8Bytes cs := by
        rw [← hk]; exact List.drop_left _ _
      have htake : (b :: (tl ++ utf8Bytes cs)).take (k + 2) = b :: tl := by
        rw [List.take_succ_cons, ← hk]
        congr 1
        exact List.take_left _ _
      by_cases hsep : c.toNat = 0x2028 ∨ c.toNat = 0x2029
      · rw [jsonEscapeLoop_separator false m b k _ hb hw (by rw [hr]; exact hsep), hr, hdrop,
          ih m hm, jsonEscapeChar_separator c hsep]
      · rw [jsonEscapeLoop_rune false m b k _ hb hw (by rw [hr]; exact hsep), hdrop, htake,
          ih m hm, jsonEscapeChar_rune c hc hsep, utf8Bytes_cons, he]
        simp [utf8Bytes]

theorem utf8Bytes_ascii (cs : List Char) (h : ∀ c ∈ cs, c.toNat < 0x80) :
    utf8Bytes cs = cs.map Char.toNat := by
  induction cs with
  | nil => rfl
  | cons c cs ih =>
    have hc := h c (by simp)
    rw [utf8Bytes_cons, ih (fun x hx => h x (by simp [hx]))]
    simp [utf8EncodeRune, hc]

theorem utf8Bytes_jsonString (s : String) (rest : List Char) :
    utf8Bytes (jsonString s rest) =
      jsonStringBytes false (utf8Bytes s.data) (utf8Bytes rest) := by
  have hq : utf8EncodeRune ('"').toNat = [0x22] := by decide
  simp only [jsonString, jsonStringBytes, utf8Bytes_cons, utf8Bytes_append, hq,
    List.singleton_append, jsonEscapeLoop_utf8Bytes s.data _ (Nat.le_refl _)]

theorem utf8Bytes_formatInt (n : Int) :
    utf8Bytes (formatInt n).data = asciiBytes (formatInt n) := by
  apply utf8Bytes_ascii
  intro c hc
  obtain ⟨h1, _, _, _⟩ := toDigits_spec n.natAbs
  have hd : ∀ c ∈ Nat.toDigits 10 n.natAbs, c.toNat < 0x80 := by
    intro c hc
    have := h1 c hc
    simp only [Char.isDigit, Bool.and_eq_true, decide_eq_true_eq] at this
    have h2 : c.toNat ≤ 57 := this.2
    omega
  rw [formatInt_data] at hc
  split_ifs at hc
  · rcases List.mem_cons.mp hc with rfl | h
    · decide
    · exact hd c h
  · exact hd c hc

theorem utf8Bytes_jsonBoolText (b : Bool) :
    utf8Bytes (jsonBoolText b) = asciiBytes (if b then "true" else "false") := by
  cases b <;> decide

set_option maxRecDepth 100000 in
/-- For a request whose fields are text, the bytes of the text `String` gives above
are the bytes `String` gives over bytes, as Go before 1.22 writes them. -/
theorem utf8Bytes_String (r : DeployRequest) :
    utf8Bytes r.String.data = r.raw.String false := by
  have hb : utf8EncodeRune ('\x7b').toNat = [0x7B] := by decide
  have he : utf8EncodeRune ('\x7d').toNat = [0x7D] := by decide
  have hc : utf8EncodeRune (':').toNat = [0x3A] := by decide
  have hm : utf8EncodeRune (',').toNat = [0x2C] := by decide
  have k1 : utf8Bytes "deployID".data = asciiBytes "deployID" := by decide
  have k2 : utf8Bytes "imageName".data = asciiBytes "imageName" := by decide
  have k3 : utf8Bytes "imageTag".data = asciiBytes "imageTag" := by decide
  have k4 : utf8Bytes "environment".data = asciiBytes "environment" := by decide
  have k5 : utf8Bytes "envTag".data = asciiBytes "envTag" := by decide
  have k6 : utf8Bytes "etcdEndpoint".data = asciiBytes "etcdEndpoint" := by decide
  have k7 : utf8Bytes "machine".data = asciiBytes "machine" := by decide
  have k8 : utf8Bytes "metaMount".data = asciiBytes "metaMount" := by decide
  have k9 : utf8Bytes "numCont".data = asciiBytes "numCont" := by decide
  have k10 : utf8Bytes "registry".data = asciiBytes "registry" := by decide
  have k11 : utf8Bytes "swarm".data = asciiBytes "swarm" := by decide
  simp only [DeployRequest.String, RawDeployRequest.String, DeployRequest.raw, utf8Bytes_cons,
    utf8Bytes_append, utf8Bytes_jsonString, utf8Bytes_formatInt, utf8Bytes_jsonBoolText, hb, he,
    hc, hm, k1, k2, k3, k4, k5, k6, k7, k8, k9, k10, k11, List.singleton_append]
  rfl

/-- For a request whose fields are text, with `NumCont` a 64-bit `int`, unmarshalling
the text `String` produces gives back the request. -/
theorem jsonUnmarshal_String (r : DeployRequest)
    (hlo : -(2 : Int) ^ 63 ≤ r.NumCont) (hhi : r.NumCont < (2 : Int) ^ 63) :
    jsonUnmarshal r.String = .ok r := by
  unfold DeployRequest.String
  rw [jsonUnmarshal_object]
  generalize hcs : jsonString "deployID" _ = cs
  have hl : 11 ≤ cs.length := by
    rw [← hcs]
    simp [jsonString, List.length_append]
    omega
  obtain ⟨n, hn⟩ : ∃ n, cs.length = n + 11 := ⟨cs.length - 11, by omega⟩
  rw [hn, ← hcs]
  simp [jsonMembers, jsonStringLit_jsonString, jsonSetField, jsonInt_formatInt _ _ hlo hhi,
    jsonBool_text, zeroDeployRequest]

/-! ## Claims on the deploy pipeline -/

/-- C1: when the tracker lookup for (environment, image name) reports no entry
(empty value, error `redis: nil`), the run does not fail at that step (the operation
after the lookup is the `Started` write of the workspace step), and every start of
`deploy-containers.sh` in the run carries the requested image tag both as its
second argument (current tag) and as its third argument (previous tag). -/
theorem C1_missing_entry_falls_back_to_requested_tag (w : World) (o : Options)
    (r : DeployRequest) (row : DeployStatus)
    (hq : w.queryDeploy r.DeployID = .ok row)
    (hnil : w.hget (lastDeployKey o r) r.ImageName = ("", some "redis: nil")) :
    (∃ rest, deploy w o r =
      .queryDeploy r.DeployID ::
      .updateDeploy r.DeployID Started "Started Deploy." (row.Log ++ sprintln "Started Deploy.") ::
      .hget (lastDeployKey o r) r.ImageName ::
      .updateDeploy r.DeployID Started "Creating working temp directory for this deploy."
        (row.Log ++ sprintln "Started Deploy." ++
          sprintln "Creating working temp directory for this deploy.") :: rest) ∧
    (∀ args, Event.exec "./scripts/deploy-containers.sh" args ∈ deploy w o r →
      args[1]? = some r.ImageTag ∧ args[2]? = some r.ImageTag) := by
  rcases deploy_paths w o r with
    ⟨err, hq1, ht⟩ | ⟨row1, e, hq1, hg, hne, ht⟩ | ⟨row1, e, hq1, hg, hm, ht⟩ |
    ⟨row1, e, hq1, hr, hf, ht⟩ | ⟨row1, e, hq1, hr, hp, hs, hn, ht⟩ | ⟨row1, e, hq1, hr, hf, ht⟩ |
    ⟨row1, e, hq1, hr, hf, ht⟩ | ⟨row1, e, hq1, hr, hf, ht⟩ | ⟨row1, e, hq1, hr, hp, hs, ht⟩ |
    ⟨row1, hq1, hr, hp, hs, ht⟩
  · simp [hq] at hq1
  · rw [hnil] at hg
    simp at hg
    exact absurd hg.symm hne
  all_goals obtain rfl := queryDeploy_row w r row row1 hq hq1
  all_goals rw [ht]
  all_goals by_cases hep : r.EtcdEndpoint = ""
  all_goals
    simp [upToLaunch, keySteps, upToPublish, upToMeta, upToImage, evImage, evMeta, evPublish,
      evLaunch, evTrackerSet, evCleanup, logWorkspace, hep, hnil]

/-- Witness of C1: the sample request for tag `v2` with no tracker entry starts the
launch script with `v2` as current and as previous tag. -/
theorem C1_missing_entry_witness :
    (sampleWorld ("", some "redis: nil") none (fun _ => quietProc)).queryDeploy
        sampleRequest.DeployID = .ok sampleRow ∧
    (sampleWorld ("", some "redis: nil") none (fun _ => quietProc)).hget
        (lastDeployKey sampleOptions sampleRequest) sampleRequest.ImageName =
      ("", some "redis: nil") ∧
    Event.exec "./scripts/deploy-containers.sh"
        ["foo", "v2", "v2", "reg", "foo", "m1", "2", "docker", "false",
          "/tmp/docker-deploy-server/qa/foo-abcdefgh01234567"] ∈
      deploy (sampleWorld ("", some "redis: nil") none (fun _ => quietProc)) sampleOptions
        sampleRequest ∧
    (["foo", "v2", "v2", "reg", "foo", "m1", "2", "docker", "false",
        "/tmp/docker-deploy-server/qa/foo-abcdefgh01234567"][1]? = some sampleRequest.ImageTag ∧
      ["foo", "v2", "v2", "reg", "foo", "m1", "2", "docker", "false",
        "/tmp/docker-deploy-server/qa/foo-abcdefgh01234567"][2]? = some sampleRequest.ImageTag) :=
  ⟨rfl, rfl, by decide,
    (C1_missing_entry_falls_back_to_requested_tag
      (sampleWorld ("", some "redis: nil") none (fun _ => quietProc)) sampleOptions
      sampleRequest sampleRow rfl rfl).2 _ (by decide)⟩

/-- C2: when the tracker holds a non-empty tag `t1` for (environment, image name),
every start of `deploy-containers.sh` in the run carries the requested tag as
current tag (second argument) and `t1` as previous tag (third argument); and when
every step of the run succeeds, the run ends with the launch, then the tracker set
of (environment key, image name) to the requested tag, then the `Success` write,
then the removal of the workspace.  More generally a `Success` write is always
directly preceded by that tracker set. -/
theorem C2_prior_tag_passed_and_tracker_updated (w : World) (o : Options) (r : DeployRequest)
    (t1 : String)
    (hget : w.hget (lastDeployKey o r) r.ImageName = (t1, none)) (ht1 : t1 ≠ "") :
    (∀ args, Event.exec "./scripts/deploy-containers.sh" args ∈ deploy w o r →
      args[1]? = some r.ImageTag ∧ args[2]? = some t1) ∧
    (∀ row, reachesLaunch w o r row → stepPasses (w.run "./scripts/deploy-containers.sh") →
      w.hset (lastDeployKey o r) r.ImageName r.ImageTag = none →
      ∃ pre args log, deploy w o r = pre ++
        [.exec "./scripts/deploy-containers.sh" args,
          .hset (lastDeployKey o r) r.ImageName r.ImageTag,
          .updateDeploy r.DeployID Success "Containers deployed successfully." log,
          .removeAll (tempDirName w o r)] ∧
        args[1]? = some r.ImageTag ∧ args[2]? = some t1) ∧
    (∀ m l, Event.updateDeploy r.DeployID Success m l ∈ deploy w o r →
      ∃ pre, deploy w o r = pre ++
        [.hset (lastDeployKey o r) r.ImageName r.ImageTag,
          .updateDeploy r.DeployID Success m l, .removeAll (tempDirName w o r)]) := by
  refine ⟨?_, ?_, ?_⟩
  · rcases deploy_paths w o r with
      ⟨err, hq1, ht⟩ | ⟨row1, e, hq1, hg, hne, ht⟩ | ⟨row1, e, hq1, hg, hm, ht⟩ |
      ⟨row1, e, hq1, hr, hf, ht⟩ | ⟨row1, e, hq1, hr, hp, hs, hn, ht⟩ |
      ⟨row1, e, hq1, hr, hf, ht⟩ | ⟨row1, e, hq1, hr, hf, ht⟩ | ⟨row1, e, hq1, hr, hf, ht⟩ |
      ⟨row1, e, hq1, hr, hp, hs, ht⟩ | ⟨row1, hq1, hr, hp, hs, ht⟩
    all_goals rw [ht]
    all_goals by_cases hep : r.EtcdEndpoint = ""
    all_goals
      simp [upToLaunch, keySteps, upToPublish, upToMeta, upToImage, evImage, evMeta, evPublish,
        evLaunch, evTrackerSet, evCleanup, hep, hget, ht1]
  · intro row hr hp hs
    rw [deploy_success w o r row hr hp hs]
    exact ⟨upToLaunch w o r row, _, _, rfl, by simp [hget, ht1]⟩
  · rcases deploy_paths w o r with
      ⟨err, hq1, ht⟩ | ⟨row1, e, hq1, hg, hne, ht⟩ | ⟨row1, e, hq1, hg, hm, ht⟩ |
      ⟨row1, e, hq1, hr, hf, ht⟩ | ⟨row1, e, hq1, hr, hp, hs, hn, ht⟩ |
      ⟨row1, e, hq1, hr, hf, ht⟩ | ⟨row1, e, hq1, hr, hf, ht⟩ | ⟨row1, e, hq1, hr, hf, ht⟩ |
      ⟨row1, e, hq1, hr, hp, hs, ht⟩ | ⟨row1, hq1, hr, hp, hs, ht⟩
    all_goals rw [ht]
    all_goals by_cases hep : r.EtcdEndpoint = ""
    all_goals intro m l hmem
    all_goals
      simp [upToLaunch, keySteps, upToPublish, upToMeta, upToImage, evImage, evMeta, evPublish,
        evLaunch, evTrackerSet, evCleanup, hep, Started, Success, Failed] at hmem
    all_goals
      obtain ⟨rfl, rfl⟩ := hmem
      exact ⟨upToLaunch w o r row1 ++ [evLaunch w o r], by simp [evTrackerSet, evCleanup]⟩

theorem sample_reachesLaunch (hget : String × Option String)
    (h : hget.2 = none ∨ hget.2 = some "redis: nil") (run : String → ProcOutcome)
    (h1 : stepPasses (run "./scripts/download-image.sh"))
    (h2 : stepPasses (run "./scripts/download-metadata.sh"))
    (h3 : stepPasses (run "./scripts/deploy-metadata.sh")) :
    reachesLaunch (sampleWorld hget none run) sampleOptions sampleRequest sampleRow :=
  ⟨⟨⟨⟨rfl, h, rfl⟩, h1, fun _ h => Option.noConfusion h⟩, h2⟩, h3⟩

/-- Witness of C2: with `(qa, foo) -> v1` in the tracker and every step succeeding,
the sample request for `v2` launches with previous `v1`, current `v2`, then sets the
tracker to `v2` and writes `Success`. -/
theorem C2_prior_tag_witness :
    (sampleWorld ("v1", none) none (fun _ => quietProc)).hget
        (lastDeployKey sampleOptions sampleRequest) sampleRequest.ImageName = ("v1", none) ∧
    "v1" ≠ "" ∧
    reachesLaunch (sampleWorld ("v1", none) none (fun _ => quietProc)) sampleOptions
      sampleRequest sampleRow ∧
    ∃ pre args log,
      deploy (sampleWorld ("v1", none) none (fun _ => quietProc)) sampleOptions sampleRequest =
        pre ++ [.exec "./scripts/deploy-containers.sh" args,
          .hset "docker-deploy-server:lastdeploy:qa" "foo" "v2",
          .updateDeploy "d1" Success "Containers deployed successfully." log,
          .removeAll "/tmp/docker-deploy-server/qa/foo-abcdefgh01234567"] ∧
      args[1]? = some "v2" ∧ args[2]? = some "v1" :=
  ⟨rfl, by decide,
    sample_reachesLaunch ("v1", none) (Or.inl rfl) (fun _ => quietProc) (by decide) (by decide)
      (by decide),
    (C2_prior_tag_passed_and_tracker_updated
      (sampleWorld ("v1", none) none (fun _ => quietProc)) sampleOptions sampleRequest "v1" rfl
      (by decide)).2.1 sampleRow
      (sample_reachesLaunch ("v1", none) (Or.inl rfl) (fun _ => quietProc) (by decide)
        (by decide) (by decide))
      (by decide) rfl⟩

/-- C3: in a run that gets to the image download, whose download passes and in
which `os.Stat` reports that `docker-compose.yml` does not exist in the workspace,
the last status write is `Failed` (with the manifest message), the only script
started is `download-image.sh`, and there is no configuration read, no call to the
coordination service and no tracker set. -/
theorem C3_missing_manifest_fails_the_run (w : World) (o : Options) (r : DeployRequest)
    (row : DeployStatus) (e : FileError)
    (hr : reachesImage w o r row)
    (hp : stepPasses (w.run "./scripts/download-image.sh"))
    (hs : w.stat (tempDirName w o r ++ "/docker-compose.yml") = some e)
    (hn : e.notExist = true) :
    (∃ log, (statusWrites (deploy w o r)).getLast? =
      some (Failed, "docker-compose.yml file doesn't exist for this launch.", log)) ∧
    execNames (deploy w o r) = ["./scripts/download-image.sh"] ∧
    configReads (deploy w o r) = [] ∧
    etcdCalls (deploy w o r) = [] ∧
    trackerSets (deploy w o r) = [] := by
  rw [deploy_manifest_missing w o r row e hr hp hs hn]
  simp [statusWrites, statusWrite, execNames, execName, configReads, configRead, etcdCalls,
    isEtcdCall, trackerSets, trackerSet, upToImage, evImage, evCleanup]

/-- Witness of C3: the sample run in which the manifest is missing. -/
theorem C3_missing_manifest_witness :
    reachesImage (sampleWorld ("", some "redis: nil") (some ⟨"no such file or directory", true⟩)
      (fun _ => quietProc)) sampleOptions sampleRequest sampleRow ∧
    stepPasses quietProc ∧
    execNames (deploy (sampleWorld ("", some "redis: nil")
      (some ⟨"no such file or directory", true⟩) (fun _ => quietProc)) sampleOptions
      sampleRequest) = ["./scripts/download-image.sh"] :=
  ⟨⟨rfl, Or.inr rfl, rfl⟩, by decide,
    (C3_missing_manifest_fails_the_run
      (sampleWorld ("", some "redis: nil") (some ⟨"no such file or directory", true⟩)
        (fun _ => quietProc)) sampleOptions sampleRequest sampleRow
      ⟨"no such file or directory", true⟩ ⟨rfl, Or.inr rfl, rfl⟩ (by decide) rfl rfl).2.1⟩

/-- C4: in a run that gets to the launch and whose launch script writes exactly the
line `Desired container number already achieved` (with its newline) to standard
error, whatever its exit status, no `Failed` write carries the message of the launch
step, the launch is directly followed by the tracker set, and when the tracker set
succeeds the last status write is `Success` and no write of the run is `Failed`. -/
theorem C4_already_achieved_is_success (w : World) (o : Options) (r : DeployRequest)
    (row : DeployStatus)
    (hr : reachesLaunch w o r row)
    (herr : (w.run "./scripts/deploy-containers.sh").stderr =
      "Desired container number already achieved\n") :
    (∀ log, Event.updateDeploy r.DeployID Failed "Starting up containers." log ∉ deploy w o r) ∧
    (∃ pre args post, deploy w o r = pre ++
      .exec "./scripts/deploy-containers.sh" args ::
      .hset (lastDeployKey o r) r.ImageName r.ImageTag :: post) ∧
    (w.hset (lastDeployKey o r) r.ImageName r.ImageTag = none →
      (∃ log, (statusWrites (deploy w o r)).getLast? =
        some (Success, "Containers deployed successfully.", log)) ∧
      ∀ x ∈ statusWrites (deploy w o r), x.1 ≠ Failed) := by
  have hp : stepPasses (w.run "./scripts/deploy-containers.sh") := stepPasses_of_stderr _ herr
  cases hs : w.hset (lastDeployKey o r) r.ImageName r.ImageTag with
  | some e =>
    rw [deploy_fail_tracker w o r row e hr hp hs]
    refine ⟨?_, ⟨upToLaunch w o r row, _, _, rfl⟩, ?_⟩
    · by_cases hep : r.EtcdEndpoint = "" <;>
        simp [upToLaunch, keySteps, upToPublish, upToMeta, upToImage, evImage, evMeta,
          evPublish, evLaunch, evTrackerSet, evCleanup, hep, Started, Failed]
    · intro h; exact Option.noConfusion h
  | none =>
    rw [deploy_success w o r row hr hp hs]
    refine ⟨?_, ⟨upToLaunch w o r row, _, _, rfl⟩, ?_⟩
    · by_cases hep : r.EtcdEndpoint = "" <;>
        simp [upToLaunch, keySteps, upToPublish, upToMeta, upToImage, evImage, evMeta,
          evPublish, evLaunch, evTrackerSet, evCleanup, hep, Started, Success, Failed]
    · intro _
      by_cases hep : r.EtcdEndpoint = "" <;>
        simp [statusWrites, statusWrite, upToLaunch, keySteps, upToPublish, upToMeta,
          upToImage, evImage, evMeta, evPublish, evLaunch, evTrackerSet, evCleanup, hep, Started,
          Success, Failed]

/-- Witness of C4: the sample run whose launch script exits with status one and
reports that the container number is already achieved ends in `Success`. -/
theorem C4_already_achieved_witness :
    reachesLaunch (sampleWorld ("", some "redis: nil") none launchSaysAchieved) sampleOptions
      sampleRequest sampleRow ∧
    (launchSaysAchieved "./scripts/deploy-containers.sh").stderr =
      "Desired container number already achieved\n" ∧
    (∃ log, (statusWrites (deploy (sampleWorld ("", some "redis: nil") none launchSaysAchieved)
        sampleOptions sampleRequest)).getLast? =
      some (Success, "Containers deployed successfully.", log)) :=
  ⟨sample_reachesLaunch _ (Or.inr rfl) launchSaysAchieved (by decide) (by decide) (by decide),
    rfl,
    ((C4_already_achieved_is_success (sampleWorld ("", some "redis: nil") none launchSaysAchieved)
      sampleOptions sampleRequest sampleRow
      (sample_reachesLaunch _ (Or.inr rfl) launchSaysAchieved (by decide) (by decide)
        (by decide)) rfl).2.2 rfl).1⟩

/-- C5: the scripts a run starts are, in order, an initial segment of
download-image, download-metadata, deploy-metadata, deploy-containers; and when a
started script fails (`execCmd` returns an error whose text `e` is not the
already-achieved line), the run ends right there with a `Failed` write whose log is
the log of the last status write before the script extended by the entry
`ERR: <message>\n<e>\n`, followed only by the removal of the workspace, so that no
later script is started. -/
theorem C5_steps_in_order_and_failure_aborts (w : World) (o : Options) (r : DeployRequest) :
    execNames (deploy w o r) <+:
      ["./scripts/download-image.sh", "./scripts/download-metadata.sh",
        "./scripts/deploy-metadata.sh", "./scripts/deploy-containers.sh"] ∧
    ∀ name args e, Event.exec name args ∈ deploy w o r →
      (execCmd (w.run name)).2 = some e → e ≠ alreadyAchieved →
      ∃ pre msg log, deploy w o r = pre ++
        [.exec name args, .updateDeploy r.DeployID Failed msg (log ++ errEntry msg e),
          .removeAll (tempDirName w o r)] ∧
        (writtenLogs pre).getLast? = some log := by
  constructor
  · rcases deploy_paths w o r with
      ⟨err, hq1, ht⟩ | ⟨row1, e, hq1, hg, hne, ht⟩ | ⟨row1, e, hq1, hg, hm, ht⟩ |
      ⟨row1, e, hq1, hr, hf, ht⟩ | ⟨row1, e, hq1, hr, hp, hs, hn, ht⟩ |
      ⟨row1, e, hq1, hr, hf, ht⟩ | ⟨row1, e, hq1, hr, hf, ht⟩ | ⟨row1, e, hq1, hr, hf, ht⟩ |
      ⟨row1, e, hq1, hr, hp, hs, ht⟩ | ⟨row1, hq1, hr, hp, hs, ht⟩
    all_goals rw [ht]
    all_goals by_cases hep : r.EtcdEndpoint = ""
    all_goals
      simp [execNames, execName, upToLaunch, keySteps, upToPublish, upToMeta, upToImage,
        evImage, evMeta, evPublish, evLaunch, evTrackerSet, evCleanup, hep, List.cons_prefix_cons]
  · intro name args e hmem he hne
    obtain ⟨row, h | h | h | h⟩ := exec_mem_deploy w o r name args hmem
    · obtain ⟨hev, hr⟩ := h
      have hname : name = "./scripts/download-image.sh" := by
        simp only [evImage, Event.exec.injEq] at hev; exact hev.1
      subst hname
      rw [deploy_fail_image w o r row e hr ⟨he, hne⟩, hev]
      exact ⟨upToImage w o r row, _, logImage row, rfl,
        by simp [writtenLogs, statusWrites, statusWrite, upToImage]⟩
    · obtain ⟨hev, hr⟩ := h
      have hname : name = "./scripts/download-metadata.sh" := by
        simp only [evMeta, Event.exec.injEq] at hev; exact hev.1
      subst hname
      rw [deploy_fail_meta w o r row e hr ⟨he, hne⟩, hev]
      exact ⟨upToMeta w o r row, _, logMeta row, rfl,
        by simp [writtenLogs, statusWrites, statusWrite, upToMeta, upToImage, evImage]⟩
    · obtain ⟨hev, hr⟩ := h
      have hname : name = "./scripts/deploy-metadata.sh" := by
        simp only [evPublish, Event.exec.injEq] at hev; exact hev.1
      subst hname
      rw [deploy_fail_publish w o r row e hr ⟨he, hne⟩, hev]
      exact ⟨upToPublish w o r row, _, logPublish row, rfl,
        by simp [writtenLogs, statusWrites, statusWrite, upToPublish, upToMeta, upToImage,
          evImage, evMeta]⟩
    · obtain ⟨hev, hr⟩ := h
      have hname : name = "./scripts/deploy-containers.sh" := by
        simp only [evLaunch, Event.exec.injEq] at hev; exact hev.1
      subst hname
      rw [deploy_fail_launch w o r row e hr ⟨he, hne⟩, hev]
      exact ⟨upToLaunch w o r row, _, logLaunch r row, rfl,
        by by_cases hep : r.EtcdEndpoint = "" <;>
          simp [writtenLogs, statusWrites, statusWrite, upToLaunch, keySteps, upToPublish,
            upToMeta, upToImage, evImage, evMeta, evPublish, hep]⟩

/-- Witness of C5: in the sample run whose metadata download writes to standard
error, the run ends with the `Failed` write and the cleanup. -/
theorem C5_failure_aborts_witness :
    Event.exec "./scripts/download-metadata.sh"
        ["meta", "git@github.com:acme", "/tmp/docker-deploy-server/qa/foo-abcdefgh01234567"] ∈
      deploy (sampleWorld ("", some "redis: nil") none metaDownloadFails) sampleOptions
        sampleRequest ∧
    (execCmd (metaDownloadFails "./scripts/download-metadata.sh")).2 =
      some "fatal: repository not found\n" ∧
    "fatal: repository not found\n" ≠ alreadyAchieved ∧
    ∃ pre msg log,
      deploy (sampleWorld ("", some "redis: nil") none metaDownloadFails) sampleOptions
          sampleRequest = pre ++
        [.exec "./scripts/download-metadata.sh"
            ["meta", "git@github.com:acme", "/tmp/docker-deploy-server/qa/foo-abcdefgh01234567"],
          .updateDeploy "d1" Failed msg
            (log ++ errEntry msg "fatal: repository not found\n"),
          .removeAll "/tmp/docker-deploy-server/qa/foo-abcdefgh01234567"] ∧
        (writtenLogs pre).getLast? = some log :=
  ⟨by decide, by decide, by decide,
    (C5_steps_in_order_and_failure_aborts (sampleWorld ("", some "redis: nil") none
      metaDownloadFails) sampleOptions sampleRequest).2 _ _ _ (by decide) (by decide)
      (by decide)⟩

/-- C6: in a run whose initial read of the status row succeeds, whatever the
other outcomes, the status writes contain exactly one write with a terminal status
(`Success` or `Failed`); it is the last one, and every write before it has status
`Started`. -/
theorem C6_exactly_one_terminal_write_last (w : World) (o : Options) (r : DeployRequest)
    (row : DeployStatus) (h : w.queryDeploy r.DeployID = .ok row) :
    (∃ last, (statusWrites (deploy w o r)).getLast? = some last ∧
      (last.1 = Success ∨ last.1 = Failed)) ∧
    (∀ x ∈ (statusWrites (deploy w o r)).dropLast, x.1 = Started) ∧
    (statusWrites (deploy w o r)).countP (fun x => x.1 = Success ∨ x.1 = Failed) = 1 := by
  rcases deploy_paths w o r with
    ⟨err, hq, ht⟩ | ⟨row, e, hq, hg, hne, ht⟩ | ⟨row, e, hq, hg, hm, ht⟩ |
    ⟨row, e, hq, hr, hf, ht⟩ | ⟨row, e, hq, hr, hp, hs, hn, ht⟩ | ⟨row, e, hq, hr, hf, ht⟩ |
    ⟨row, e, hq, hr, hf, ht⟩ | ⟨row, e, hq, hr, hf, ht⟩ | ⟨row, e, hq, hr, hp, hs, ht⟩ |
    ⟨row, hq, hr, hp, hs, ht⟩
  · simp [hq] at h
  all_goals rw [ht]
  all_goals by_cases hep : r.EtcdEndpoint = ""
  all_goals
    simp [statusWrites, statusWrite, Started, Success, Failed, upToLaunch, keySteps, upToPublish,
      upToMeta, upToImage, evImage, evMeta, evPublish, evLaunch, evTrackerSet, evCleanup, hep]

/-- Witness of C6: the sample run in which the metadata download fails. -/
theorem C6_exactly_one_terminal_write_witness :
    (sampleWorld ("", some "redis: nil") none metaDownloadFails).queryDeploy
      sampleRequest.DeployID = .ok sampleRow ∧
    (statusWrites (deploy (sampleWorld ("", some "redis: nil") none metaDownloadFails)
      sampleOptions sampleRequest)).countP (fun x => x.1 = Success ∨ x.1 = Failed) = 1 :=
  ⟨rfl, (C6_exactly_one_terminal_write_last (sampleWorld ("", some "redis: nil") none
    metaDownloadFails) sampleOptions sampleRequest sampleRow rfl).2.2⟩

/-- C7: in a run that reads the status row `row`, the logs passed to the successive
status writes form a chain under the proper-prefix order that starts at `row.Log`:
the first written log strictly extends `row.Log` and each later one strictly
extends the one written before it.  (A run that cannot read the row writes nothing.) -/
theorem C7_written_logs_grow_by_appending (w : World) (o : Options) (r : DeployRequest)
    (row : DeployStatus) (h : w.queryDeploy r.DeployID = .ok row) :
    List.Chain properPrefix row.Log (writtenLogs (deploy w o r)) := by
  rcases deploy_paths w o r with
    ⟨err, hq, ht⟩ | ⟨row1, e, hq, hg, hne, ht⟩ | ⟨row1, e, hq, hg, hm, ht⟩ |
    ⟨row1, e, hq, hr, hf, ht⟩ | ⟨row1, e, hq, hr, hp, hs, hn, ht⟩ | ⟨row1, e, hq, hr, hf, ht⟩ |
    ⟨row1, e, hq, hr, hf, ht⟩ | ⟨row1, e, hq, hr, hf, ht⟩ | ⟨row1, e, hq, hr, hp, hs, ht⟩ |
    ⟨row1, hq, hr, hp, hs, ht⟩
  · simp [hq] at h
  all_goals obtain rfl := queryDeploy_row w r row row1 h hq
  all_goals rw [ht]
  all_goals by_cases hep : r.EtcdEndpoint = ""
  all_goals
    simp only [writtenLogs, statusWrites, statusWrite, upToLaunch, keySteps, upToPublish,
      upToMeta, upToImage, evImage, evMeta, evPublish, evLaunch, evTrackerSet, evCleanup,
      logLaunch, logKeys, logPublish, logMeta, logImage, logWorkspace, hep, ne_eq,
      not_true_eq_false, not_false_eq_true, ite_true, ite_false, if_true, if_false,
      List.cons_append, List.append_assoc,
      List.nil_append, List.filterMap_cons, List.filterMap_nil, List.map_cons, List.map_nil,
      List.chain_cons, List.Chain.nil, properPrefix_sprintln, properPrefix_errEntry,
      properPrefix_success, and_self]

/-- Witness of C7: the sample run in which every step succeeds. -/
theorem C7_written_logs_witness :
    (sampleWorld ("v1", none) none (fun _ => quietProc)).queryDeploy sampleRequest.DeployID =
      .ok sampleRow ∧
    List.Chain properPrefix sampleRow.Log
      (writtenLogs (deploy (sampleWorld ("v1", none) none (fun _ => quietProc)) sampleOptions
        sampleRequest)) :=
  ⟨rfl, C7_written_logs_grow_by_appending (sampleWorld ("v1", none) none (fun _ => quietProc))
    sampleOptions sampleRequest sampleRow rfl⟩

/-- C8: a run sets the tracker at most once; a tracker set is for the key of the
environment, the image name and the requested tag, and comes directly after a start
of `deploy-containers.sh` that passed; and a run that cannot read its status row, or
that writes `Failed` with the message of any step before the tracker write, sets
nothing in the tracker. -/
theorem C8_tracker_set_only_after_launch (w : World) (o : Options) (r : DeployRequest) :
    (trackerSets (deploy w o r)).length ≤ 1 ∧
    (∀ k f v, Event.hset k f v ∈ deploy w o r →
      k = lastDeployKey o r ∧ f = r.ImageName ∧ v = r.ImageTag ∧
      stepPasses (w.run "./scripts/deploy-containers.sh") ∧
      ∃ pre args post, deploy w o r = pre ++
        .exec "./scripts/deploy-containers.sh" args :: .hset k f v :: post) ∧
    (∀ m l, Event.updateDeploy r.DeployID Failed m l ∈ deploy w o r →
      m ≠ "Unable to access redis server to set last deploy image tag." →
      trackerSets (deploy w o r) = []) ∧
    (∀ err, w.queryDeploy r.DeployID = .error err → trackerSets (deploy w o r) = []) := by
  rcases deploy_paths w o r with
    ⟨err, hq, ht⟩ | ⟨row, e, hq, hg, hne, ht⟩ | ⟨row, e, hq, hg, hm, ht⟩ |
    ⟨row, e, hq, hr, hf, ht⟩ | ⟨row, e, hq, hr, hp, hs, hn, ht⟩ | ⟨row, e, hq, hr, hf, ht⟩ |
    ⟨row, e, hq, hr, hf, ht⟩ | ⟨row, e, hq, hr, hf, ht⟩ | ⟨row, e, hq, hr, hp, hs, ht⟩ |
    ⟨row, hq, hr, hp, hs, ht⟩
  all_goals rw [ht]
  all_goals refine ⟨?_, ?_, ?_, ?_⟩
  all_goals by_cases hep : r.EtcdEndpoint = ""
  all_goals
    first
    | (simp [trackerSets, trackerSet, upToLaunch, keySteps, upToPublish, upToMeta, upToImage,
        evImage, evMeta, evPublish, evLaunch, evTrackerSet, evCleanup, hep, hq, Started,
        Failed, Success]
       done)
    | (intro k f v hmem
       simp [upToLaunch, keySteps, upToPublish, upToMeta, upToImage, evImage, evMeta, evPublish,
         evLaunch, evTrackerSet, evCleanup, hep] at hmem
       obtain ⟨rfl, rfl, rfl⟩ := hmem
       exact ⟨rfl, rfl, rfl, hp, upToLaunch w o r row, _, _, rfl⟩)

/-- Witness of C8: the tracker set of the sample run in which every step succeeds. -/
theorem C8_tracker_set_witness :
    Event.hset "docker-deploy-server:lastdeploy:qa" "foo" "v2" ∈
      deploy (sampleWorld ("v1", none) none (fun _ => quietProc)) sampleOptions sampleRequest ∧
    "v2" = sampleRequest.ImageTag ∧
    stepPasses ((sampleWorld ("v1", none) none (fun _ => quietProc)).run
      "./scripts/deploy-containers.sh") :=
  ⟨by decide,
    ((C8_tracker_set_only_after_launch (sampleWorld ("v1", none) none (fun _ => quietProc))
      sampleOptions sampleRequest).2.1 "docker-deploy-server:lastdeploy:qa" "foo" "v2"
      (by decide)).2.2.1,
    ((C8_tracker_set_only_after_launch (sampleWorld ("v1", none) none (fun _ => quietProc))
      sampleOptions sampleRequest).2.1 "docker-deploy-server:lastdeploy:qa" "foo" "v2"
      (by decide)).2.2.2.1⟩

/-! ## Claims on the gateway row and on `execCmd` -/

/-- C9: the row `QueueDeploy` inserts at acceptance has the message
`Queued deploy.` and the log `Queued deploy.` followed by a newline, but its status
code is `Started` (= 2), not `Queued` (= 1): the pipeline is not the first to write
`Started`. -/
theorem C9_QueueDeploy_inserts_status_Started (deployID environment imageName imageTag : String) :
    (QueueDeploy deployID environment imageName imageTag).Status = Started ∧
    (QueueDeploy deployID environment imageName imageTag).Status = 2 ∧
    (QueueDeploy deployID environment imageName imageTag).Status ≠ Queued ∧
    Queued = 1 ∧
    (QueueDeploy deployID environment imageName imageTag).Message = "Queued deploy." ∧
    (QueueDeploy deployID environment imageName imageTag).Log = "Queued deploy.\n" :=
  ⟨rfl, rfl, by simp [QueueDeploy, Started, Queued], rfl, rfl, rfl⟩

/-- C10: for a subprocess that exits with status `status` and leaves `out` and
`err` in its captured buffers, `execCmd` returns a nil error exactly when the status
is zero and `err` is empty, its result then being `out`; and when `err` is not empty
it returns the empty result with an error whose text is `err`, whatever the status. -/
theorem C10_execCmd_contract (status : Nat) (out err : String) :
    ((execCmd ⟨.exited status, out, err⟩).2 = none ↔ status = 0 ∧ err = "") ∧
    (status = 0 ∧ err = "" → execCmd ⟨.exited status, out, err⟩ = (out, none)) ∧
    (err ≠ "" → execCmd ⟨.exited status, out, err⟩ = ("", some err)) := by
  unfold execCmd
  by_cases he : err = ""
  · cases status with
    | zero => simp [he, cmdRun]
    | succ n => simp [he, cmdRun]
  · simp [he]

/-- Witness of C10: a clean exit returns the standard output, and a non-empty
standard error is an error even with exit status zero. -/
theorem C10_execCmd_witness :
    ((0 = 0 ∧ "" = "") ∧ execCmd ⟨.exited 0, "pulled", ""⟩ = ("pulled", none)) ∧
    ("warning\n" ≠ "" ∧ execCmd ⟨.exited 0, "pulled", "warning\n"⟩ = ("", some "warning\n")) :=
  ⟨⟨⟨rfl, rfl⟩, (C10_execCmd_contract 0 "pulled" "").2.1 ⟨rfl, rfl⟩⟩,
    ⟨by decide, (C10_execCmd_contract 0 "pulled" "warning\n").2.2 (by decide)⟩⟩

/-! ## Claims on the executor log, the container count and the workspace -/

/-- Counterexample to C11 as stated: a step that exits with status zero, writes
nothing to standard error and writes `pulled v2` to standard output passes, and the
log `executeCommand` returns is not the incoming log with that output appended. -/
theorem C11_stdout_appended_counterexample :
    stepPasses ((sampleWorld ("", some "redis: nil") none (fun _ => chattyProc)).run
      "./scripts/download-image.sh") ∧
    (executeCommand (sampleWorld ("", some "redis: nil") none (fun _ => chattyProc))
      "./scripts/download-image.sh" ["v2", "reg", "foo", "/tmp/ws"] sampleRequest
      "Extracting meta-data from Docker image in registry." "Started Deploy.\n").log ≠
      "Started Deploy.\n" ++
        ((sampleWorld ("", some "redis: nil") none (fun _ => chattyProc)).run
          "./scripts/download-image.sh").stdout := by
  decide

/-- C11 (amended): for every executor step that succeeds, `executeCommand` returns a
nil error and the incoming log unchanged, and issues nothing but the start of the
script: the standard output of the step is discarded.  Accordingly the operations of
a run, status writes and their logs included, are the same whatever the scripts
write to standard output. -/
theorem C11_success_returns_log_unchanged (w : World) (o : Options) (r : DeployRequest) :
    (∀ name args msg log, stepPasses (w.run name) →
      (executeCommand w name args r msg log).log = log ∧
      (executeCommand w name args r msg log).err = none ∧
      (executeCommand w name args r msg log).events = [.exec name args]) ∧
    (∀ out, deploy (withStdout w out) o r = deploy w o r) := by
  refine ⟨?_, fun out => deploy_stdout w out o r⟩
  intro name args msg log h
  rcases executeCommand_cases w name args r msg log with ⟨_, hc⟩ | ⟨e, he, _⟩
  · rw [hc]; exact ⟨rfl, rfl, rfl⟩
  · exact absurd he (not_stepFails_of_stepPasses _ _ h)

/-- Witness of C11 (amended): the step that writes `pulled v2` to standard output
returns the incoming log. -/
theorem C11_success_returns_log_witness :
    stepPasses ((sampleWorld ("", some "redis: nil") none (fun _ => chattyProc)).run
      "./scripts/download-image.sh") ∧
    (executeCommand (sampleWorld ("", some "redis: nil") none (fun _ => chattyProc))
      "./scripts/download-image.sh" ["v2", "reg", "foo", "/tmp/ws"] sampleRequest
      "Extracting meta-data from Docker image in registry." "Started Deploy.\n").log =
      "Started Deploy.\n" :=
  ⟨by decide,
    ((C11_success_returns_log_unchanged
      (sampleWorld ("", some "redis: nil") none (fun _ => chattyProc)) sampleOptions
      sampleRequest).1
      "./scripts/download-image.sh" ["v2", "reg", "foo", "/tmp/ws"]
      "Extracting meta-data from Docker image in registry." "Started Deploy.\n"
      (by decide)).1⟩

/-- C15: every start of `deploy-containers.sh` carries as its seventh argument the
decimal text of the container count of the run; that count is the value of
`environments.<environment>.containers` when a metadata file `main` is readable and
the value is positive, and the `NumCont` of the request otherwise; and the file is
looked for in the metadata directory of the image first, in the common one only
when the first holds none. -/
theorem C15_container_count_override (w : World) (o : Options) (r : DeployRequest) :
    (∀ args, Event.exec "./scripts/deploy-containers.sh" args ∈ deploy w o r →
      args[6]? = some (formatInt (deployNumCont w o r (tempDirName w o r)))) ∧
    (∀ tmp v, readInConfig w "main" (numContPaths o r tmp) = .ok v →
      0 < v.getInt ("environments." ++ r.Environment ++ ".containers") →
      deployNumCont w o r tmp = v.getInt ("environments." ++ r.Environment ++ ".containers")) ∧
    (∀ tmp v, readInConfig w "main" (numContPaths o r tmp) = .ok v →
      v.getInt ("environments." ++ r.Environment ++ ".containers") ≤ 0 →
      deployNumCont w o r tmp = r.NumCont) ∧
    (∀ tmp e, readInConfig w "main" (numContPaths o r tmp) = .error e →
      deployNumCont w o r tmp = r.NumCont) ∧
    (∀ tmp c,
      w.configFile (tmp ++ "/" ++ o.GitRepo ++ "/roles/" ++ r.ImageName ++ "/meta") "main" =
        some c →
      findConfig w "main" (numContPaths o r tmp) = some c) ∧
    (∀ tmp,
      w.configFile (tmp ++ "/" ++ o.GitRepo ++ "/roles/" ++ r.ImageName ++ "/meta") "main" =
        none →
      findConfig w "main" (numContPaths o r tmp) =
        w.configFile (tmp ++ "/" ++ o.GitRepo ++ "/roles/common/meta") "main") := by
  refine ⟨?_, ?_, ?_, ?_, ?_, ?_⟩
  · rcases deploy_paths w o r with
      ⟨err, hq1, ht⟩ | ⟨row1, e, hq1, hg, hne, ht⟩ | ⟨row1, e, hq1, hg, hm, ht⟩ |
      ⟨row1, e, hq1, hr, hf, ht⟩ | ⟨row1, e, hq1, hr, hp, hs, hn, ht⟩ |
      ⟨row1, e, hq1, hr, hf, ht⟩ | ⟨row1, e, hq1, hr, hf, ht⟩ | ⟨row1, e, hq1, hr, hf, ht⟩ |
      ⟨row1, e, hq1, hr, hp, hs, ht⟩ | ⟨row1, hq1, hr, hp, hs, ht⟩
    all_goals rw [ht]
    all_goals by_cases hep : r.EtcdEndpoint = ""
    all_goals
      simp [upToLaunch, keySteps, upToPublish, upToMeta, upToImage, evImage, evMeta, evPublish,
        evLaunch, evTrackerSet, evCleanup, hep]
  · intro tmp v hv hpos
    simp [deployNumCont, hv, hpos]
  · intro tmp v hv hle
    simp [deployNumCont, hv, not_lt.mpr hle]
  · intro tmp e he
    simp [deployNumCont, he]
  · intro tmp c hc
    simp [numContPaths, findConfig, hc]
  · intro tmp hc
    simp [numContPaths, findConfig, hc]
    cases w.configFile (tmp ++ "/" ++ o.GitRepo ++ "/roles/common/meta") "main" <;> rfl

/-- Witness of C15: with five containers configured for `qa` in the common
metadata, the sample request (which carries `NumCont` two) launches five. -/
theorem C15_container_count_witness :
    Event.exec "./scripts/deploy-containers.sh"
        ["foo", "v2", "v1", "reg", "foo", "m1", "5", "docker", "false",
          "/tmp/docker-deploy-server/qa/foo-abcdefgh01234567"] ∈
      deploy sampleWorldWithMeta sampleOptions sampleRequest ∧
    readInConfig sampleWorldWithMeta "main"
      (numContPaths sampleOptions sampleRequest
        "/tmp/docker-deploy-server/qa/foo-abcdefgh01234567") = .ok sampleMeta ∧
    deployNumCont sampleWorldWithMeta sampleOptions sampleRequest
      "/tmp/docker-deploy-server/qa/foo-abcdefgh01234567" = 5 :=
  ⟨by decide, rfl,
    (C15_container_count_override sampleWorldWithMeta sampleOptions sampleRequest).2.1
      "/tmp/docker-deploy-server/qa/foo-abcdefgh01234567" sampleMeta rfl (by decide)⟩

/-- C17: in a run that creates its workspace, the directory is named
`<TempPath>/<environment>/<image name>-<suffix>` with a suffix of sixteen characters
drawn from `a` to `z` and `0` to `9`; the removal of that directory with all it holds
is the last operation of the run, whatever the outcome of the steps, and no other
removal is issued. -/
theorem C17_workspace_removed_last (w : World) (o : Options) (r : DeployRequest)
    (row : DeployStatus) (hr : reachesImage w o r row) :
    tempDirName w o r =
      o.TempPath ++ "/" ++ r.Environment ++ "/" ++ r.ImageName ++ "-" ++ w.randomString 16 ∧
    (w.randomString 16).length = 16 ∧
    (∀ c ∈ (w.randomString 16).data, c ∈ randomChars.data) ∧
    Event.mkdirAll (tempDirName w o r) ∈ deploy w o r ∧
    ∃ pre, deploy w o r = pre ++ [.removeAll (tempDirName w o r)] ∧
      ∀ d, Event.removeAll d ∉ pre := by
  refine ⟨rfl, ?_, ?_, ?_⟩
  · show ((List.range 16).map _).length = 16
    rw [List.length_map, List.length_range]
  · intro c hc
    simp only [World.randomString, List.mem_map] at hc
    obtain ⟨i, _, rfl⟩ := hc
    have hlt : w.rand i % randomChars.length < randomChars.data.length :=
      Nat.mod_lt _ (by decide)
    rw [List.getD_eq_getElem _ _ hlt]
    exact List.getElem_mem _
  · rcases deploy_paths w o r with
      ⟨err, hq1, ht⟩ | ⟨row1, e, hq1, hg, hne, ht⟩ | ⟨row1, e, hq1, hg, hm, ht⟩ |
      ⟨row1, e, hq1, hr1, hf, ht⟩ | ⟨row1, e, hq1, hr1, hp, hs, hn, ht⟩ |
      ⟨row1, e, hq1, hr1, hf, ht⟩ | ⟨row1, e, hq1, hr1, hf, ht⟩ | ⟨row1, e, hq1, hr1, hf, ht⟩ |
      ⟨row1, e, hq1, hr1, hp, hs, ht⟩ | ⟨row1, hq1, hr1, hp, hs, ht⟩
    · rw [hr.1] at hq1; exact Except.noConfusion hq1
    · rcases hr.2.1 with h | h
      · rw [h] at hg; exact Option.noConfusion hg
      · rw [h] at hg; exact absurd (Option.some.inj hg).symm hne
    · rw [hr.2.2] at hm; exact Option.noConfusion hm
    all_goals refine ⟨?_, (deploy w o r).dropLast, ?_, ?_⟩
    all_goals rw [ht]
    all_goals by_cases hep : r.EtcdEndpoint = ""
    all_goals
      simp [upToLaunch, keySteps, upToPublish, upToMeta, upToImage, evImage, evMeta, evPublish,
        evLaunch, evTrackerSet, evCleanup, hep]

/-- Witness of C17: the sample run in which the metadata download fails ends with
the removal of its workspace. -/
theorem C17_workspace_removed_witness :
    reachesImage (sampleWorld ("", some "redis: nil") none metaDownloadFails) sampleOptions
      sampleRequest sampleRow ∧
    ∃ pre, deploy (sampleWorld ("", some "redis: nil") none metaDownloadFails) sampleOptions
        sampleRequest =
      pre ++ [.removeAll (tempDirName (sampleWorld ("", some "redis: nil") none
        metaDownloadFails) sampleOptions sampleRequest)] ∧
      ∀ d, Event.removeAll d ∉ pre :=
  ⟨⟨rfl, Or.inr rfl, rfl⟩,
    (C17_workspace_removed_last (sampleWorld ("", some "redis: nil") none metaDownloadFails)
      sampleOptions sampleRequest sampleRow ⟨rfl, Or.inr rfl, rfl⟩).2.2.2.2⟩

/-- C18: when the status row cannot be read, the run consists of the failed read
and one line in the process log: it issues no status write, no tracker read or
write, no creation of a workspace and no start of a script. -/
theorem C18_unreadable_row_aborts (w : World) (o : Options) (r : DeployRequest) (err : String)
    (h : w.queryDeploy r.DeployID = .error err) :
    deploy w o r = [.queryDeploy r.DeployID,
      .logErrorf ("ERR: " ++ "Could not get Deploy from MySQL for ID: " ++ " " ++ r.DeployID ++
        "\n" ++ err ++ "\n")] ∧
    statusWrites (deploy w o r) = [] ∧
    (∀ k f, Event.hget k f ∉ deploy w o r) ∧
    trackerSets (deploy w o r) = [] ∧
    (∀ d, Event.mkdirAll d ∉ deploy w o r) ∧
    execNames (deploy w o r) = [] := by
  have ht : deploy w o r = [.queryDeploy r.DeployID,
      .logErrorf ("ERR: " ++ "Could not get Deploy from MySQL for ID: " ++ " " ++ r.DeployID ++
        "\n" ++ err ++ "\n")] := by
    unfold deploy
    rw [h]
  rw [ht]
  simp [statusWrites, statusWrite, trackerSets, trackerSet, execNames, execName]

/-- Witness of C18: the sample request against a status store without its row. -/
theorem C18_unreadable_row_witness :
    ({ sampleWorld ("", some "redis: nil") none (fun _ => quietProc) with
        queryDeploy := fun _ => .error "sql: no rows in result set" } : World).queryDeploy
      sampleRequest.DeployID = .error "sql: no rows in result set" ∧
    statusWrites (deploy ({ sampleWorld ("", some "redis: nil") none (fun _ => quietProc) with
        queryDeploy := fun _ => .error "sql: no rows in result set" } : World) sampleOptions
      sampleRequest) = [] :=
  ⟨rfl, (C18_unreadable_row_aborts ({ sampleWorld ("", some "redis: nil") none
      (fun _ => quietProc) with
        queryDeploy := fun _ => .error "sql: no rows in result set" } : World) sampleOptions
      sampleRequest "sql: no rows in result set" rfl).2.1⟩

/-! ## Claim on `createV4UUID` -/

theorem hexDigitUpper_mem (n : Nat) (h : n < 16) :
    hexDigitUpper n ∈ "0123456789ABCDEF".data := by
  interval_cases n <;> decide

set_option maxRecDepth 100000 in
theorem version_byte (b : Nat) (h : b < 256) :
    ((b ||| 0x40) &&& 0x4F) / 16 % 16 = 4 ∧ ((b ||| 0x40) &&& 0x4F) % 16 = b % 16 := by
  revert b
  decide

set_option maxRecDepth 100000 in
theorem variant_byte (b : Nat) (h : b < 256) :
    (((b ||| 0x80) &&& 0xBF) / 16 % 16 = 8 ∨ ((b ||| 0x80) &&& 0xBF) / 16 % 16 = 9 ∨
      ((b ||| 0x80) &&& 0xBF) / 16 % 16 = 10 ∨ ((b ||| 0x80) &&& 0xBF) / 16 % 16 = 11) ∧
    ((b ||| 0x80) &&& 0xBF) % 16 = b % 16 := by
  revert b
  decide

theorem list_of_length_16 (u : List Nat) (hl : u.length = 16) :
    ∃ b0 b1 b2 b3 b4 b5 b6 b7 b8 b9 b10 b11 b12 b13 b14 b15,
      u = [b0, b1, b2, b3, b4, b5, b6, b7, b8, b9, b10, b11, b12, b13, b14, b15] := by
  match u, hl with
  | [b0, b1, b2, b3, b4, b5, b6, b7, b8, b9, b10, b11, b12, b13, b14, b15], _ =>
    exact ⟨b0, b1, b2, b3, b4, b5, b6, b7, b8, b9, b10, b11, b12, b13, b14, b15, rfl⟩


theorem uuidText_data (b0 b1 b2 b3 b4 b5 b6 b7 b8 b9 b10 b11 b12 b13 b14 b15 : Nat) :
    (uuidText [b0, b1, b2, b3, b4, b5, b6, b7,
      b8, b9, b10, b11, b12, b13, b14, b15]).data =
    [
      hexDigitUpper (b0 / 16 % 16), hexDigitUpper (b0 % 16), hexDigitUpper (b1 / 16 % 16),
      hexDigitUpper (b1 % 16), hexDigitUpper (b2 / 16 % 16), hexDigitUpper (b2 % 16),
      hexDigitUpper (b3 / 16 % 16), hexDigitUpper (b3 % 16), '-', hexDigitUpper (b4 / 16 % 16),
      hexDigitUpper (b4 % 16), hexDigitUpper (b5 / 16 % 16), hexDigitUpper (b5 % 16), '-',
      hexDigitUpper (b6 / 16 % 16), hexDigitUpper (b6 % 16), hexDigitUpper (b7 / 16 % 16),
      hexDigitUpper (b7 % 16), '-', hexDigitUpper (b8 / 16 % 16), hexDigitUpper (b8 % 16),
      hexDigitUpper (b9 / 16 % 16), hexDigitUpper (b9 % 16), '-', hexDigitUpper (b10 / 16 % 16),
      hexDigitUpper (b10 % 16), hexDigitUpper (b11 / 16 % 16), hexDigitUpper (b11 % 16),
      hexDigitUpper (b12 / 16 % 16), hexDigitUpper (b12 % 16), hexDigitUpper (b13 / 16 % 16),
      hexDigitUpper (b13 % 16), hexDigitUpper (b14 / 16 % 16), hexDigitUpper (b14 % 16),
      hexDigitUpper (b15 / 16 % 16), hexDigitUpper (b15 % 16)] := by
  simp [uuidText, sprintX, hexByte, String.data_append]

theorem hexDigitUpper_eq (n : Nat) (h : n < 16) :
    hexDigitUpper n = "0123456789ABCDEF".data.getD n '0' := by
  interval_cases n <;> rfl

theorem hexDigitUpper_high (b : Nat) (h : b < 256) :
    hexDigitUpper (b / 16 % 16) = "0123456789ABCDEF".data.getD (b / 16) '0' := by
  have h1 : b / 16 < 16 := by omega
  rw [Nat.mod_eq_of_lt h1]
  exact hexDigitUpper_eq _ h1

theorem hexDigitUpper_low (b : Nat) :
    hexDigitUpper (b % 16) = "0123456789ABCDEF".data.getD (b % 16) '0' :=
  hexDigitUpper_eq _ (Nat.mod_lt _ (by decide))

set_option maxRecDepth 100000 in
theorem variant_nibble (b : Nat) (h : b < 256) :
    ((b ||| 0x80) &&& 0xBF) / 16 % 16 = 8 + b / 16 % 4 := by
  revert b
  decide

/-- C20: for every sixteen random bytes, the text `createV4UUID` returns has 36
characters, with `-` at positions 8, 13, 18 and 23 and an upper-case hexadecimal
digit everywhere else (groups of 8, 4, 4, 4 and 12 digits); its 13th digit (position
14) is `4` and its 17th digit (position 19) is `8`, `9`, `A` or `B`, namely the digit
of eight plus the two low bits of the high half of byte 8; and every other digit, the
`k`-th of the 32 counted from zero, is the digit of `0123456789ABCDEF` for the high
half (even `k`) or the low half (odd `k`) of byte `k / 2` as it was read. -/
theorem C20_createV4UUID_shape (u : List Nat) (hl : u.length = 16) (hb : ∀ b ∈ u, b < 256) :
    (createV4UUID u).length = 36 ∧
    (∀ i, i ∈ [8, 13, 18, 23] → (createV4UUID u).data[i]? = some '-') ∧
    (∀ i, i < 36 → i ∉ [8, 13, 18, 23] →
      ∃ c, (createV4UUID u).data[i]? = some c ∧ c ∈ "0123456789ABCDEF".data) ∧
    (createV4UUID u).data[14]? = some '4' ∧
    (∃ c, (createV4UUID u).data[19]? = some c ∧ c ∈ ['8', '9', 'A', 'B']) ∧
    (createV4UUID u).data[19]? =
      some ("0123456789ABCDEF".data.getD (8 + u.getD 8 0 / 16 % 4) '0') ∧
    (∀ k, k < 32 → k ≠ 12 → k ≠ 16 →
      (createV4UUID u).data[k + (if 8 ≤ k then 1 else 0) + (if 12 ≤ k then 1 else 0) +
          (if 16 ≤ k then 1 else 0) + (if 20 ≤ k then 1 else 0)]? =
        some ("0123456789ABCDEF".data.getD
          (if k % 2 = 0 then u.getD (k / 2) 0 / 16 else u.getD (k / 2) 0 % 16) '0')) := by
  obtain ⟨b0, b1, b2, b3, b4, b5, b6, b7, b8, b9, b10, b11, b12, b13, b14, b15, rfl⟩ :=
    list_of_length_16 u hl
  obtain ⟨h6a, h6b⟩ := version_byte b6 (hb b6 (by simp))
  obtain ⟨h8a, h8b⟩ := variant_byte b8 (hb b8 (by simp))
  have h8c := variant_nibble b8 (hb b8 (by simp))
  have hc : createV4UUID [b0, b1, b2, b3, b4, b5, b6, b7, b8, b9, b10, b11, b12, b13, b14, b15] =
      uuidText [b0, b1, b2, b3, b4, b5, (b6 ||| 0x40) &&& 0x4F, b7, (b8 ||| 0x80) &&& 0xBF, b9,
        b10, b11, b12, b13, b14, b15] := by
    simp [createV4UUID]
  have e0 := hexDigitUpper_high b0 (hb b0 (by simp))
  have e1 := hexDigitUpper_high b1 (hb b1 (by simp))
  have e2 := hexDigitUpper_high b2 (hb b2 (by simp))
  have e3 := hexDigitUpper_high b3 (hb b3 (by simp))
  have e4 := hexDigitUpper_high b4 (hb b4 (by simp))
  have e5 := hexDigitUpper_high b5 (hb b5 (by simp))
  have e7 := hexDigitUpper_high b7 (hb b7 (by simp))
  have e9 := hexDigitUpper_high b9 (hb b9 (by simp))
  have e10 := hexDigitUpper_high b10 (hb b10 (by simp))
  have e11 := hexDigitUpper_high b11 (hb b11 (by simp))
  have e12 := hexDigitUpper_high b12 (hb b12 (by simp))
  have e13 := hexDigitUpper_high b13 (hb b13 (by simp))
  have e14 := hexDigitUpper_high b14 (hb b14 (by simp))
  have e15 := hexDigitUpper_high b15 (hb b15 (by simp))
  have e8 : hexDigitUpper (8 + b8 / 16 % 4) =
      "0123456789ABCDEF".data.getD (8 + b8 / 16 % 4) '0' :=
    hexDigitUpper_eq _ (by omega)
  have hg : ∀ n, n < 16 → "0123456789ABCDEF".data.getD n '0' ∈ "0123456789ABCDEF".data := by
    intro n hn
    interval_cases n <;> decide
  have hm : ∀ b : Nat, b % 16 < 16 := fun b => Nat.mod_lt _ (by decide)
  have hh : ∀ b : Nat, b < 256 → b / 16 < 16 := fun b h => by omega
  have h4 : hexDigitUpper 4 = '4' := by decide
  have h17 : "0123456789ABCDEF".data.getD (8 + b8 / 16 % 4) '0' ∈ ['8', '9', 'A', 'B'] := by
    have : b8 / 16 % 4 < 4 := Nat.mod_lt _ (by decide)
    interval_cases (b8 / 16 % 4) <;> decide
  have h4m : '4' ∈ "0123456789ABCDEF".data := by decide
  rw [hc]
  simp only [String.length, uuidText_data, h6a, h6b, h8b, h8c, h4, e0, e1, e2, e3, e4, e5, e7,
    e9, e10, e11, e12, e13, e14, e15, e8, hexDigitUpper_low]
  refine ⟨rfl, ?_, ?_, rfl, ⟨_, rfl, h17⟩, rfl, ?_⟩
  · intro i hi
    simp only [List.mem_cons, List.mem_singleton, List.not_mem_nil, or_false] at hi
    rcases hi with rfl | rfl | rfl | rfl <;> rfl
  · intro i hi hn
    interval_cases i
    all_goals first
      | (exfalso; exact hn (by decide))
      | exact ⟨_, rfl, h4m⟩
      | exact ⟨_, rfl, hg _ (hm _)⟩
      | exact ⟨_, rfl, hg _ (hh _ (hb _ (by simp)))⟩
      | exact ⟨_, rfl, hg _ (by omega)⟩
  · intro k hk h12 h16
    interval_cases k
    all_goals first
      | rfl
      | exact absurd rfl h12
      | exact absurd rfl h16

/-- Witness of C20: sixteen sample bytes and the text `createV4UUID` gives for them. -/
theorem C20_createV4UUID_witness :
    [0x12, 0x34, 0x56, 0x78, 0x9A, 0xBC, 0xDE, 0xF0, 0x12, 0x34, 0x56, 0x78, 0x9A, 0xBC, 0xDE,
      0xF0].length = 16 ∧
    (∀ b ∈ [0x12, 0x34, 0x56, 0x78, 0x9A, 0xBC, 0xDE, 0xF0, 0x12, 0x34, 0x56, 0x78, 0x9A, 0xBC,
      0xDE, 0xF0], b < 256) ∧
    createV4UUID [0x12, 0x34, 0x56, 0x78, 0x9A, 0xBC, 0xDE, 0xF0, 0x12, 0x34, 0x56, 0x78, 0x9A,
      0xBC, 0xDE, 0xF0] = "12345678-9ABC-4EF0-9234-56789ABCDEF0" ∧
    (createV4UUID [0x12, 0x34, 0x56, 0x78, 0x9A, 0xBC, 0xDE, 0xF0, 0x12, 0x34, 0x56, 0x78, 0x9A,
      0xBC, 0xDE, 0xF0]).data[14]? = some '4' :=
  ⟨rfl, by decide, by decide,
    (C20_createV4UUID_shape [0x12, 0x34, 0x56, 0x78, 0x9A, 0xBC, 0xDE, 0xF0, 0x12, 0x34, 0x56,
      0x78, 0x9A, 0xBC, 0xDE, 0xF0] rfl (by decide)).2.2.2.1⟩

/-! ## Claim on the queue payload -/

set_option maxRecDepth 100000 in
/-- Counterexample to C16 as stated: the request whose image name is the three bytes
`66 FF 6F` is written with the escape of U+FFFD in the place of the byte `FF`, and
is read back with the image name `66 EF BF BD 6F`, which is another string. -/
theorem C16_queue_payload_counterexample :
    invalidNameRequest.ImageName = [0x66, 0xFF, 0x6F] ∧
    (∀ go122, invalidNameRequest.String go122 =
      asciiBytes ("\x7b\"deployID\":\"d1\",\"imageName\":\"f\\ufffdo\",\"imageTag\":\"v2\"," ++
        "\"environment\":\"qa\",\"envTag\":\"qa\",\"etcdEndpoint\":\"\",\"machine\":\"m1\"," ++
        "\"metaMount\":\"/meta\",\"numCont\":2,\"registry\":\"reg\",\"swarm\":false\x7d")) ∧
    (∀ go122, jsonUnmarshalBytes (invalidNameRequest.String go122) =
      some { invalidNameRequest with ImageName := [0x66, 0xEF, 0xBF, 0xBD, 0x6F] }) ∧
    (∀ go122, jsonUnmarshalBytes (invalidNameRequest.String go122) ≠
      some invalidNameRequest) := by
  decide

/-- C16 (amended): for every `DeployRequest` (its `NumCont` a 64-bit `int`), with
either version of the library, unmarshalling the bytes `String` produces into a zero
request gives back the request, equal in all eleven fields, when its string fields
are valid UTF-8; in general it gives the request with every byte of a string field
that starts no valid encoding replaced by the three bytes of U+FFFD.  A request
whose fields are text is such a valid request, the text `String` gives for it above
has the bytes `String` gives over bytes, and it is read back as it was. -/
theorem C16_queue_payload_round_trip (go122 : Bool) (r : RawDeployRequest)
    (hlo : -(2 : Int) ^ 63 ≤ r.NumCont) (hhi : r.NumCont < (2 : Int) ^ 63) :
    (r.valid = true → jsonUnmarshalBytes (r.String go122) = some r) ∧
    jsonUnmarshalBytes (r.String go122) = some r.coerce ∧
    (∀ t : DeployRequest, t.raw = r →
      r.valid = true ∧ utf8Bytes t.String.data = r.String false ∧
      jsonUnmarshal t.String = .ok t) := by
  have h := jsonUnmarshalBytes_String go122 r hlo hhi
  refine ⟨fun hv => ?_, h, ?_⟩
  · rw [h, RawDeployRequest.coerce_valid r hv]
  · rintro t rfl
    exact ⟨t.raw_valid, utf8Bytes_String t, jsonUnmarshal_String t hlo hhi⟩

set_option maxRecDepth 100000 in
/-- Witness of C16 (amended): the request for the image `café<` followed by a line
feed, the bytes on the queue for it, and its reading. -/
theorem C16_queue_payload_witness :
    (-(2 : Int) ^ 63 ≤ accentRequest.raw.NumCont ∧ accentRequest.raw.NumCont < (2 : Int) ^ 63) ∧
    accentRequest.raw.valid = true ∧
    accentRequest.raw.ImageName = [0x63, 0x61, 0x66, 0xC3, 0xA9, 0x3C, 0x0A] ∧
    accentRequest.raw.String true =
      utf8Bytes ("\x7b\"deployID\":\"d1\",\"imageName\":\"café\\u003c\\n\",\"imageTag\":\"v2\"," ++
        "\"environment\":\"qa\",\"envTag\":\"qa\",\"etcdEndpoint\":\"\",\"machine\":\"m1\"," ++
        "\"metaMount\":\"/meta\",\"numCont\":2,\"registry\":\"reg\",\"swarm\":false\x7d").data ∧
    jsonUnmarshalBytes (accentRequest.raw.String true) = some accentRequest.raw :=
  ⟨⟨by decide, by decide⟩, by decide, by decide, by decide,
    (C16_queue_payload_round_trip true accentRequest.raw (by decide) (by decide)).1 (by decide)⟩

/-! ## Claims on the deploy handler -/

set_option maxRecDepth 100000 in
/-- Counterexample to C13 as stated: a request whose body names the unknown
environment `nope` and whose content type is `text/plain` is answered 415, not 400. -/
theorem C13_unknown_environment_counterexample :
    (sampleHttp "text/plain" unknownEnvBody).Body = .ok unknownEnvBody ∧
    (sampleGateway.unmarshal unknownEnvBody).toOption.map (fun d => d.Environment) =
      some "nope" ∧
    sampleEnvOptions.Environments.lookup "nope" = none ∧
    deployHandler sampleGateway sampleEnvOptions (sampleHttp "text/plain" unknownEnvBody) =
      [.httpError InvalidMediaType 415] ∧
    ∀ m, GatewayEvent.httpError m 400 ∉
      deployHandler sampleGateway sampleEnvOptions (sampleHttp "text/plain" unknownEnvBody) := by
  refine ⟨rfl, by decide, by decide, by decide, ?_⟩
  intro m
  have h : deployHandler sampleGateway sampleEnvOptions (sampleHttp "text/plain" unknownEnvBody) =
      [.httpError InvalidMediaType 415] := by decide
  rw [h]
  simp

/-- C13 (amended): for every request whose body decodes to a deploy request for an
environment that is not a key of `Environments`, `deployHandler` pushes nothing on
the queue and inserts no status row; its only operation is an error answer: 415
`InvalidMediaType` when the content type or the accepted type is not
`application/json`; otherwise 405 `InvalidMethod` when the method is not `POST`;
otherwise 401 `InvalidAuthorization` when the token is not valid; and otherwise,
when the request passes these three checks, 400 `Invalid 'deployEnvironment'.`. -/
theorem C13_unknown_environment_rejected (g : Gateway) (o : Options) (req : HttpRequest)
    (b : String) (d : DeployRequest)
    (hb : req.Body = .ok b) (hd : g.unmarshal b = .ok d)
    (henv : o.Environments.lookup d.Environment = none) :
    (∀ k p, GatewayEvent.rpush k p ∉ deployHandler g o req) ∧
    (∀ row, GatewayEvent.queueDeploy row ∉ deployHandler g o req) ∧
    (req.ContentType = "application/json" → req.Accept = "application/json" →
      req.Method = "POST" → g.validAuth (req.Authorization.replace "Bearer " "") = true →
      deployHandler g o req = [.httpError InvalidDeployEnv 400]) ∧
    (∃ m c, deployHandler g o req = [.httpError m c] ∧
      (c = 400 ∨ c = 401 ∨ c = 405 ∨ c = 415)) ∧
    ((req.ContentType ≠ "application/json" ∨ req.Accept ≠ "application/json") →
      deployHandler g o req = [.httpError InvalidMediaType 415]) ∧
    (req.ContentType = "application/json" → req.Accept = "application/json" →
      req.Method ≠ "POST" →
      deployHandler g o req = [.httpError InvalidMethod 405]) ∧
    (req.ContentType = "application/json" → req.Accept = "application/json" →
      req.Method = "POST" → g.validAuth (req.Authorization.replace "Bearer " "") = false →
      deployHandler g o req = [.httpError InvalidAuthorization 401]) ∧
    InvalidMediaType = "Invalid Content-Type or Accept header value." ∧
    InvalidMethod = "Invalid Method for this route." ∧
    InvalidAuthorization = "Invalid authorization." ∧
    InvalidDeployEnv = "Invalid 'deployEnvironment'." := by
  have h415 : (req.ContentType ≠ "application/json" ∨ req.Accept ≠ "application/json") →
      deployHandler g o req = [.httpError InvalidMediaType 415] := by
    intro h
    simp [deployHandler, invalidHeader, h, StatusUnsupportedMediaType]
  have h405 : req.ContentType = "application/json" → req.Accept = "application/json" →
      req.Method ≠ "POST" →
      deployHandler g o req = [.httpError InvalidMethod 405] := by
    intro hc ha hm
    simp [deployHandler, invalidHeader, invalidMethod, hc, ha, hm, StatusMethodNotAllowed]
  have h401 : req.ContentType = "application/json" → req.Accept = "application/json" →
      req.Method = "POST" → g.validAuth (req.Authorization.replace "Bearer " "") = false →
      deployHandler g o req = [.httpError InvalidAuthorization 401] := by
    intro hc ha hm hv
    simp [deployHandler, invalidHeader, invalidMethod, invalidAuth, hc, ha, hm, hv,
      StatusUnauthorized]
  have h400 : req.ContentType = "application/json" → req.Accept = "application/json" →
      req.Method = "POST" → g.validAuth (req.Authorization.replace "Bearer " "") = true →
      deployHandler g o req = [.httpError InvalidDeployEnv 400] := by
    intro hc ha hm hv
    simp [deployHandler, invalidHeader, invalidMethod, invalidAuth, hc, ha, hm, hv, hb, hd,
      henv, StatusBadRequest]
  have key : deployHandler g o req = [.httpError InvalidMediaType 415] ∨
      deployHandler g o req = [.httpError InvalidMethod 405] ∨
      deployHandler g o req = [.httpError InvalidAuthorization 401] ∨
      deployHandler g o req = [.httpError InvalidDeployEnv 400] := by
    by_cases hc : req.ContentType = "application/json"
    · by_cases ha : req.Accept = "application/json"
      · by_cases hm : req.Method = "POST"
        · cases hv : g.validAuth (req.Authorization.replace "Bearer " "")
          · exact Or.inr (Or.inr (Or.inl (h401 hc ha hm hv)))
          · exact Or.inr (Or.inr (Or.inr (h400 hc ha hm hv)))
        · exact Or.inr (Or.inl (h405 hc ha hm))
      · exact Or.inl (h415 (Or.inr ha))
    · exact Or.inl (h415 (Or.inl hc))
  refine ⟨?_, ?_, h400, ?_, h415, h405, h401, rfl, rfl, rfl, rfl⟩
  · intro k p
    rcases key with h | h | h | h <;> rw [h] <;> simp
  · intro row
    rcases key with h | h | h | h <;> rw [h] <;> simp
  · rcases key with h | h | h | h
    · exact ⟨_, _, h, Or.inr (Or.inr (Or.inr rfl))⟩
    · exact ⟨_, _, h, Or.inr (Or.inr (Or.inl rfl))⟩
    · exact ⟨_, _, h, Or.inr (Or.inl rfl)⟩
    · exact ⟨_, _, h, Or.inl rfl⟩

set_option maxRecDepth 100000 in
/-- Witness of C13 (amended): the request for the unknown environment `nope`, sent
with the right headers, is answered 400. -/
theorem C13_unknown_environment_witness :
    (sampleHttp "application/json" unknownEnvBody).Body = .ok unknownEnvBody ∧
    deployHandler sampleGateway sampleEnvOptions (sampleHttp "application/json" unknownEnvBody) =
      [.httpError InvalidDeployEnv 400] :=
  ⟨rfl,
    (C13_unknown_environment_rejected sampleGateway sampleEnvOptions
      (sampleHttp "application/json" unknownEnvBody) unknownEnvBody
      { zeroDeployRequest with ImageName := "foo", ImageTag := "v2", Environment := "nope" }
      rfl rfl (by decide)).2.2.1 rfl rfl rfl rfl⟩

set_option maxRecDepth 100000 in
/-- C14: the container count `deployHandler` puts in the request it enqueues is the
default 2 whenever the body of the client carries no `numCont`, whatever the
environment configures, and the configured value only when the client sends a
non-zero `numCont`.  For the environment `qa` configured with `num_containers` 5 and
the usual body without `numCont`, the enqueued request carries 2, not 5. -/
theorem C14_enqueued_count_ignores_environment :
    (∀ o reqID d, (deployPayload o reqID d).NumCont =
      if d.NumCont = 0 then 2
      else (parseInt32 (envGet o d.Environment "num_containers")).getD 0) ∧
    parseInt32 (envGet sampleEnvOptions "qa" "num_containers") = some 5 ∧
    deployHandler sampleGateway sampleEnvOptions (sampleHttp "application/json" sampleBody) =
      [.rpush "docker-deploy-server:queue"
          (DeployRequest.String { sampleRequest with NumCont := 2 }),
        .queueDeploy (QueueDeploy "d1" "qa" "foo" "v2"),
        .write "\x7b\"deployID\":\"d1\"\x7d"] := by
  refine ⟨?_, by decide, by decide⟩
  intro o reqID d
  unfold deployPayload
  simp only [NewDeployRequest, DefaultNumCont]
  by_cases h : d.NumCont = 0
  · by_cases ht : d.ImageTag = "" <;> simp [h, ht]
  · by_cases ht : d.ImageTag = "" <;> simp [h, ht] <;>
      cases parseInt32 (envGet o d.Environment "num_containers") <;> rfl

/-! ## Claims on the worker loop and on the key publication -/

theorem runLoop_no_signal (o : Options) (turns : List Turn)
    (h : ∀ t ∈ turns, t.done = false) :
    (runLoop o turns).1 = false ∧
    ((runLoop o turns).2.filter (fun e => e = .sleep o.RedisPollInt)).length = turns.length := by
  induction turns with
  | nil => exact ⟨rfl, rfl⟩
  | cons t ts ih =>
    have ht : t.done = false := h t (by simp)
    obtain ⟨i1, i2⟩ := ih (fun t ht => h t (by simp [ht]))
    have hs : (runSelect o t).1 = false := by simp [runSelect, ht]
    have hn : ∀ e ∈ (runSelect o t).2, e ≠ RunEvent.sleep o.RedisPollInt := by
      intro e he
      simp only [runSelect, ht] at he
      simp only [Bool.false_eq_true, if_false, List.mem_cons] at he
      rcases he with rfl | he
      · simp
      · split at he
        · simp only [List.mem_singleton] at he; rw [he]; simp
        · split at he
          · simp at he
          · split at he
            · simp only [List.mem_singleton] at he; rw [he]; simp
            · obtain ⟨x, _, rfl⟩ := List.mem_map.mp he
              simp
    have hf : (runSelect o t).2.filter (fun e => e = .sleep o.RedisPollInt) = [] := by
      rw [List.filter_eq_nil_iff]
      intro e he
      simpa using hn e he
    simp only [runLoop, hs, Bool.false_eq_true, if_false, List.filter_append, hf,
      List.nil_append, i1, true_and]
    simp [i2]

/-- C19: a turn of the loop of `Run` that does not find the shutdown signal starts
with the pop of the queue and never makes `Run` return, whatever the pop, the
decoding or the deploy run gives; the loop then sleeps for the poll interval and
goes on with the next turn.  A turn makes `Run` return exactly when it finds the
signal, and it then closes the two connections and pops nothing.  Hence over turns
without the signal `Run` does not return and sleeps once per turn, and over turns
that start with `pre`, all without the signal, followed by a turn with it, `Run`
returns in that turn and takes none of the later ones. -/
theorem C19_run_returns_only_on_signal (o : Options) :
    (∀ t, t.done = false →
      (runSelect o t).1 = false ∧ ∃ rest, (runSelect o t).2 = .rpop o.RedisKeyQueue :: rest) ∧
    (∀ t ts, t.done = false →
      runLoop o (t :: ts) =
        ((runLoop o ts).1, (runSelect o t).2 ++ .sleep o.RedisPollInt :: (runLoop o ts).2)) ∧
    (∀ t, (runSelect o t).1 = true ↔ t.done = true) ∧
    (∀ t, t.done = true →
      (runSelect o t).2 = [.dbClose, .redisClose] ∧
      ∀ k, RunEvent.rpop k ∉ (runSelect o t).2) ∧
    (∀ turns, (∀ t ∈ turns, t.done = false) →
      (Run o turns).1 = false ∧
      ((Run o turns).2.filter (fun e => e = .sleep o.RedisPollInt)).length = turns.length) ∧
    (∀ pre t post, (∀ x ∈ pre, x.done = false) → t.done = true →
      (Run o (pre ++ t :: post)).1 = true ∧
      (Run o (pre ++ t :: post)).2 =
        .wgAdd :: (runLoop o pre).2 ++ [.dbClose, .redisClose, .wgDone]) := by
  refine ⟨?_, ?_, ?_, ?_, ?_, ?_⟩
  · intro t ht
    simp [runSelect, ht]
  · intro t ts ht
    have hs : (runSelect o t).1 = false := by simp [runSelect, ht]
    simp [runLoop, hs]
  · intro t
    cases hd : t.done <;> simp [runSelect, hd]
  · intro t ht
    simp [runSelect, ht]
  · intro turns h
    obtain ⟨h1, h2⟩ := runLoop_no_signal o turns h
    refine ⟨h1, ?_⟩
    simp only [Run, h1, Bool.false_eq_true, if_false, List.append_nil, List.filter_cons]
    simpa using h2
  · intro pre t post hpre ht
    have hs : (runSelect o t).1 = true ∧ (runSelect o t).2 = [.dbClose, .redisClose] := by
      simp [runSelect, ht]
    have key : runLoop o (pre ++ t :: post) =
        (true, (runLoop o pre).2 ++ [.dbClose, .redisClose]) := by
      induction pre with
      | nil => simp [runLoop, hs.1, hs.2]
      | cons x xs ih =>
        have hx : (runSelect o x).1 = false := by
          simp [runSelect, hpre x (by simp)]
        have := ih (fun y hy => hpre y (by simp [hy]))
        simp [runLoop, hx, this]
    simp [Run, key]

set_option maxRecDepth 100000 in
/-- Witness of C19: over the sample turns (a queue read error, an empty queue, a
payload that is not JSON, a deploy run, then the signal) `Run` sleeps four times
and returns at the signal. -/
theorem C19_run_witness :
    (∀ x ∈ sampleTurns.take 4, x.done = false) ∧
    (Run sampleOptions sampleTurns).1 = true ∧
    ((Run sampleOptions sampleTurns).2.filter
      (fun e => e = .sleep sampleOptions.RedisPollInt)).length = 4 ∧
    (Run sampleOptions sampleTurns).2 =
      .wgAdd :: (runLoop sampleOptions (sampleTurns.take 4)).2 ++
        [.dbClose, .redisClose, .wgDone] :=
  ⟨by decide, by decide, by decide,
    ((C19_run_returns_only_on_signal sampleOptions).2.2.2.2.2 (sampleTurns.take 4)
      { idleTurn with done := true } [idleTurn] (by decide) rfl).2⟩

set_option maxRecDepth 100000 in
/-- C12: with a record for the key `/app/log` in the common metadata (value `info`)
and in the metadata of the image (value `debug`), `updateEtcd` reads the two files,
finds its key map empty and returns without a call to the coordination service: no
mapping is passed to it, neither with `debug` nor with `info` for the key. -/
theorem C12_updateEtcd_passes_no_mapping :
    ((sampleWorldWithKeys.configFile "/tmp/ws/meta/roles/common/meta" "qa.etcd2").map
      (fun c => c.records)) = some [[("key", "/app/log"), ("value", "info")]] ∧
    ((sampleWorldWithKeys.configFile "/tmp/ws/meta/roles/foo/meta" "qa.etcd2").map
      (fun c => c.records)) = some [[("key", "/app/log"), ("value", "debug")]] ∧
    updateEtcd sampleWorldWithKeys sampleOptions
        { sampleRequest with EtcdEndpoint := "etcd:2379" } "/tmp/ws" =
      (("", none),
        [.readInConfig "qa.etcd2" ["/tmp/ws/meta/roles/common/meta"],
          .readInConfig "qa.etcd2" ["/tmp/ws/meta/roles/foo/meta"]]) ∧
    etcdCalls (updateEtcd sampleWorldWithKeys sampleOptions
        { sampleRequest with EtcdEndpoint := "etcd:2379" } "/tmp/ws").2 = [] := by
  refine ⟨by decide, by decide, by decide, by decide⟩

/-! ## Claims on the key publication as written and on the already-achieved line -/

/-- C21: whatever the metadata files hold, `readEtcdKeys` returns the key map it was
given; hence for every request and workspace `updateEtcd` reads the two files, finds
its map empty and returns the empty message with a nil error, without a connection
to the coordination endpoint and without setting a key; and no run of `deploy`
issues a call to the coordination service. -/
theorem C21_readEtcdKeys_leaves_map_unchanged (w : World) (o : Options) (r : DeployRequest)
    (tempDirectory : String) :
    (∀ name paths m, (readEtcdKeys w name paths m).1 = m) ∧
    (updateEtcd w o r tempDirectory).1 = ("", none) ∧
    (updateEtcd w o r tempDirectory).2 =
      [.readInConfig (r.Environment ++ ".etcd2")
          [tempDirectory ++ "/" ++ o.GitRepo ++ "/roles/common/meta"],
        .readInConfig (r.Environment ++ ".etcd2")
          [tempDirectory ++ "/" ++ o.GitRepo ++ "/roles/" ++ r.ImageName ++ "/meta"]] ∧
    (∀ endpoint, Event.etcdConnect endpoint ∉ (updateEtcd w o r tempDirectory).2) ∧
    (∀ keys, Event.etcdSet keys ∉ (updateEtcd w o r tempDirectory).2) ∧
    etcdCalls (deploy w o r) = [] := by
  refine ⟨?_, ?_, ?_, ?_, ?_, deploy_no_etcd w o r⟩
  · intro name paths m
    rw [readEtcdKeys_eq]
  · rw [updateEtcd_eq]
  · rw [updateEtcd_eq]
  · intro endpoint
    rw [updateEtcd_eq]
    simp
  · intro keys
    rw [updateEtcd_eq]
    simp

/-- C22: for any script, hence for each of the four executor steps, when the
standard error of the step is the already-achieved line, `executeCommand` returns a
nil error and the log it was given and issues only the start of the script (no
`Failed` write), whatever the exit status; the run is then, operation for operation,
the run in which that step exits with status zero and writes nothing; and the
operation that follows the start of the script is the one that follows a success:
the manifest check after download-image, the status write of the container count
after download-metadata, the key publication (if any) and the status write of the
launch after deploy-metadata, and the tracker set after deploy-containers. -/
theorem C22_already_achieved_passes_every_step (w : World) (o : Options) (r : DeployRequest) :
    (∀ name args msg log, (w.run name).stderr = alreadyAchieved →
      executeCommand w name args r msg log = ⟨log, none, [.exec name args]⟩) ∧
    (∀ name, (w.run name).stderr = alreadyAchieved →
      deploy w o r = deploy (withOutcome w name quietProc) o r) ∧
    (∀ row, reachesImage w o r row →
      (w.run "./scripts/download-image.sh").stderr = alreadyAchieved →
      upToImage w o r row ++
        [evImage w o r, .stat (tempDirName w o r ++ "/docker-compose.yml")] <+: deploy w o r) ∧
    (∀ row, reachesMeta w o r row →
      (w.run "./scripts/download-metadata.sh").stderr = alreadyAchieved →
      upToMeta w o r row ++
        [evMeta w o r,
          .updateDeploy r.DeployID Started "Extracting number of containers to launch."
            (logMeta row ++ sprintln "Extracting number of containers to launch.")] <+:
        deploy w o r) ∧
    (∀ row, reachesPublish w o r row →
      (w.run "./scripts/deploy-metadata.sh").stderr = alreadyAchieved →
      upToPublish w o r row ++ evPublish w o r :: keySteps w o r row ++
        [.updateDeploy r.DeployID Started "Starting up containers." (logLaunch r row)] <+:
        deploy w o r) ∧
    (∀ row, reachesLaunch w o r row →
      (w.run "./scripts/deploy-containers.sh").stderr = alreadyAchieved →
      upToLaunch w o r row ++ [evLaunch w o r, evTrackerSet o r] <+: deploy w o r) := by
  refine ⟨?_, ?_, ?_, ?_, ?_, ?_⟩
  · intro name args msg log h
    rcases executeCommand_cases w name args r msg log with ⟨_, hc⟩ | ⟨e, he, _⟩
    · exact hc
    · exact absurd he (not_stepFails_of_stepPasses _ _ (stepPasses_of_stderr _ h))
  · intro name h
    exact (deploy_withOutcome w name h o r).symm
  · intro row hr h
    exact deploy_after_image w o r row hr (stepPasses_of_stderr _ h)
  · intro row hr h
    exact deploy_after_meta w o r row hr (stepPasses_of_stderr _ h)
  · intro row hr h
    exact deploy_after_publish w o r row hr (stepPasses_of_stderr _ h)
  · intro row hr h
    exact deploy_after_launch w o r row hr (stepPasses_of_stderr _ h)

set_option maxRecDepth 100000 in
/-- Witness of C22: in the sample run whose four scripts all exit with status one
and write the already-achieved line to standard error, the image download is
followed by the manifest check, the run is the one in which the image download
succeeds, and its last status write is `Success`. -/
theorem C22_already_achieved_witness :
    (achievedProc.run = .exited 1 ∧ achievedProc.stderr = alreadyAchieved) ∧
    reachesImage (sampleWorld ("", some "redis: nil") none (fun _ => achievedProc)) sampleOptions
      sampleRequest sampleRow ∧
    upToImage (sampleWorld ("", some "redis: nil") none (fun _ => achievedProc)) sampleOptions
        sampleRequest sampleRow ++
      [.exec "./scripts/download-image.sh"
          ["v2", "reg", "foo", "/tmp/docker-deploy-server/qa/foo-abcdefgh01234567"],
        .stat "/tmp/docker-deploy-server/qa/foo-abcdefgh01234567/docker-compose.yml"] <+:
      deploy (sampleWorld ("", some "redis: nil") none (fun _ => achievedProc)) sampleOptions
        sampleRequest ∧
    execNames (deploy (sampleWorld ("", some "redis: nil") none (fun _ => achievedProc))
        sampleOptions sampleRequest) =
      ["./scripts/download-image.sh", "./scripts/download-metadata.sh",
        "./scripts/deploy-metadata.sh", "./scripts/deploy-containers.sh"] ∧
    (statusWrites (deploy (sampleWorld ("", some "redis: nil") none (fun _ => achievedProc))
      sampleOptions sampleRequest)).getLast?.map (fun x => x.1) = some Success :=
  ⟨⟨rfl, rfl⟩, ⟨rfl, Or.inr rfl, rfl⟩,
    (C22_already_achieved_passes_every_step
      (sampleWorld ("", some "redis: nil") none (fun _ => achievedProc)) sampleOptions
      sampleRequest).2.2.1 sampleRow ⟨rfl, Or.inr rfl, rfl⟩ rfl,
    by decide, by decide⟩

end DockerDeploy
